import Mathlib

/-!
# Ethereum transaction parser: store, transaction filter, RPC client and block monitor

A shallow embedding of `internal/storage/memory_storage.go`, `internal/utils/utils.go`,
`internal/parser/parser.go`, `internal/api/validation.go`, `config/config.go`,
`internal/parser/rpc_client.go`, `internal/notification/notification.go` and
`internal/monitor/monitor.go`, with the properties the specification states about them.

Conventions of the embedding

* A Go `string` is a Lean `String` (a valid UTF-8 string); `len` is the length in bytes.
* A Go `map[string]V` is an association list read at the first entry of a key; assignment
  overwrites that entry in place or adds a new entry at the end.  Iteration order of a Go
  map is unspecified, the list order stands for one possible order.
* A Go slice is a `List`; the nil slice and the empty slice are both `[]`.
* A method with a pointer receiver takes the receiver and returns the updated receiver.
* `int64` values that are only stored and compared are `Int`; `uint64` arithmetic of
  `strconv.ParseUint` is written out modulo `2 ^ 64`.
* `float64` is Lean's `Float` (IEEE 754 binary64).
* A `time.Duration` is a number of nanoseconds; Go string types are strings.
* The node is part of the state of the RPC client: it answers the `n`-th request posted,
  and the requests posted are recorded in order.  Log output is not modelled.
-/

namespace EthTxParser

/-! ## Go strings -/

/-- The ASCII branch of Go's `unicode.ToLower`: `'A'..'Z'` are shifted by `'a' - 'A'`. -/
def asciiToLower (c : Char) : Char :=
  if 'A'.toNat ≤ c.toNat ∧ c.toNat ≤ 'Z'.toNat then Char.ofNat (c.toNat + ('a'.toNat - 'A'.toNat))
  else c

/-- Go's `unicode.ToLower` on one rune: runes up to `unicode.MaxASCII` take the ASCII
branch, every other rune is looked up in the case table `tbl`. -/
def runeToLower (tbl : Char → Char) (c : Char) : Char :=
  if c.toNat ≤ 0x7F then asciiToLower c else tbl c

/-- The part of Go's `unicode.ToLower` that acts on runes above `unicode.MaxASCII`.  It is
driven by the table `unicode.CaseRanges` of the Go standard library, which is not part of
the repository, so it is a parameter of the development.  The one fact used about it is
that lower-casing a rune twice gives the same rune as lower-casing it once. -/
structure CaseTable where
  /-- the lower-case mapping of the runes above `unicode.MaxASCII` -/
  lower : Char → Char
  /-- lower-casing is stable -/
  stable : ∀ c : Char, runeToLower lower (runeToLower lower c) = runeToLower lower c

/-- Go's `strings.ToLower` on a valid UTF-8 string: every rune is mapped by
`unicode.ToLower` (the ASCII fast path of the library computes the same string). -/
def ToLower (U : CaseTable) (s : String) : String :=
  ⟨s.data.map (runeToLower U.lower)⟩

/-- Go's builtin `len` on a string: the number of bytes of its UTF-8 encoding. -/
def len (s : String) : Nat :=
  (s.data.map Char.utf8Size).sum

/-- Go's `strings.HasPrefix`. -/
def HasPrefix (s pre : String) : Bool :=
  pre.data.isPrefixOf s.data

/-- Go's `strings.TrimPrefix`. -/
def TrimPrefix (s pre : String) : String :=
  if HasPrefix s pre then ⟨s.data.drop pre.data.length⟩ else s

/-! ## Go maps -/

/-- A Go `map[string]V`. -/
abbrev GoMap (V : Type) := List (String × V)

namespace GoMap

/-- The two-valued read `v, ok := m[k]`. -/
def get? {V : Type} : GoMap V → String → Option V
  | [], _ => none
  | (k', v) :: m, k => if k' = k then some v else get? m k

/-- The assignment `m[k] = v`. -/
def set {V : Type} : GoMap V → String → V → GoMap V
  | [], k, v => [(k, v)]
  | (k', v') :: m, k, v => if k' = k then (k, v) :: m else (k', v') :: set m k v

end GoMap

/-! ## `internal/storage/memory_storage.go` -/

/-- A blockchain transaction with its key details. -/
structure Transaction where
  Hash : String
  FromAddress : String
  ToAddress : String
  Value : Float
  BlockNumber : Int
  Timestamp : Int

/-- The in-memory store. -/
structure MemoryStorage where
  transactions : GoMap (List Transaction)
  subscribers : GoMap Bool
  currentBlock : Int

/-- A new store: two empty maps and block 0. -/
def NewMemoryStorage : MemoryStorage :=
  { transactions := [], subscribers := [], currentBlock := 0 }

namespace MemoryStorage

/-- The statement group `if _, exists := ms.transactions[address]; !exists {...};
ms.transactions[address] = append(ms.transactions[address], transaction)`. -/
def appendAt (transactions : GoMap (List Transaction)) (address : String)
    (transaction : Transaction) : GoMap (List Transaction) :=
  let transactions1 :=
    if (transactions.get? address).isNone then transactions.set address [] else transactions
  transactions1.set address ((transactions1.get? address).getD [] ++ [transaction])

/-- Store a transaction. -/
def StoreTransaction (U : CaseTable) (ms : MemoryStorage) (transaction : Transaction) :
    MemoryStorage :=
  let address := ToLower U transaction.FromAddress
  let ms1 := { ms with transactions := appendAt ms.transactions address transaction }
  if transaction.ToAddress ≠ "" then
    let address := ToLower U transaction.ToAddress
    { ms1 with transactions := appendAt ms1.transactions address transaction }
  else ms1

/-- The history stored under the lower-cased address; `[]` (Go: nil) for a missing key. -/
def GetTransactions (U : CaseTable) (ms : MemoryStorage) (address : String) : List Transaction :=
  (ms.transactions.get? (ToLower U address)).getD []

/-- AddSubscriber adds a subscriber; the flag tells whether the address was accepted. -/
def AddSubscriber (U : CaseTable) (ms : MemoryStorage) (address : String) :
    Bool × MemoryStorage :=
  if !HasPrefix address "0x" || len address ≠ 42 then (false, ms)
  else (true, { ms with subscribers := ms.subscribers.set (ToLower U address) true })

/-- IsSubscribed: is the lower-cased address a key of the subscriber map. -/
def IsSubscribed (U : CaseTable) (ms : MemoryStorage) (address : String) : Bool :=
  (ms.subscribers.get? (ToLower U address)).isSome

/-- GetSubscribers: the keys of the subscriber map. -/
def GetSubscribers (ms : MemoryStorage) : List String :=
  ms.subscribers.map Prod.fst

/-- UpdateCurrentBlock overwrites the block cursor. -/
def UpdateCurrentBlock (ms : MemoryStorage) (blockNumber : Int) : MemoryStorage :=
  { ms with currentBlock := blockNumber }

/-- GetCurrentBlock reads the block cursor. -/
def GetCurrentBlock (ms : MemoryStorage) : Int :=
  ms.currentBlock

end MemoryStorage

/-! ## `strconv.ParseInt`, as used by `internal/utils/utils.go` -/

/-- The `Err` field of a `*strconv.NumError`. -/
inductive NumError where
  | ErrSyntax
  | ErrRange
  | ErrBase
  deriving DecidableEq, Repr

/-- The helper `lower` of package `strconv`: `c | ('x' - 'X')`. -/
def strconvLower (c : Nat) : Nat :=
  c ||| ('x'.toNat - 'X'.toNat)

/-- The digit loop of `strconv.ParseUint`.  The library walks the bytes of the string; a
rune above `unicode.MaxASCII` contributes only bytes of value `0x80` or more, each of which
is a syntax error, exactly as the rune itself is here. -/
def parseUintLoop (base cutoff maxVal : Nat) : List Char → Nat → Nat × Option NumError
  | [], n => (n, none)
  | c :: cs, n =>
    let d : Option Nat :=
      if '0'.toNat ≤ c.toNat ∧ c.toNat ≤ '9'.toNat then some (c.toNat - '0'.toNat)
      else if 'a'.toNat ≤ strconvLower c.toNat ∧ strconvLower c.toNat ≤ 'z'.toNat then
        some (strconvLower c.toNat - 'a'.toNat + 10)
      else none
    match d with
    | none => (0, some NumError.ErrSyntax)
    | some d =>
      if d ≥ base then (0, some NumError.ErrSyntax)
      else if n ≥ cutoff then (maxVal, some NumError.ErrRange)
      else
        let n0 := (n * base) % 2 ^ 64
        let n1 := (n0 + d) % 2 ^ 64
        if n1 < n0 ∨ n1 > maxVal then (maxVal, some NumError.ErrRange)
        else parseUintLoop base cutoff maxVal cs n1

/-- Go's `strconv.ParseUint(s, base, 64)` for an explicit base.  Base 0 (the base taken
from the literal's own marker) is not modelled: the repository parses with base 16. -/
def ParseUint (s : String) (base : Nat) : Nat × Option NumError :=
  if s = "" then (0, some NumError.ErrSyntax)
  else if 2 ≤ base ∧ base ≤ 36 then
    parseUintLoop base ((2 ^ 64 - 1) / base + 1) (2 ^ 64 - 1) s.data 0
  else (0, some NumError.ErrBase)

/-- The conversion `int64(x)` and the wrap-around of `int64` arithmetic. -/
def toInt64 (x : Int) : Int :=
  (x + 2 ^ 63) % 2 ^ 64 - 2 ^ 63

/-- Go's `strconv.ParseInt(s, base, 64)` for an explicit base. -/
def ParseInt (s : String) (base : Nat) : Int × Option NumError :=
  if s = "" then (0, some NumError.ErrSyntax)
  else
    let neg : Bool := s.data.head? = some '-'
    let s1 : String :=
      if s.data.head? = some '+' ∨ s.data.head? = some '-' then ⟨s.data.drop 1⟩ else s
    let (un, err) := ParseUint s1 base
    if err.isSome ∧ err ≠ some NumError.ErrRange then (0, err)
    else
      let cutoff : Nat := 2 ^ 63
      if !neg ∧ un ≥ cutoff then (toInt64 (cutoff - 1), some NumError.ErrRange)
      else if neg ∧ un > cutoff then (toInt64 (-(cutoff : Int)), some NumError.ErrRange)
      else
        let n := toInt64 un
        (if neg then toInt64 (-n) else n, none)

/-! ## `internal/utils/utils.go` -/

/-- String2Int64 converts a string to an int64 using the specified base. -/
def String2Int64 (s : String) (base : Nat) : Int × Option NumError :=
  ParseInt s base

/-! ## `internal/parser/parser.go` -/

/-- A Go `interface{}` holding a decoded JSON value. -/
inductive JSONValue where
  | null
  | bool (b : Bool)
  | number (x : Float)
  | string (s : String)
  | array (xs : List JSONValue)
  | object (fields : List (String × JSONValue))

/-- The type assertion `v.(string)` in its two-valued form; a missing map entry is the nil
interface, for which the assertion fails. -/
def assertString : Option JSONValue → String × Bool
  | some (JSONValue.string s) => (s, true)
  | _ => ("", false)

/-- The errors `ProcessTransaction` builds with `fmt.Errorf`. -/
inductive ProcessError where
  /-- message "transaction data is nil" -/
  | nilTransaction
  /-- message "invalid or missing from address" -/
  | invalidFrom
  /-- message "invalid or missing value" -/
  | invalidValue
  /-- message "invalid or missing hash" -/
  | invalidHash
  /-- message "invalid or missing blockNumber" -/
  | invalidBlockNumber
  /-- message "error parsing transaction value: %v" -/
  | parseValue (err : NumError)
  /-- message "error parsing block number: %v" -/
  | parseBlockNumber (err : NumError)
  deriving DecidableEq, Repr

/-- parseHexToInt64 of `parser.go`. -/
def parseHexToInt64 (hex : String) : Int × Option NumError :=
  String2Int64 hex 16

/-- The parser over the in-memory store.  The field `rpcClient` is read by none of its
methods and is left out. -/
structure parserImpl where
  storage : MemoryStorage

namespace parserImpl

/-- GetCurrentBlock returns the latest processed block number. -/
def GetCurrentBlock (p : parserImpl) : Int :=
  p.storage.GetCurrentBlock

/-- UpdateCurrentBlock updates the latest processed block number. -/
def UpdateCurrentBlock (p : parserImpl) (blockNumber : Int) : parserImpl :=
  { p with storage := p.storage.UpdateCurrentBlock blockNumber }

/-- Subscribe adds an address to monitor, returns false if the address is invalid. -/
def Subscribe (U : CaseTable) (p : parserImpl) (address : String) : Bool × parserImpl :=
  let r := p.storage.AddSubscriber U address
  (r.1, { p with storage := r.2 })

/-- IsSubscribed checks if an address is being monitored. -/
def IsSubscribed (U : CaseTable) (p : parserImpl) (address : String) : Bool :=
  p.storage.IsSubscribed U address

/-- GetSubscribers returns all monitored addresses. -/
def GetSubscribers (p : parserImpl) : List String :=
  p.storage.GetSubscribers

/-- GetTransactions returns all transactions for a given address. -/
def GetTransactions (U : CaseTable) (p : parserImpl) (address : String) : List Transaction :=
  p.storage.GetTransactions U address

/-- ProcessTransaction processes a raw transaction and stores it if relevant.  The raw
transaction `none` is the nil map. -/
def ProcessTransaction (U : CaseTable) (p : parserImpl) (tx : Option (GoMap JSONValue))
    (blockTimestamp : Int) : (Option Transaction × Option ProcessError) × parserImpl :=
  match tx with
  | none => ((none, some ProcessError.nilTransaction), p)
  | some tx =>
    let (from_, ok) := assertString (tx.get? "from")
    if !ok || from_ = "" then ((none, some ProcessError.invalidFrom), p) else
    let (value, ok) := assertString (tx.get? "value")
    if !ok || value = "" then ((none, some ProcessError.invalidValue), p) else
    let (hash, ok) := assertString (tx.get? "hash")
    if !ok || hash = "" then ((none, some ProcessError.invalidHash), p) else
    let (blockNumber, ok) := assertString (tx.get? "blockNumber")
    if !ok || blockNumber = "" then ((none, some ProcessError.invalidBlockNumber), p) else
    let toAddress : String :=
      let (to_, ok) := assertString (tx.get? "to")
      if ok && to_ ≠ "" then ToLower U to_ else ""
    let valueHex := TrimPrefix value "0x"
    let (valueInt64, err) := parseHexToInt64 valueHex
    match err with
    | some e => ((none, some (ProcessError.parseValue e)), p)
    | none =>
    let valueETH : Float := Float.ofInt valueInt64 / 1e18
    let blockNumberHex := TrimPrefix blockNumber "0x"
    let (blockNum, err) := parseHexToInt64 blockNumberHex
    match err with
    | some e => ((none, some (ProcessError.parseBlockNumber e)), p)
    | none =>
    let transaction : Transaction :=
      { Hash := hash
        FromAddress := ToLower U from_
        ToAddress := toAddress
        Value := valueETH
        BlockNumber := blockNum
        Timestamp := blockTimestamp }
    if p.storage.IsSubscribed U transaction.FromAddress ||
        (transaction.ToAddress ≠ "" && p.storage.IsSubscribed U transaction.ToAddress) then
      ((some transaction, none), { p with storage := p.storage.StoreTransaction U transaction })
    else ((none, none), p)

end parserImpl

/-! ## `internal/api/validation.go` -/

/-- ValidationError: the field and the message of a failed validation. -/
structure ValidationError where
  Field : String
  Message : String
  deriving DecidableEq, Repr

/-- The standard Ethereum address length including "0x". -/
def addressLength : Nat := 42

/-- The character class `[0-9a-fA-F]` of the address pattern. -/
def addressRegexClass (c : Char) : Bool :=
  decide (('0'.toNat ≤ c.toNat ∧ c.toNat ≤ '9'.toNat) ∨
    ('a'.toNat ≤ c.toNat ∧ c.toNat ≤ 'f'.toNat) ∨ ('A'.toNat ≤ c.toNat ∧ c.toNat ≤ 'F'.toNat))

/-- The match of the pattern `^0x[0-9a-fA-F]{40}$` on a whole string (`addressRegex` of the
source with its method `MatchString`). -/
def addressRegex (s : String) : Bool :=
  match s.data with
  | '0' :: 'x' :: rest => rest.length == 40 && rest.all addressRegexClass
  | _ => false

/-- ValidateAddress checks if the given address is a valid Ethereum address; `none` is the
nil error. -/
def ValidateAddress (U : CaseTable) (address : String) : Option ValidationError :=
  if address = "" then some { Field := "address", Message := "Address is required" }
  else
    let address := ToLower U address
    if len address ≠ addressLength then
      some { Field := "address", Message := "Address must be 42 characters long" }
    else if !HasPrefix address "0x" then
      some { Field := "address", Message := "Address must start with '0x'" }
    else if !addressRegex address then
      some { Field := "address", Message := "Invalid address format" }
    else none

/-! ## `config/config.go` -/

/-- Go's `strings.Contains` on the runes of two valid UTF-8 strings: `substr` occurs in `s`
at some position (a valid UTF-8 string occurs in another one only at rune boundaries, so the
search over bytes of the library finds the same occurrences). -/
def containsRunes : List Char → List Char → Bool
  | [], substr => substr.isPrefixOf []
  | c :: cs, substr => substr.isPrefixOf (c :: cs) || containsRunes cs substr

/-- Go's `strings.Contains`. -/
def Contains (s substr : String) : Bool :=
  containsRunes s.data substr.data

/-- DatabaseType is a Go string type. -/
abbrev DatabaseType := String

/-- The in-memory database. -/
def MemoryDB : DatabaseType := "memory"

/-- The MongoDB database. -/
def MongoDB : DatabaseType := "mongodb"

/-- The MySQL database. -/
def MySQL : DatabaseType := "mysql"

/-- NetworkType is a Go string type. -/
abbrev NetworkType := String

/-- A node on the local machine. -/
def Local : NetworkType := "local"

/-- A public node. -/
def Public : NetworkType := "public"

/-- Go's `time.Duration`: a number of nanoseconds. -/
abbrev Duration := Int

/-- Go's `time.Millisecond`. -/
def Millisecond : Duration := 1000000

/-- Go's `time.Second`. -/
def Second : Duration := 1000 * Millisecond

/-- NetworkConfig: the request settings of one kind of network (the field `Type` of the
source is `Type_` here). -/
structure NetworkConfig where
  Type_ : NetworkType
  RequestTimeout : Duration
  RetryAttempts : Int
  RetryDelay : Duration
  RateLimitDelay : Duration
  deriving DecidableEq, Repr

/-- DatabaseConfig: the database settings (the field `Type` of the source is `Type_`
here). -/
structure DatabaseConfig where
  Type_ : DatabaseType
  Host : String
  Port : String
  Name : String
  User : String
  Password : String
  deriving DecidableEq, Repr

/-- Config: the configuration of the application. -/
structure Config where
  RPCEndpoint : String
  ServerHost : String
  ServerPort : String
  LogFilePath : String
  Environment : String
  MonitorDelay : Int
  Database : DatabaseConfig
  Network : NetworkConfig
  deriving DecidableEq, Repr

/-- isLocalEndpoint of `config.go`. -/
def isLocalEndpoint (endpoint : String) : Bool :=
  Contains endpoint "localhost" || Contains endpoint "127.0.0.1"

/-- getNetworkConfig of `config.go`. -/
def getNetworkConfig (netType : NetworkType) : NetworkConfig :=
  if netType = Local then
    { Type_ := Local
      RequestTimeout := 5 * Second
      RetryAttempts := 1
      RetryDelay := Second
      RateLimitDelay := 100 * Millisecond }
  else
    { Type_ := Public
      RequestTimeout := 10 * Second
      RetryAttempts := 3
      RetryDelay := 2 * Second
      RateLimitDelay := Second }

/-- NewConfig of `config.go`; the fields of `Database` it does not set hold the empty
string. -/
def NewConfig (RPCEndpoint ServerHost ServerPort LogFilePath Environment : String)
    (MonitorDelay : Int) : Config :=
  let networkType : NetworkType := if isLocalEndpoint RPCEndpoint then Local else Public
  { RPCEndpoint := RPCEndpoint
    ServerHost := ServerHost
    ServerPort := ServerPort
    MonitorDelay := MonitorDelay
    LogFilePath := LogFilePath
    Environment := Environment
    Database :=
      { Type_ := MemoryDB, Host := "", Port := "", Name := "", User := "", Password := "" }
    Network := getNetworkConfig networkType }

/-- GetServerAddress returns the complete server address in format "host:port". -/
def Config.GetServerAddress (cfg : Config) : String :=
  cfg.ServerHost ++ ":" ++ cfg.ServerPort

/-- WithDatabase sets the database configuration and returns the updated Config. -/
def Config.WithDatabase (cfg : Config) (dbType : DatabaseType)
    (host port name user password : String) : Config :=
  { cfg with
    Database :=
      { Type_ := dbType, Host := host, Port := port, Name := name, User := user,
        Password := password } }

/-! ## `internal/parser/rpc_client.go` -/

/-- JSONRPCRequest represents a JSON-RPC 2.0 request. -/
structure JSONRPCRequest where
  JsonRPC : String
  Method : String
  Params : List JSONValue
  ID : Int

/-- JSONRPCResponse represents a JSON-RPC 2.0 response.  A member that is missing or is
the JSON `null` decodes to the nil interface, which is `JSONValue.null`. -/
structure JSONRPCResponse where
  Result : JSONValue
  Error : JSONValue

/-- What `http.Post` comes to: the call fails, or the node answers with a status code and
a body; the body is `none` when it does not decode as a `JSONRPCResponse`. -/
inductive HTTPOutcome where
  | failed
  | answered (statusCode : Nat) (body : Option JSONRPCResponse)

/-- The errors `MakeCall` builds with `fmt.Errorf`. -/
inductive RPCError where
  /-- message "error marshaling request: %v" -/
  | marshaling
  /-- message "error making HTTP request: %v" -/
  | httpRequest
  /-- message "unexpected status code: %d" -/
  | unexpectedStatus (statusCode : Nat)
  /-- message "error decoding response: %v" -/
  | decoding
  /-- message "RPC error: %v" -/
  | rpcError (err : JSONValue)

/-- The client together with the node it talks to: `config` is the network configuration
the client was built with, `respond n request` is what the `n`-th call of `http.Post`
(counted from 0) to the endpoint `url` comes to, and `sent` are the requests posted so far,
oldest first.  The field `client` is not read by `MakeCall` and is left out. -/
structure RPCClient where
  config : NetworkConfig
  respond : Nat → JSONRPCRequest → HTTPOutcome
  sent : List JSONRPCRequest

/-- NewRPCClient creates a new RPC client instance; `node` is the node behind the endpoint
`cfg.RPCEndpoint`. -/
def NewRPCClient (cfg : Config) (node : Nat → JSONRPCRequest → HTTPOutcome) : RPCClient :=
  { config := cfg.Network, respond := node, sent := [] }

mutual

/-- Go's `json.Marshal` returns an `UnsupportedValueError` for this value: a float that is
NaN or infinite occurs in it.  Strings, booleans, nil, finite numbers, and slices and maps of
them are encoded without error. -/
def unsupportedValue : JSONValue → Bool
  | JSONValue.number x => x.isNaN || x.isInf
  | JSONValue.array xs => unsupportedValues xs
  | JSONValue.object fields => unsupportedFields fields
  | _ => false

/-- Some element of a slice is a value `json.Marshal` returns an error for. -/
def unsupportedValues : List JSONValue → Bool
  | [] => false
  | v :: vs => unsupportedValue v || unsupportedValues vs

/-- Some member of a map is a value `json.Marshal` returns an error for. -/
def unsupportedFields : List (String × JSONValue) → Bool
  | [] => false
  | (_, v) :: fs => unsupportedValue v || unsupportedFields fs

end

/-- MakeCall sends a JSON-RPC request to the blockchain node.  `json.Marshal` fails on the
payload exactly when it fails on one of the parameters; nothing is posted then. -/
def RPCClient.MakeCall (rc : RPCClient) (method : String) (params : List JSONValue) :
    Except RPCError JSONRPCResponse × RPCClient :=
  let payload : JSONRPCRequest :=
    { JsonRPC := "2.0", Method := method, Params := params, ID := 1 }
  if unsupportedValues payload.Params then (Except.error RPCError.marshaling, rc) else
  let rc1 : RPCClient := { rc with sent := rc.sent ++ [payload] }
  match rc.respond rc.sent.length payload with
  | HTTPOutcome.failed => (Except.error RPCError.httpRequest, rc1)
  | HTTPOutcome.answered statusCode body =>
    if statusCode ≠ 200 then (Except.error (RPCError.unexpectedStatus statusCode), rc1)
    else
      match body with
      | none => (Except.error RPCError.decoding, rc1)
      | some result =>
        match result.Error with
        | JSONValue.null => (Except.ok result, rc1)
        | err => (Except.error (RPCError.rpcError err), rc1)

/-! ## `internal/notification/notification.go` -/

/-- NotificationType defines the type of transaction notification. -/
inductive NotificationType where
  | TransactionReceived
  | TransactionSent
  deriving DecidableEq, Repr

/-- Notification represents a transaction notification with all relevant details (the
field `Type` of the source is `Type_` here). -/
structure Notification where
  Type_ : NotificationType
  Address : String
  Transaction : Transaction
  Timestamp : Int

/-! ## `internal/monitor/errors.go` and `internal/monitor/monitor.go` -/

/-- The wrapped error of a `MonitorError`. -/
inductive MonitorCause where
  | rpc (err : RPCError)
  | num (err : NumError)

/-- MonitorError: code, message and the wrapped error. -/
structure MonitorError where
  Code : String
  Message : String
  Err : Option MonitorCause

/-- Error code of a failed `eth_blockNumber` call. -/
def ErrBlockNumberFetch : String := "BLOCK_NUMBER_FETCH_ERROR"

/-- Error code of an unparseable block height. -/
def ErrBlockNumberParse : String := "BLOCK_NUMBER_PARSE_ERROR"

/-- Error code of a failed block fetch. -/
def ErrBlockFetch : String := "BLOCK_FETCH_ERROR"

/-- Error code of a missing or unparseable block timestamp. -/
def ErrTimestampParse : String := "TIMESTAMP_PARSE_ERROR"

/-- NewMonitorError builds a `MonitorError`. -/
def NewMonitorError (code message : String) (err : Option MonitorCause) : MonitorError :=
  { Code := code, Message := message, Err := err }

/-- The type assertion `v.(map[string]interface{})` in its two-valued form. -/
def assertObject : Option JSONValue → GoMap JSONValue × Bool
  | some (JSONValue.object fields) => (fields, true)
  | _ => ([], false)

/-- The type assertion `v.([]interface{})` in its two-valued form. -/
def assertArray : Option JSONValue → List JSONValue × Bool
  | some (JSONValue.array xs) => (xs, true)
  | _ => ([], false)

/-- The verb `%x` of `fmt.Sprintf` on an `int64`: lower-case hex digits of the magnitude,
after a minus sign for a negative number. -/
def fmtHex : Int → String
  | Int.ofNat n => ⟨Nat.toDigits 16 n⟩
  | Int.negSucc n => ⟨'-' :: Nat.toDigits 16 (n + 1)⟩

/-- BlockMonitor watches for new blocks and processes their transactions.  The field
`notifier` holds the notifications handed to `Notify` so far, oldest first (the console
service prints them and returns nil). -/
structure BlockMonitor where
  parser : parserImpl
  rpcClient : RPCClient
  notifier : List Notification

namespace BlockMonitor

/-- parseHexToInt64 converts a hex string to int64. -/
def parseHexToInt64 (hex : String) : Int × Option NumError :=
  let (value, err) := String2Int64 hex 16
  match err with
  | some e => (0, some e)
  | none => (value, none)

/-- notifyTransaction sends notifications for relevant transactions. -/
def notifyTransaction (U : CaseTable) (m : BlockMonitor) (tx : Transaction) : BlockMonitor :=
  let isIncoming := m.parser.IsSubscribed U tx.ToAddress
  let address := if isIncoming then tx.ToAddress else tx.FromAddress
  { m with notifier := m.notifier ++
      [{ Type_ := NotificationType.TransactionReceived
         Address := address
         Transaction := tx
         Timestamp := tx.Timestamp }] }

/-- The loop `for i, tx := range transactions` of `processBlock`. -/
def processTransactions (U : CaseTable) (timestamp : Int) :
    List JSONValue → BlockMonitor → BlockMonitor
  | [], m => m
  | tx :: rest, m =>
    let (txMap, ok) := assertObject (some tx)
    if !ok then processTransactions U timestamp rest m
    else
      let r := m.parser.ProcessTransaction U (some txMap) timestamp
      let m1 : BlockMonitor := { m with parser := r.2 }
      match r.1.2 with
      | some _ => processTransactions U timestamp rest m1
      | none =>
        match r.1.1 with
        | some processedTx =>
          processTransactions U timestamp rest (notifyTransaction U m1 processedTx)
        | none => processTransactions U timestamp rest m1

/-- processBlock processes a single block and its transactions. -/
def processBlock (U : CaseTable) (m : BlockMonitor) (blockNumber : Int) :
    Option MonitorError × BlockMonitor :=
  let (blockResult, rc) := m.rpcClient.MakeCall "eth_getBlockByNumber"
    [JSONValue.string ("0x" ++ fmtHex blockNumber), JSONValue.bool true]
  let m0 : BlockMonitor := { m with rpcClient := rc }
  match blockResult with
  | Except.error err =>
    (some (NewMonitorError ErrBlockFetch ("Failed to fetch block " ++ toString blockNumber)
      (some (MonitorCause.rpc err))), m0)
  | Except.ok blockResult =>
    let (block, ok) := assertObject (some blockResult.Result)
    if !ok then
      (some (NewMonitorError ErrBlockFetch "Invalid block response format" none), m0)
    else
    let (transactions, ok) := assertArray (block.get? "transactions")
    if !ok then (none, m0) else
    let (timestampHex, ok) := assertString (block.get? "timestamp")
    if !ok then
      (some (NewMonitorError ErrTimestampParse "Invalid timestamp format" none), m0)
    else
    let (timestamp, err) := parseHexToInt64 (TrimPrefix timestampHex "0x")
    match err with
    | some e =>
      (some (NewMonitorError ErrTimestampParse "Failed to parse block timestamp"
        (some (MonitorCause.num e))), m0)
    | none =>
      let m1 := processTransactions U timestamp transactions m0
      (none, { m1 with parser := m1.parser.UpdateCurrentBlock blockNumber })

/-- processNewBlocks checks for and processes any new blocks. -/
def processNewBlocks (U : CaseTable) (m : BlockMonitor) : Option MonitorError × BlockMonitor :=
  let (result, rc) := m.rpcClient.MakeCall "eth_blockNumber" []
  let m0 : BlockMonitor := { m with rpcClient := rc }
  match result with
  | Except.error err =>
    (some (NewMonitorError ErrBlockNumberFetch "Failed to fetch block number"
      (some (MonitorCause.rpc err))), m0)
  | Except.ok result =>
    let (latestBlockHex, ok) := assertString (some result.Result)
    if !ok then
      (some (NewMonitorError ErrBlockNumberFetch "Invalid block number response format" none),
        m0)
    else
    let (latestBlock, err) := parseHexToInt64 (TrimPrefix latestBlockHex "0x")
    match err with
    | some e =>
      (some (NewMonitorError ErrBlockNumberParse "Failed to parse block number"
        (some (MonitorCause.num e))), m0)
    | none =>
      let currentBlock := m0.parser.GetCurrentBlock
      if latestBlock > currentBlock then processBlock U m0 latestBlock
      else (none, m0)

/-- StartMonitoring, cut after `n` ticks of its endless loop: every tick calls
`processNewBlocks` and drops the error it returns. -/
def StartMonitoring (U : CaseTable) : Nat → BlockMonitor → BlockMonitor
  | 0, m => m
  | n + 1, m => StartMonitoring U n (processNewBlocks U m).2

end BlockMonitor

/-! ## Notions the specification uses -/

/-- The case table that leaves every rune above `unicode.MaxASCII` unchanged; with it
`ToLower` is Go's `strings.ToLower` on ASCII strings. -/
def asciiCaseTable : CaseTable where
  lower := fun c => c
  stable := by
    intro c
    have small : ∀ n : Nat, n < 256 → (Char.ofNat n).toNat = n := by
      intro n h
      have hv : n.isValidChar := Or.inl (by omega)
      simp only [Char.ofNat, dif_pos hv]
      rfl
    unfold runeToLower asciiToLower
    by_cases h : c.toNat ≤ 0x7F
    · by_cases hu : 'A'.toNat ≤ c.toNat ∧ c.toNat ≤ 'Z'.toNat
      · have h0 : 65 ≤ c.toNat := hu.1
        have h1 : c.toNat ≤ 90 := hu.2
        have e : (Char.ofNat (c.toNat + ('a'.toNat - 'A'.toNat))).toNat = c.toNat + 32 :=
          small _ (by show c.toNat + 32 < 256; omega)
        have hn : ¬ ('A'.toNat ≤ c.toNat + 32 ∧ c.toNat + 32 ≤ 'Z'.toNat) := by
          intro hh
          have : c.toNat + 32 ≤ 90 := hh.2
          omega
        rw [if_pos h, if_pos hu, e, if_pos (by omega), if_neg hn]
      · rw [if_pos h, if_neg hu, if_pos h, if_neg hu]
    · rw [if_neg h, if_neg h]

/-- Two strings differ only in letter case: they have the same number of runes and the
runes at each position have the same lower-case form. -/
def DifferOnlyInCase (U : CaseTable) (A B : String) : Prop :=
  A.data.length = B.data.length ∧
    ∀ p ∈ A.data.zip B.data, runeToLower U.lower p.1 = runeToLower U.lower p.2

instance (U : CaseTable) (A B : String) : Decidable (DifferOnlyInCase U A B) := by
  unfold DifferOnlyInCase
  infer_instance

/-- The address shape of the specification: the string starts with "0x" and its total
length (Go's `len`) is 42. -/
def ValidShape (A : String) : Prop :=
  (∃ rest : String, A = "0x" ++ rest) ∧ len A = 42

/-- The store after a sequence of `StoreTransaction` calls on a fresh store. -/
def storeAll (U : CaseTable) (txs : List Transaction) : MemoryStorage :=
  txs.foldl (MemoryStorage.StoreTransaction U) NewMemoryStorage

/-- The history the specification describes for address `A`: the stored transactions whose
sender or receiver lower-cases to the lower-case form of `A`, in storage order. -/
def claimedHistory (U : CaseTable) (A : String) (txs : List Transaction) : List Transaction :=
  txs.filter (fun tx =>
    decide (ToLower U tx.FromAddress = ToLower U A ∨ ToLower U tx.ToAddress = ToLower U A))

/-- What one stored transaction adds to the history of address `A`: one entry when the
sender lower-cases to the lower-case form of `A`, and one more when the receiver is
non-empty and lower-cases to it. -/
def entriesFor (U : CaseTable) (A : String) (tx : Transaction) : List Transaction :=
  (if ToLower U tx.FromAddress = ToLower U A then [tx] else []) ++
    (if tx.ToAddress ≠ "" ∧ ToLower U tx.ToAddress = ToLower U A then [tx] else [])

/-- The entries of a sequence of stored transactions for address `A`, in storage order. -/
def historyFor (U : CaseTable) (A : String) : List Transaction → List Transaction
  | [] => []
  | tx :: txs => entriesFor U A tx ++ historyFor U A txs

/-- A required field of a raw transaction is absent, empty, or not a string. -/
def RequiredFieldBad (tx : GoMap JSONValue) (field : String) : Prop :=
  tx.get? field = none ∨ tx.get? field = some (JSONValue.string "") ∨
    ∃ v, tx.get? field = some v ∧ ∀ s : String, v ≠ JSONValue.string s

/-- A well-formed raw transaction: sender, value, hash and block number are the non-empty
strings `sender`, `value`, `hash`, `blockNumber`, and value and block number parse (after
the "0x" marker is stripped) to `v` and `b`. -/
structure WellFormed (tx : GoMap JSONValue) (sender value hash blockNumber : String)
    (v b : Int) : Prop where
  sender_eq : tx.get? "from" = some (JSONValue.string sender)
  sender_ne : sender ≠ ""
  value_eq : tx.get? "value" = some (JSONValue.string value)
  value_ne : value ≠ ""
  hash_eq : tx.get? "hash" = some (JSONValue.string hash)
  hash_ne : hash ≠ ""
  blockNumber_eq : tx.get? "blockNumber" = some (JSONValue.string blockNumber)
  blockNumber_ne : blockNumber ≠ ""
  value_parses : parseHexToInt64 (TrimPrefix value "0x") = (v, none)
  blockNumber_parses : parseHexToInt64 (TrimPrefix blockNumber "0x") = (b, none)

/-- The receiver of a raw transaction: the string under "to", and the empty string when
that field is absent or not a string. -/
def receiverOf (tx : GoMap JSONValue) : String :=
  match tx.get? "to" with
  | some (JSONValue.string s) => s
  | _ => ""

/-- The record `ProcessTransaction` builds from a well-formed raw transaction. -/
def recordOf (U : CaseTable) (tx : GoMap JSONValue) (sender hash : String) (v b : Int)
    (blockTimestamp : Int) : Transaction :=
  { Hash := hash
    FromAddress := ToLower U sender
    ToAddress := ToLower U (receiverOf tx)
    Value := Float.ofInt v / 1e18
    BlockNumber := b
    Timestamp := blockTimestamp }

/-- The required fields of a raw transaction are the non-empty strings `sender`, `value`,
`hash` and `blockNumber`. -/
structure FieldsPresent (tx : GoMap JSONValue) (sender value hash blockNumber : String) :
    Prop where
  sender_eq : tx.get? "from" = some (JSONValue.string sender)
  sender_ne : sender ≠ ""
  value_eq : tx.get? "value" = some (JSONValue.string value)
  value_ne : value ≠ ""
  hash_eq : tx.get? "hash" = some (JSONValue.string hash)
  hash_ne : hash ≠ ""
  blockNumber_eq : tx.get? "blockNumber" = some (JSONValue.string blockNumber)
  blockNumber_ne : blockNumber ≠ ""

/-- The history stored under the map key `k`. -/
def historyAt (ms : MemoryStorage) (k : String) : List Transaction :=
  (ms.transactions.get? k).getD []

/-- A call a client of the parser can make on it. -/
inductive ParserCall where
  | subscribe (address : String)
  | process (tx : Option (GoMap JSONValue)) (blockTimestamp : Int)

/-- The parser after one call. -/
def ParserCall.run (U : CaseTable) (p : parserImpl) : ParserCall → parserImpl
  | ParserCall.subscribe address => (p.Subscribe U address).2
  | ParserCall.process tx blockTimestamp => (p.ProcessTransaction U tx blockTimestamp).2

/-- The parser reached from a fresh store by a sequence of calls. -/
def runCalls (U : CaseTable) (calls : List ParserCall) : parserImpl :=
  calls.foldl (ParserCall.run U) ⟨NewMemoryStorage⟩

/-- A hex digit: `0-9`, `a-f` or `A-F`. -/
def isHexDigit (c : Char) : Bool :=
  decide (('0'.toNat ≤ c.toNat ∧ c.toNat ≤ '9'.toNat) ∨
    ('a'.toNat ≤ c.toNat ∧ c.toNat ≤ 'f'.toNat) ∨ ('A'.toNat ≤ c.toNat ∧ c.toNat ≤ 'F'.toNat))

/-- The value of a hex digit. -/
def hexDigitValue (c : Char) : Nat :=
  if '0'.toNat ≤ c.toNat ∧ c.toNat ≤ '9'.toNat then c.toNat - '0'.toNat
  else if 'a'.toNat ≤ c.toNat ∧ c.toNat ≤ 'f'.toNat then c.toNat - 'a'.toNat + 10
  else c.toNat - 'A'.toNat + 10

/-- The number with the hex digits `ds` after the leading digits of value `n`. -/
def hexAcc (n : Nat) (ds : List Char) : Nat :=
  ds.foldl (fun a c => a * 16 + hexDigitValue c) n

/-- The integer denoted by a string of hex digits. -/
def hexValue (ds : List Char) : Nat :=
  hexAcc 0 ds

/-- A string of one or more hex digits. -/
def IsHexDigits (s : String) : Prop :=
  s.data ≠ [] ∧ s.data.all isHexDigit = true

instance (s : String) : Decidable (IsHexDigits s) := by
  unfold IsHexDigits
  infer_instance

/-- The integer a string denotes when it is an optional sign `+` or `-` followed by one or
more hex digits whose value fits `int64`; `none` for every other string. -/
def hexInt (s : String) : Option Int :=
  let neg : Bool := s.data.head? = some '-'
  let ds : List Char :=
    if s.data.head? = some '+' ∨ s.data.head? = some '-' then s.data.drop 1 else s.data
  if ds ≠ [] ∧ ds.all isHexDigit = true then
    if neg then (if hexValue ds ≤ 2 ^ 63 then some (-(hexValue ds : Int)) else none)
    else (if hexValue ds < 2 ^ 63 then some (hexValue ds : Int) else none)
  else none

/-- The request of the monitor for the latest height. -/
def blockNumberRequest : JSONRPCRequest :=
  { JsonRPC := "2.0", Method := "eth_blockNumber", Params := [], ID := 1 }

/-- The request of the monitor for the full block at height `h`. -/
def getBlockRequest (h : Int) : JSONRPCRequest :=
  { JsonRPC := "2.0", Method := "eth_getBlockByNumber",
    Params := [JSONValue.string ("0x" ++ fmtHex h), JSONValue.bool true], ID := 1 }

/-- The height the node reports at the next tick: the result of the `eth_blockNumber`
call when the call succeeds with a string that parses as a height. -/
def latestHeight (m : BlockMonitor) : Option Int :=
  match (m.rpcClient.MakeCall "eth_blockNumber" []).1 with
  | Except.ok result =>
    match result.Result with
    | JSONValue.string s =>
      match String2Int64 (TrimPrefix s "0x") 16 with
      | (h, none) => some h
      | _ => none
    | _ => none
  | Except.error _ => none

/-- The heights the node reports in the first `n` ticks. -/
def reportedHeights (U : CaseTable) : Nat → BlockMonitor → List Int
  | 0, _ => []
  | n + 1, m =>
    (latestHeight m).toList ++ reportedHeights U n (BlockMonitor.processNewBlocks U m).2

/-- The monitor after the `eth_blockNumber` call of a tick. -/
def afterBlockNumberCall (m : BlockMonitor) : BlockMonitor :=
  { m with rpcClient := (m.rpcClient.MakeCall "eth_blockNumber" []).2 }

/-- The block the node returns for height `L` at this tick has the transaction list `txs`
and a timestamp string that parses to `ts`. -/
def BlockFetched (m : BlockMonitor) (L : Int) (txs : List JSONValue) (ts : Int) : Prop :=
  ∃ (resp : JSONRPCResponse) (block : GoMap JSONValue) (tsHex : String),
    ((afterBlockNumberCall m).rpcClient.MakeCall "eth_getBlockByNumber"
      [JSONValue.string ("0x" ++ fmtHex L), JSONValue.bool true]).1 = Except.ok resp ∧
    resp.Result = JSONValue.object block ∧
    block.get? "transactions" = some (JSONValue.array txs) ∧
    block.get? "timestamp" = some (JSONValue.string tsHex) ∧
    String2Int64 (TrimPrefix tsHex "0x") 16 = (ts, none)

/-- The parser after every transaction object of a list has been offered to
`ProcessTransaction` in list order with block timestamp `ts`. -/
def offerAll (U : CaseTable) (ts : Int) : List JSONValue → parserImpl → parserImpl
  | [], p => p
  | JSONValue.object tx :: rest, p =>
    offerAll U ts rest (p.ProcessTransaction U (some tx) ts).2
  | _ :: rest, p => offerAll U ts rest p

/-- The heights whose block is requested by the requests of a list, as the strings sent. -/
def requestedBlocks (rs : List JSONRPCRequest) : List String :=
  rs.filterMap (fun r =>
    if r.Method = "eth_getBlockByNumber" then
      match r.Params with
      | JSONValue.string s :: _ => some s
      | _ => none
    else none)

/-- The block the node returns when `processBlock` asks for height `L` is an object with the
transaction list `txs` and a timestamp string that parses to `ts`. -/
def BlockReturned (m : BlockMonitor) (L : Int) (txs : List JSONValue) (ts : Int) : Prop :=
  ∃ (resp : JSONRPCResponse) (block : GoMap JSONValue) (tsHex : String),
    (m.rpcClient.MakeCall "eth_getBlockByNumber"
      [JSONValue.string ("0x" ++ fmtHex L), JSONValue.bool true]).1 = Except.ok resp ∧
    resp.Result = JSONValue.object block ∧
    block.get? "transactions" = some (JSONValue.array txs) ∧
    block.get? "timestamp" = some (JSONValue.string tsHex) ∧
    String2Int64 (TrimPrefix tsHex "0x") 16 = (ts, none)

/-- The block the node returns when `processBlock` asks for height `L` is an object whose
"transactions" field is absent or is not a list. -/
def BlockWithoutList (m : BlockMonitor) (L : Int) : Prop :=
  ∃ (resp : JSONRPCResponse) (block : GoMap JSONValue),
    (m.rpcClient.MakeCall "eth_getBlockByNumber"
      [JSONValue.string ("0x" ++ fmtHex L), JSONValue.bool true]).1 = Except.ok resp ∧
    resp.Result = JSONValue.object block ∧
    (block.get? "transactions" = none ∨
      ∃ v, block.get? "transactions" = some v ∧ ∀ xs : List JSONValue, v ≠ JSONValue.array xs)

/-- The records `ProcessTransaction` returns while the entries of a transaction list are
offered to it in list order with block timestamp `ts`, starting from the parser `p`. -/
def offeredRecords (U : CaseTable) (ts : Int) : List JSONValue → parserImpl → List Transaction
  | [], _ => []
  | JSONValue.object tx :: rest, p =>
    (p.ProcessTransaction U (some tx) ts).1.1.toList ++
      offeredRecords U ts rest (p.ProcessTransaction U (some tx) ts).2
  | _ :: rest, p => offeredRecords U ts rest p

/-- The record `ProcessTransaction` returns for one entry of a transaction list when it is
offered to the parser `p` with block timestamp `ts`; `none` for an entry that is not an
object, is rejected or is irrelevant. -/
def recordOfEntry (U : CaseTable) (ts : Int) (p : parserImpl) : JSONValue → Option Transaction
  | JSONValue.object tx => (p.ProcessTransaction U (some tx) ts).1.1
  | _ => none

/-- The notification `notifyTransaction` hands to the notifier for the record `t` when the
parser is `p`. -/
def notificationOf (U : CaseTable) (p : parserImpl) (t : Transaction) : Notification :=
  { Type_ := NotificationType.TransactionReceived
    Address := if p.IsSubscribed U t.ToAddress then t.ToAddress else t.FromAddress
    Transaction := t
    Timestamp := t.Timestamp }

/-- The string `sub` occurs in the string `s`. -/
def Occurs (sub s : String) : Prop :=
  ∃ a b : String, s = a ++ sub ++ b

/-! ## Sample data -/

/-- The address of the store's own tests. -/
def addr1 : String := "0x742d35Cc6634C0532925a3b844Bc454e4438f44e"

/-- The same address with the marker in upper case. -/
def addr1X : String := "0X742d35Cc6634C0532925a3b844Bc454e4438f44e"

/-- A second address. -/
def addr2 : String := "0xdD93e92dc32d0B2F51430b0e6dA29BDd01AF68D6"

/-- A store with `addr1` subscribed. -/
def store1 : MemoryStorage :=
  (MemoryStorage.AddSubscriber asciiCaseTable NewMemoryStorage addr1).2

/-- A transfer from `addr1` to `addr2`. -/
def sampleTx : Transaction :=
  { Hash := "0x123", FromAddress := addr1, ToAddress := addr2, Value := 1.0,
    BlockNumber := 100, Timestamp := 1000 }

/-- A transfer from `addr1` to itself. -/
def selfTx : Transaction :=
  { Hash := "0x124", FromAddress := addr1, ToAddress := addr1, Value := 1.0,
    BlockNumber := 100, Timestamp := 1000 }

/-- A contract creation sent by `addr1`. -/
def creationTx : Transaction :=
  { Hash := "0x125", FromAddress := addr1, ToAddress := "", Value := 1.0,
    BlockNumber := 100, Timestamp := 1000 }

/-- A raw transfer from `addr1` to `addr2`. -/
def rawTx : GoMap JSONValue :=
  [("hash", JSONValue.string "0xabc"), ("from", JSONValue.string addr1),
   ("to", JSONValue.string addr2), ("value", JSONValue.string "0x1"),
   ("blockNumber", JSONValue.string "0x1")]

/-- A raw transaction without a hash. -/
def rawTxNoHash : GoMap JSONValue :=
  [("from", JSONValue.string addr1), ("to", JSONValue.string addr2),
   ("value", JSONValue.string "0x1"), ("blockNumber", JSONValue.string "0x1")]

/-- A raw transfer from `addr1` whose value carries a minus sign. -/
def rawTxSigned : GoMap JSONValue :=
  [("hash", JSONValue.string "0xabc"), ("from", JSONValue.string addr1),
   ("to", JSONValue.string addr2), ("value", JSONValue.string "0x-a"),
   ("blockNumber", JSONValue.string "0x1")]

/-- A raw transfer from `addr1` whose value is the hex number `2 ^ 63`. -/
def rawTxLarge : GoMap JSONValue :=
  [("hash", JSONValue.string "0xabc"), ("from", JSONValue.string addr1),
   ("to", JSONValue.string addr2), ("value", JSONValue.string "0x8000000000000000"),
   ("blockNumber", JSONValue.string "0x1")]

/-- A parser with `addr1` and `addr2` subscribed. -/
def parser12 : parserImpl :=
  ⟨(MemoryStorage.AddSubscriber asciiCaseTable store1 addr2).2⟩

/-- A parser with `addr1` subscribed and the block cursor at 5. -/
def parser5 : parserImpl :=
  ⟨MemoryStorage.UpdateCurrentBlock store1 5⟩

/-- A successful answer of the node with the given result. -/
def answer (result : JSONValue) : HTTPOutcome :=
  HTTPOutcome.answered 200 (some { Result := result, Error := JSONValue.null })

/-- A node at height 6 whose block holds `rawTx` and the timestamp 1000. -/
def node6 : RPCClient :=
  { config := getNetworkConfig Public
    respond := fun _ request =>
      if request.Method = "eth_blockNumber" then answer (JSONValue.string "0x6")
      else answer (JSONValue.object
        [("timestamp", JSONValue.string "0x3e8"),
         ("transactions", JSONValue.array [JSONValue.object rawTx])])
    sent := [] }

/-- A node at height 6 whose block holds `rawTx` and no timestamp. -/
def node6NoTimestamp : RPCClient :=
  { config := getNetworkConfig Public
    respond := fun _ request =>
      if request.Method = "eth_blockNumber" then answer (JSONValue.string "0x6")
      else answer (JSONValue.object [("transactions", JSONValue.array [JSONValue.object rawTx])])
    sent := [] }

/-- A node at height 6 whose block has no transaction list. -/
def node6NoTransactions : RPCClient :=
  { config := getNetworkConfig Public
    respond := fun _ request =>
      if request.Method = "eth_blockNumber" then answer (JSONValue.string "0x6")
      else answer (JSONValue.object [("timestamp", JSONValue.string "0x3e8")])
    sent := [] }

/-- A node at height 5. -/
def node5 : RPCClient :=
  { config := getNetworkConfig Public
    respond := fun _ request =>
      if request.Method = "eth_blockNumber" then answer (JSONValue.string "0x5")
      else answer (JSONValue.object
        [("timestamp", JSONValue.string "0x3e8"), ("transactions", JSONValue.array [])])
    sent := [] }

/-- A node that reports height 5, fails the block request, and reports height 3 at the
next tick. -/
def nodeFallingBack : RPCClient :=
  { config := getNetworkConfig Public
    respond := fun n request =>
      if request.Method = "eth_blockNumber" then
        (if n = 0 then answer (JSONValue.string "0x5") else answer (JSONValue.string "0x3"))
      else if n = 1 then HTTPOutcome.failed
      else answer (JSONValue.object
        [("timestamp", JSONValue.string "0x3e8"), ("transactions", JSONValue.array [])])
    sent := [] }

/-- A monitor over `parser5` and the given node, with nothing notified yet. -/
def monitor5 (node : RPCClient) : BlockMonitor :=
  { parser := parser5, rpcClient := node, notifier := [] }

/-- A monitor over a fresh store and the given node. -/
def monitor0 (node : RPCClient) : BlockMonitor :=
  { parser := ⟨NewMemoryStorage⟩, rpcClient := node, notifier := [] }

/-- A node at height 6 whose block holds a raw transaction without a hash and `rawTx`, with
the timestamp 1000. -/
def node6BadEntry : RPCClient :=
  { config := getNetworkConfig Public
    respond := fun _ request =>
      if request.Method = "eth_blockNumber" then answer (JSONValue.string "0x6")
      else answer (JSONValue.object
        [("timestamp", JSONValue.string "0x3e8"),
         ("transactions", JSONValue.array
            [JSONValue.object rawTxNoHash, JSONValue.object rawTx])])
    sent := [] }

/-- A raw transfer from `addr2` to `addr1`. -/
def rawTx2 : GoMap JSONValue :=
  [("hash", JSONValue.string "0xdef"), ("from", JSONValue.string addr2),
   ("to", JSONValue.string addr1), ("value", JSONValue.string "0x2"),
   ("blockNumber", JSONValue.string "0x6")]

/-- A node at height 6 whose block holds `rawTx` and then `rawTx2`, with the timestamp
1000. -/
def node6Two : RPCClient :=
  { config := getNetworkConfig Public
    respond := fun _ request =>
      if request.Method = "eth_blockNumber" then answer (JSONValue.string "0x6")
      else answer (JSONValue.object
        [("timestamp", JSONValue.string "0x3e8"),
         ("transactions", JSONValue.array [JSONValue.object rawTx, JSONValue.object rawTx2])])
    sent := [] }

/-- A monitor over `parser12` and the given node, with nothing notified yet. -/
def monitor12 (node : RPCClient) : BlockMonitor :=
  { parser := parser12, rpcClient := node, notifier := [] }

/-- The configuration of the repository's retry test: three attempts. -/
def retryTestConfig : Config :=
  { RPCEndpoint := "", ServerHost := "", ServerPort := "", LogFilePath := "",
    Environment := "", MonitorDelay := 0,
    Database := { Type_ := "", Host := "", Port := "", Name := "", User := "", Password := "" },
    Network :=
      { Type_ := "", RequestTimeout := Second, RetryAttempts := 3,
        RetryDelay := Millisecond, RateLimitDelay := Millisecond } }

/-- The node of the repository's retry test: status 503 for the first two requests, then
the result "0x1234". -/
def retryTestNode : Nat → JSONRPCRequest → HTTPOutcome :=
  fun n _ => if n < 2 then HTTPOutcome.answered 503 none else answer (JSONValue.string "0x1234")


/-! ## Lemmas on maps and strings -/

open MemoryStorage

theorem GoMap.get?_set_self {V : Type} (m : GoMap V) (k : String) (v : V) :
    (m.set k v).get? k = some v := by
  induction m with
  | nil => simp [GoMap.set, GoMap.get?]
  | cons e m ih =>
    obtain ⟨k', v'⟩ := e
    by_cases h : k' = k
    · simp [GoMap.set, GoMap.get?, h]
    · simp [GoMap.set, GoMap.get?, h, ih]

theorem GoMap.get?_set_ne {V : Type} (m : GoMap V) (k k1 : String) (v : V) (hne : k ≠ k1) :
    (m.set k v).get? k1 = m.get? k1 := by
  induction m with
  | nil => simp [GoMap.set, GoMap.get?, hne]
  | cons e m ih =>
    obtain ⟨k', v'⟩ := e
    by_cases h : k' = k
    · subst h
      simp [GoMap.set, GoMap.get?, hne]
    · by_cases h1 : k' = k1
      · subst h1
        simp [GoMap.set, GoMap.get?, h]
      · simp [GoMap.set, GoMap.get?, h, h1, ih]

theorem GoMap.set_set {V : Type} (m : GoMap V) (k : String) (v w : V) :
    (m.set k v).set k w = m.set k w := by
  induction m with
  | nil => simp [GoMap.set]
  | cons e m ih =>
    obtain ⟨k', v'⟩ := e
    by_cases h : k' = k
    · simp [GoMap.set, h]
    · simp [GoMap.set, h, ih]

theorem hasPrefix_iff (A : String) :
    HasPrefix A "0x" = true ↔ ∃ rest : String, A = "0x" ++ rest := by
  unfold HasPrefix
  rw [List.isPrefixOf_iff_prefix]
  constructor
  · rintro ⟨t, ht⟩
    refine ⟨⟨t⟩, ?_⟩
    apply String.ext
    simpa using ht.symm
  · rintro ⟨rest, rfl⟩
    exact ⟨rest.data, by simp⟩

theorem addSubscriber_cases (U : CaseTable) (ms : MemoryStorage) (A : String) :
    (ValidShape A ∧ AddSubscriber U ms A =
        (true, { ms with subscribers := ms.subscribers.set (ToLower U A) true })) ∨
    (¬ ValidShape A ∧ AddSubscriber U ms A = (false, ms)) := by
  unfold ValidShape
  rw [← hasPrefix_iff]
  by_cases hc : (!HasPrefix A "0x" || decide (len A ≠ 42)) = true
  · right
    refine ⟨?_, by unfold AddSubscriber; rw [if_pos hc]⟩
    rintro ⟨h1, h2⟩
    simp [h1, h2] at hc
  · left
    refine ⟨?_, by unfold AddSubscriber; rw [if_neg hc]⟩
    simp only [Bool.or_eq_true, Bool.not_eq_true', decide_eq_true_eq, not_or, Bool.not_eq_false,
      ne_eq, not_not] at hc
    exact hc

theorem addSubscriber_fst_iff (U : CaseTable) (ms : MemoryStorage) (A : String) :
    (AddSubscriber U ms A).1 = true ↔ ValidShape A := by
  rcases addSubscriber_cases U ms A with ⟨hv, e⟩ | ⟨hv, e⟩
  · rw [e]; simp [hv]
  · rw [e]; simp [hv]

theorem toLower_eq_of_differOnlyInCase (U : CaseTable) (A B : String)
    (h : DifferOnlyInCase U A B) : ToLower U A = ToLower U B := by
  obtain ⟨hl, hp⟩ := h
  unfold ToLower
  congr 1
  generalize A.data = l1 at hl hp
  generalize B.data = l2 at hl hp
  induction l1 generalizing l2 with
  | nil =>
    cases l2 with
    | nil => rfl
    | cons b l2 => simp at hl
  | cons a l1 ih =>
    cases l2 with
    | nil => simp at hl
    | cons b l2 =>
      simp only [List.map_cons, List.cons.injEq]
      refine ⟨hp (a, b) (by simp), ih l2 (by simpa using hl) ?_⟩
      intro p hmem
      exact hp p (by simp [hmem])

/-! ## The subscriber set -/

/-- C1: when `AddSubscriber(A)` returns true, `IsSubscribed(A)` is true afterwards, and a
second `AddSubscriber(A)` returns true again, keeps `IsSubscribed(A)` true and leaves the
store, so also the subscriber map and the length of `GetSubscribers`, as the first call left
it. -/
theorem C1_addSubscriber_idempotent (U : CaseTable) (ms : MemoryStorage) (A : String)
    (h : (AddSubscriber U ms A).1 = true) :
    IsSubscribed U (AddSubscriber U ms A).2 A = true ∧
    (AddSubscriber U (AddSubscriber U ms A).2 A).1 = true ∧
    IsSubscribed U (AddSubscriber U (AddSubscriber U ms A).2 A).2 A = true ∧
    (AddSubscriber U (AddSubscriber U ms A).2 A).2 = (AddSubscriber U ms A).2 ∧
    (GetSubscribers (AddSubscriber U (AddSubscriber U ms A).2 A).2).length =
      (GetSubscribers (AddSubscriber U ms A).2).length := by
  have hv : ValidShape A := (addSubscriber_fst_iff U ms A).1 h
  have e1 : AddSubscriber U ms A =
      (true, { ms with subscribers := ms.subscribers.set (ToLower U A) true }) := by
    rcases addSubscriber_cases U ms A with ⟨_, e⟩ | ⟨hn, _⟩
    · exact e
    · exact absurd hv hn
  have e2 : AddSubscriber U (AddSubscriber U ms A).2 A = (true, (AddSubscriber U ms A).2) := by
    rcases addSubscriber_cases U (AddSubscriber U ms A).2 A with ⟨_, e⟩ | ⟨hn, _⟩
    · rw [e, e1]
      simp [GoMap.set_set]
    · exact absurd hv hn
  have s1 : IsSubscribed U (AddSubscriber U ms A).2 A = true := by
    rw [e1]
    simp [IsSubscribed, GoMap.get?_set_self]
  rw [e2]
  exact ⟨s1, rfl, s1, rfl, rfl⟩

/-- Witness of C1: the scenario of the specification on a fresh store; the subscriber count
is 1 after the first call. -/
theorem C1_addSubscriber_idempotent_witness :
    (AddSubscriber asciiCaseTable NewMemoryStorage addr1).1 = true ∧
    (GetSubscribers (AddSubscriber asciiCaseTable NewMemoryStorage addr1).2).length = 1 ∧
    (GetSubscribers (AddSubscriber asciiCaseTable
        (AddSubscriber asciiCaseTable NewMemoryStorage addr1).2 addr1).2).length =
      (GetSubscribers (AddSubscriber asciiCaseTable NewMemoryStorage addr1).2).length :=
  ⟨by decide, by decide,
    (C1_addSubscriber_idempotent asciiCaseTable NewMemoryStorage addr1 (by decide)).2.2.2.2⟩

/-- C2: `AddSubscriber(A)`, and `Subscribe(A)` which delegates to it, returns true exactly
when `A` starts with "0x" and has length 42; when it returns false the store (subscribers,
histories and block cursor) is unchanged. -/
theorem C2_addSubscriber_validates (U : CaseTable) (ms : MemoryStorage) (A : String) :
    ((AddSubscriber U ms A).1 = true ↔ ValidShape A) ∧
    ((AddSubscriber U ms A).1 = false → (AddSubscriber U ms A).2 = ms) ∧
    ((parserImpl.Subscribe U ⟨ms⟩ A).1 = true ↔ ValidShape A) ∧
    ((parserImpl.Subscribe U ⟨ms⟩ A).1 = false → (parserImpl.Subscribe U ⟨ms⟩ A).2 = ⟨ms⟩) := by
  have hf : (AddSubscriber U ms A).1 = false → (AddSubscriber U ms A).2 = ms := by
    rcases addSubscriber_cases U ms A with ⟨_, e⟩ | ⟨_, e⟩
    · rw [e]; intro hc; simp at hc
    · rw [e]; intro _; rfl
  refine ⟨addSubscriber_fst_iff U ms A, hf, addSubscriber_fst_iff U ms A, ?_⟩
  intro hc
  show parserImpl.mk (AddSubscriber U ms A).2 = ⟨ms⟩
  rw [hf hc]

/-- C3: store lookups are case-insensitive: for addresses that differ only in letter case
`IsSubscribed` gives the same answer and `GetTransactions` the same history. -/
theorem C3_lookups_case_insensitive (U : CaseTable) (ms : MemoryStorage) (A B : String)
    (h : DifferOnlyInCase U A B) :
    IsSubscribed U ms A = IsSubscribed U ms B ∧
    GetTransactions U ms A = GetTransactions U ms B := by
  have e := toLower_eq_of_differOnlyInCase U A B h
  unfold IsSubscribed GetTransactions
  rw [e]
  exact ⟨rfl, rfl⟩

/-- Witness of C3: the stored history of `addr1` read through its upper-case marker form. -/
theorem C3_lookups_case_insensitive_witness :
    DifferOnlyInCase asciiCaseTable addr1X addr1 ∧
    IsSubscribed asciiCaseTable (StoreTransaction asciiCaseTable store1 sampleTx) addr1X =
      IsSubscribed asciiCaseTable (StoreTransaction asciiCaseTable store1 sampleTx) addr1 ∧
    GetTransactions asciiCaseTable (StoreTransaction asciiCaseTable store1 sampleTx) addr1X =
      GetTransactions asciiCaseTable (StoreTransaction asciiCaseTable store1 sampleTx) addr1 :=
  ⟨by decide, C3_lookups_case_insensitive asciiCaseTable _ addr1X addr1 (by decide)⟩

/-- C4, evaluated at an address written with the marker in upper case: `addr1X` and `addr1`
differ only in the case of the marker letter.  `ValidateAddress`, which lower-cases before it
tests the marker, accepts `addr1X`, and once `addr1` is subscribed `IsSubscribed` answers true
for `addr1X`; yet `AddSubscriber`, which tests the marker before it lower-cases the key,
rejects `addr1X` and accepts `addr1`. -/
theorem C4_upper_marker_rejected :
    DifferOnlyInCase asciiCaseTable addr1X addr1 ∧
    ValidateAddress asciiCaseTable addr1X = none ∧
    IsSubscribed asciiCaseTable store1 addr1X = true ∧
    (AddSubscriber asciiCaseTable NewMemoryStorage addr1X).1 = false ∧
    (AddSubscriber asciiCaseTable NewMemoryStorage addr1).1 = true := by
  decide

theorem addSubscriber_case_insensitive_of_shape (U : CaseTable) (ms : MemoryStorage)
    (A B : String) (h : DifferOnlyInCase U A B) (hv : ValidShape A ↔ ValidShape B) :
    (AddSubscriber U ms A).1 = (AddSubscriber U ms B).1 ∧
    (AddSubscriber U ms A).2 = (AddSubscriber U ms B).2 := by
  have e := toLower_eq_of_differOnlyInCase U A B h
  rcases addSubscriber_cases U ms A with ⟨va, ea⟩ | ⟨va, ea⟩
  · rcases addSubscriber_cases U ms B with ⟨_, eb⟩ | ⟨vb, _⟩
    · rw [ea, eb, e]
      exact ⟨rfl, rfl⟩
    · exact absurd (hv.1 va) vb
  · rcases addSubscriber_cases U ms B with ⟨vb, _⟩ | ⟨_, eb⟩
    · exact absurd (hv.2 vb) va
    · rw [ea, eb]
      exact ⟨rfl, rfl⟩

/-! ## The block cursor -/

/-- C7: `GetCurrentBlock` returns `h` right after `UpdateCurrentBlock(h)` for every height
(also one below the current cursor: the store enforces no monotonicity), a fresh store
reports 0, and `UpdateCurrentBlock` changes neither the subscribers nor the histories. -/
theorem C7_block_cursor (ms : MemoryStorage) (h : Int) :
    GetCurrentBlock (UpdateCurrentBlock ms h) = h ∧
    GetCurrentBlock (UpdateCurrentBlock (UpdateCurrentBlock ms (h + 1)) h) = h ∧
    GetCurrentBlock NewMemoryStorage = 0 ∧
    (UpdateCurrentBlock ms h).subscribers = ms.subscribers ∧
    (UpdateCurrentBlock ms h).transactions = ms.transactions :=
  ⟨rfl, rfl, rfl, rfl, rfl⟩


/-! ## Transaction histories -/

theorem get?_appendAt_self (m : GoMap (List Transaction)) (k : String) (t : Transaction) :
    (appendAt m k t).get? k = some ((m.get? k).getD [] ++ [t]) := by
  unfold appendAt
  by_cases h : (m.get? k).isNone = true
  · simp only [h, if_true, GoMap.get?_set_self]
    rw [Option.isNone_iff_eq_none] at h
    simp [h]
  · simp only [h, GoMap.get?_set_self]
    simp

theorem get?_appendAt_ne (m : GoMap (List Transaction)) (k k1 : String) (t : Transaction)
    (hne : k ≠ k1) : (appendAt m k t).get? k1 = m.get? k1 := by
  unfold appendAt
  by_cases h : (m.get? k).isNone = true
  · simp only [h, if_true]
    rw [GoMap.get?_set_ne _ _ _ _ hne, GoMap.get?_set_ne _ _ _ _ hne]
  · simp only [h]
    rw [GoMap.get?_set_ne _ _ _ _ hne]
    simp

theorem getD_get?_appendAt (m : GoMap (List Transaction)) (k k1 : String) (t : Transaction) :
    ((appendAt m k t).get? k1).getD [] =
      (m.get? k1).getD [] ++ (if k = k1 then [t] else []) := by
  by_cases h : k = k1
  · subst h
    rw [get?_appendAt_self]
    simp
  · rw [get?_appendAt_ne _ _ _ _ h]
    simp [h]

theorem storeTransaction_subscribers (U : CaseTable) (ms : MemoryStorage) (tx : Transaction) :
    (StoreTransaction U ms tx).subscribers = ms.subscribers := by
  unfold StoreTransaction
  split <;> rfl

theorem storeTransaction_currentBlock (U : CaseTable) (ms : MemoryStorage) (tx : Transaction) :
    (StoreTransaction U ms tx).currentBlock = ms.currentBlock := by
  unfold StoreTransaction
  split <;> rfl

theorem getTransactions_storeTransaction (U : CaseTable) (ms : MemoryStorage)
    (tx : Transaction) (A : String) :
    GetTransactions U (StoreTransaction U ms tx) A =
      GetTransactions U ms A ++ entriesFor U A tx := by
  unfold GetTransactions StoreTransaction entriesFor
  by_cases h : tx.ToAddress = ""
  · simp [h, getD_get?_appendAt]
  · simp [h, getD_get?_appendAt]

theorem storeTransaction_get?_frame (U : CaseTable) (ms : MemoryStorage) (tx : Transaction)
    (k : String) (h1 : k ≠ ToLower U tx.FromAddress)
    (h2 : tx.ToAddress = "" ∨ k ≠ ToLower U tx.ToAddress) :
    (StoreTransaction U ms tx).transactions.get? k = ms.transactions.get? k := by
  unfold StoreTransaction
  by_cases h : tx.ToAddress = ""
  · simp [h, get?_appendAt_ne _ _ _ _ (Ne.symm h1)]
  · have h3 : k ≠ ToLower U tx.ToAddress := h2.resolve_left h
    simp [h, get?_appendAt_ne _ _ _ _ (Ne.symm h1), get?_appendAt_ne _ _ _ _ (Ne.symm h3)]

/-- C5: for a transaction whose sender and receiver have different lower-case forms,
`StoreTransaction` appends it to the sender history; with a non-empty receiver it appends it
to the receiver history as well; with an empty receiver every key but the sender key is
untouched.  Every other key of the history map, the subscriber map and the block cursor are
unchanged, and storing the same transaction twice gives two entries. -/
theorem C5_storeTransaction_effect (U : CaseTable) (ms : MemoryStorage) (tx : Transaction)
    (hne : ToLower U tx.FromAddress ≠ ToLower U tx.ToAddress) :
    GetTransactions U (StoreTransaction U ms tx) tx.FromAddress =
      GetTransactions U ms tx.FromAddress ++ [tx] ∧
    (tx.ToAddress ≠ "" →
      GetTransactions U (StoreTransaction U ms tx) tx.ToAddress =
        GetTransactions U ms tx.ToAddress ++ [tx]) ∧
    (tx.ToAddress = "" → ∀ k : String, k ≠ ToLower U tx.FromAddress →
      (StoreTransaction U ms tx).transactions.get? k = ms.transactions.get? k) ∧
    (∀ k : String, k ≠ ToLower U tx.FromAddress → k ≠ ToLower U tx.ToAddress →
      (StoreTransaction U ms tx).transactions.get? k = ms.transactions.get? k) ∧
    (∀ A : String, ToLower U A ≠ ToLower U tx.FromAddress →
      ToLower U A ≠ ToLower U tx.ToAddress →
      GetTransactions U (StoreTransaction U ms tx) A = GetTransactions U ms A) ∧
    (StoreTransaction U ms tx).subscribers = ms.subscribers ∧
    (StoreTransaction U ms tx).currentBlock = ms.currentBlock ∧
    GetTransactions U (StoreTransaction U (StoreTransaction U ms tx) tx) tx.FromAddress =
      GetTransactions U ms tx.FromAddress ++ [tx, tx] := by
  have hne' : ToLower U tx.ToAddress ≠ ToLower U tx.FromAddress := Ne.symm hne
  have eF : entriesFor U tx.FromAddress tx = [tx] := by
    unfold entriesFor
    simp [hne']
  have eT : tx.ToAddress ≠ "" → entriesFor U tx.ToAddress tx = [tx] := by
    intro h
    unfold entriesFor
    simp [hne, h]
  refine ⟨?_, ?_, ?_, ?_, ?_, storeTransaction_subscribers U ms tx,
    storeTransaction_currentBlock U ms tx, ?_⟩
  · rw [getTransactions_storeTransaction, eF]
  · intro h
    rw [getTransactions_storeTransaction, eT h]
  · intro h k hk
    exact storeTransaction_get?_frame U ms tx k hk (Or.inl h)
  · intro k hk1 hk2
    exact storeTransaction_get?_frame U ms tx k hk1 (Or.inr hk2)
  · intro A h1 h2
    unfold GetTransactions
    rw [storeTransaction_get?_frame U ms tx _ h1 (Or.inr h2)]
  · rw [getTransactions_storeTransaction, getTransactions_storeTransaction, eF]
    simp

/-- Witness of C5: the transfer from `addr1` to `addr2` stored in `store1`. -/
theorem C5_storeTransaction_effect_witness :
    ToLower asciiCaseTable sampleTx.FromAddress ≠ ToLower asciiCaseTable sampleTx.ToAddress ∧
    GetTransactions asciiCaseTable (StoreTransaction asciiCaseTable store1 sampleTx)
        sampleTx.FromAddress =
      GetTransactions asciiCaseTable store1 sampleTx.FromAddress ++ [sampleTx] :=
  ⟨by decide, (C5_storeTransaction_effect asciiCaseTable store1 sampleTx (by decide)).1⟩

theorem getTransactions_foldl (U : CaseTable) (txs : List Transaction) (ms : MemoryStorage)
    (A : String) :
    GetTransactions U (txs.foldl (StoreTransaction U) ms) A =
      GetTransactions U ms A ++ historyFor U A txs := by
  induction txs generalizing ms with
  | nil => simp [historyFor]
  | cons tx txs ih =>
    rw [List.foldl_cons, ih, getTransactions_storeTransaction, historyFor, List.append_assoc]

theorem get?_foldl_none (U : CaseTable) (txs : List Transaction) (ms : MemoryStorage)
    (A : String) (h : historyFor U A txs = []) :
    (txs.foldl (StoreTransaction U) ms).transactions.get? (ToLower U A) =
      ms.transactions.get? (ToLower U A) := by
  induction txs generalizing ms with
  | nil => rfl
  | cons tx txs ih =>
    rw [historyFor, List.append_eq_nil] at h
    rw [List.foldl_cons, ih _ h.2]
    have he := h.1
    unfold entriesFor at he
    rw [List.append_eq_nil] at he
    apply storeTransaction_get?_frame
    · intro hc
      have := he.1
      simp [hc] at this
    · by_cases ht : tx.ToAddress = ""
      · exact Or.inl ht
      · right
        intro hc
        have := he.2
        simp [hc, ht] at this

/-- C6, as stated, fails.  A transfer from an address to itself is stored twice in that
address history, while it occurs once among the stored transactions; and a transaction with
an empty receiver is not in the history of the empty address, although its receiver
lower-cases to the lower-case form of that address. -/
theorem C6_counterexample :
    (GetTransactions asciiCaseTable (storeAll asciiCaseTable [selfTx]) addr1).length = 2 ∧
    (claimedHistory asciiCaseTable addr1 [selfTx]).length = 1 ∧
    (GetTransactions asciiCaseTable (storeAll asciiCaseTable [creationTx]) "").length = 0 ∧
    (claimedHistory asciiCaseTable "" [creationTx]).length = 1 := by
  decide

/-- C6, amended: after any sequence of `StoreTransaction` calls on a fresh store,
`GetTransactions(A)` lists, in storage order, every stored transaction once if its sender
lower-cases to the lower-case form of `A` and once more if its receiver is non-empty and
lower-cases to it; when no stored transaction has such an entry the key is absent from the
map and the result is the empty (nil) sequence. -/
theorem C6_getTransactions_history (U : CaseTable) (txs : List Transaction) (A : String) :
    GetTransactions U (storeAll U txs) A = historyFor U A txs ∧
    (historyFor U A txs = [] →
      (storeAll U txs).transactions.get? (ToLower U A) = none ∧
      GetTransactions U (storeAll U txs) A = []) := by
  have e : GetTransactions U (storeAll U txs) A = historyFor U A txs := by
    unfold storeAll
    rw [getTransactions_foldl]
    rfl
  refine ⟨e, fun h => ⟨?_, by rw [e, h]⟩⟩
  unfold storeAll
  rw [get?_foldl_none U txs _ A h]
  rfl


/-! ## The transaction filter -/

theorem toLower_toLower (U : CaseTable) (s : String) : ToLower U (ToLower U s) = ToLower U s := by
  unfold ToLower
  congr 1
  rw [List.map_map]
  apply List.map_congr_left
  intro c _
  exact U.stable c

theorem toLower_eq_empty_iff (U : CaseTable) (s : String) : ToLower U s = "" ↔ s = "" := by
  unfold ToLower
  constructor
  · intro h
    have h1 : s.data.map (runeToLower U.lower) = [] := congrArg String.data h
    apply String.ext
    simpa using h1
  · rintro rfl
    rfl

theorem isSubscribed_toLower (U : CaseTable) (ms : MemoryStorage) (s : String) :
    IsSubscribed U ms (ToLower U s) = IsSubscribed U ms s := by
  unfold IsSubscribed
  rw [toLower_toLower]

theorem toAddress_eq (U : CaseTable) (tx : GoMap JSONValue) :
    (if ((assertString (tx.get? "to")).2 && decide ((assertString (tx.get? "to")).1 ≠ "")) = true
      then ToLower U (assertString (tx.get? "to")).1 else "") = ToLower U (receiverOf tx) := by
  unfold receiverOf
  cases h : tx.get? "to" with
  | none => simp [assertString]; rfl
  | some v =>
    cases v with
    | string s =>
      by_cases hs : s = ""
      · subst hs
        simp [assertString]
        rfl
      · simp [assertString, hs]
    | _ => simp [assertString]; rfl

theorem processTransaction_wellFormed (U : CaseTable) (p : parserImpl) (tx : GoMap JSONValue)
    (sender value hash blockNumber : String) (v b : Int) (blockTimestamp : Int)
    (wf : WellFormed tx sender value hash blockNumber v b) :
    parserImpl.ProcessTransaction U p (some tx) blockTimestamp =
      if (IsSubscribed U p.storage sender ||
          (decide (receiverOf tx ≠ "") && IsSubscribed U p.storage (receiverOf tx))) = true then
        ((some (recordOf U tx sender hash v b blockTimestamp), none),
          { p with storage :=
              StoreTransaction U p.storage (recordOf U tx sender hash v b blockTimestamp) })
      else ((none, none), p) := by
  have hto := toAddress_eq U tx
  have hne : decide (ToLower U (receiverOf tx) ≠ "") = decide (receiverOf tx ≠ "") := by
    simp [toLower_eq_empty_iff]
  unfold parserImpl.ProcessTransaction
  simp only [wf.sender_eq, wf.value_eq, wf.hash_eq, wf.blockNumber_eq, assertString,
    wf.sender_ne, wf.value_ne, wf.hash_ne, wf.blockNumber_ne, wf.value_parses,
    wf.blockNumber_parses, Bool.not_true, Bool.false_or, decide_False, Bool.false_eq_true,
    if_false]
  simp only [assertString] at hto
  rw [hto, isSubscribed_toLower, isSubscribed_toLower, hne]
  rfl


theorem assertString_of_bad (m : GoMap JSONValue) (f : String) (h : RequiredFieldBad m f) :
    (assertString (m.get? f)).2 = false ∨ (assertString (m.get? f)).1 = "" := by
  rcases h with h | h | ⟨v, h, hv⟩
  · rw [h]; left; rfl
  · rw [h]; right; rfl
  · rw [h]
    cases v with
    | string s => exact absurd rfl (hv s)
    | _ => left; rfl

theorem processTransaction_bad (U : CaseTable) (p : parserImpl) (m : GoMap JSONValue)
    (blockTimestamp : Int) (f : String) (hf : f ∈ ["from", "value", "hash", "blockNumber"])
    (hbad : RequiredFieldBad m f) :
    ∃ e, parserImpl.ProcessTransaction U p (some m) blockTimestamp = ((none, some e), p) := by
  have hb := assertString_of_bad m f hbad
  unfold parserImpl.ProcessTransaction
  simp only []
  by_cases c1 : (!(assertString (m.get? "from")).2 ||
      decide ((assertString (m.get? "from")).1 = "")) = true
  · rw [if_pos c1]; exact ⟨_, rfl⟩
  rw [if_neg c1]
  by_cases c2 : (!(assertString (m.get? "value")).2 ||
      decide ((assertString (m.get? "value")).1 = "")) = true
  · rw [if_pos c2]; exact ⟨_, rfl⟩
  rw [if_neg c2]
  by_cases c3 : (!(assertString (m.get? "hash")).2 ||
      decide ((assertString (m.get? "hash")).1 = "")) = true
  · rw [if_pos c3]; exact ⟨_, rfl⟩
  rw [if_neg c3]
  by_cases c4 : (!(assertString (m.get? "blockNumber")).2 ||
      decide ((assertString (m.get? "blockNumber")).1 = "")) = true
  · rw [if_pos c4]; exact ⟨_, rfl⟩
  exfalso
  simp only [List.mem_cons, List.mem_singleton, List.not_mem_nil, or_false] at hf
  rcases hf with rfl | rfl | rfl | rfl
  · rcases hb with hb | hb <;> simp [hb] at c1
  · rcases hb with hb | hb <;> simp [hb] at c2
  · rcases hb with hb | hb <;> simp [hb] at c3
  · rcases hb with hb | hb <;> simp [hb] at c4

/-- C8: a nil raw transaction, and a raw transaction in which one of the fields from, value,
hash, blockNumber is absent, empty or not a string, makes `ProcessTransaction` return an
error and no transaction, and leaves the store unchanged. -/
theorem C8_processTransaction_malformed (U : CaseTable) (p : parserImpl)
    (tx : Option (GoMap JSONValue)) (blockTimestamp : Int)
    (h : tx = none ∨ ∃ m, tx = some m ∧
      ∃ f ∈ ["from", "value", "hash", "blockNumber"], RequiredFieldBad m f) :
    (parserImpl.ProcessTransaction U p tx blockTimestamp).1.1 = none ∧
    (parserImpl.ProcessTransaction U p tx blockTimestamp).1.2.isSome = true ∧
    (parserImpl.ProcessTransaction U p tx blockTimestamp).2 = p := by
  rcases h with rfl | ⟨m, rfl, f, hf, hbad⟩
  · exact ⟨rfl, rfl, rfl⟩
  · obtain ⟨e, he⟩ := processTransaction_bad U p m blockTimestamp f hf hbad
    rw [he]
    exact ⟨rfl, rfl, rfl⟩

/-- Witness of C8: the raw transaction without a hash, the scenario of the specification. -/
theorem C8_processTransaction_malformed_witness :
    RequiredFieldBad rawTxNoHash "hash" ∧
    (parserImpl.ProcessTransaction asciiCaseTable ⟨store1⟩ (some rawTxNoHash) 1000).1.1 = none ∧
    (parserImpl.ProcessTransaction asciiCaseTable ⟨store1⟩ (some rawTxNoHash) 1000).1.2.isSome
      = true ∧
    (parserImpl.ProcessTransaction asciiCaseTable ⟨store1⟩ (some rawTxNoHash) 1000).2 = ⟨store1⟩ :=
  ⟨Or.inl rfl,
    C8_processTransaction_malformed asciiCaseTable ⟨store1⟩ (some rawTxNoHash) 1000
      (Or.inr ⟨rawTxNoHash, rfl, "hash", by decide, Or.inl rfl⟩)⟩

/-- C9: for a well-formed raw transaction whose sender is not subscribed and whose receiver
is empty or not subscribed, `ProcessTransaction` returns no transaction and no error and
leaves the store unchanged. -/
theorem C9_processTransaction_irrelevant (U : CaseTable) (p : parserImpl)
    (tx : GoMap JSONValue) (sender value hash blockNumber : String) (v b : Int)
    (blockTimestamp : Int) (wf : WellFormed tx sender value hash blockNumber v b)
    (hs : parserImpl.IsSubscribed U p sender = false)
    (hr : receiverOf tx = "" ∨ parserImpl.IsSubscribed U p (receiverOf tx) = false) :
    parserImpl.ProcessTransaction U p (some tx) blockTimestamp = ((none, none), p) := by
  rw [processTransaction_wellFormed U p tx sender value hash blockNumber v b blockTimestamp wf]
  have hs' : IsSubscribed U p.storage sender = false := hs
  have hc : (IsSubscribed U p.storage sender ||
      (decide (receiverOf tx ≠ "") && IsSubscribed U p.storage (receiverOf tx))) = false := by
    rw [hs']
    rcases hr with hr | hr
    · simp [hr]
    · have hr' : IsSubscribed U p.storage (receiverOf tx) = false := hr
      simp [hr']
  rw [hc]
  rfl

/-- Witness of C9: the raw transfer from `addr1` to `addr2` on a fresh store. -/
theorem C9_processTransaction_irrelevant_witness :
    WellFormed rawTx addr1 "0x1" "0xabc" "0x1" 1 1 ∧
    parserImpl.ProcessTransaction asciiCaseTable ⟨NewMemoryStorage⟩ (some rawTx) 1000 =
      ((none, none), ⟨NewMemoryStorage⟩) :=
  have wf : WellFormed rawTx addr1 "0x1" "0xabc" "0x1" 1 1 :=
    ⟨rfl, by decide, rfl, by decide, rfl, by decide, rfl, by decide, by decide, by decide⟩
  ⟨wf, C9_processTransaction_irrelevant asciiCaseTable ⟨NewMemoryStorage⟩ rawTx addr1 "0x1"
    "0xabc" "0x1" 1 1 1000 wf (by decide) (Or.inr (by decide))⟩


/-- C10, as stated, fails: `addr1` is subscribed and `addr2` is not, and processing the raw
transfer from `addr1` to `addr2` adds an entry to the history of the receiver `addr2`. -/
theorem C10_counterexample :
    WellFormed rawTx addr1 "0x1" "0xabc" "0x1" 1 1 ∧
    parserImpl.IsSubscribed asciiCaseTable ⟨store1⟩ addr1 = true ∧
    receiverOf rawTx = addr2 ∧
    parserImpl.IsSubscribed asciiCaseTable ⟨store1⟩ addr2 = false ∧
    (parserImpl.GetTransactions asciiCaseTable ⟨store1⟩ addr2).length = 0 ∧
    (parserImpl.GetTransactions asciiCaseTable
      (parserImpl.ProcessTransaction asciiCaseTable ⟨store1⟩ (some rawTx) 1000).2 addr2).length
      = 1 :=
  ⟨⟨rfl, by decide, rfl, by decide, rfl, by decide, rfl, by decide, by decide, by decide⟩,
    by decide, rfl, by decide, by decide, by decide⟩

/-- C10, amended: for a well-formed raw transaction whose sender is subscribed and whose
receiver is empty or not subscribed, `ProcessTransaction` returns the record and appends it
to the sender history, which grows by exactly one entry.  With an empty receiver no other
history changes; with a non-empty receiver the same record is appended to the receiver
history as well. -/
theorem C10_processTransaction_sender (U : CaseTable) (p : parserImpl)
    (tx : GoMap JSONValue) (sender value hash blockNumber : String) (v b : Int)
    (blockTimestamp : Int) (wf : WellFormed tx sender value hash blockNumber v b)
    (hs : parserImpl.IsSubscribed U p sender = true)
    (hr : receiverOf tx = "" ∨ parserImpl.IsSubscribed U p (receiverOf tx) = false) :
    (parserImpl.ProcessTransaction U p (some tx) blockTimestamp).1 =
      (some (recordOf U tx sender hash v b blockTimestamp), none) ∧
    parserImpl.GetTransactions U
        (parserImpl.ProcessTransaction U p (some tx) blockTimestamp).2 sender =
      parserImpl.GetTransactions U p sender ++ [recordOf U tx sender hash v b blockTimestamp] ∧
    (receiverOf tx = "" → ∀ A : String, ToLower U A ≠ ToLower U sender →
      parserImpl.GetTransactions U
          (parserImpl.ProcessTransaction U p (some tx) blockTimestamp).2 A =
        parserImpl.GetTransactions U p A) ∧
    (receiverOf tx ≠ "" →
      parserImpl.GetTransactions U
          (parserImpl.ProcessTransaction U p (some tx) blockTimestamp).2 (receiverOf tx) =
        parserImpl.GetTransactions U p (receiverOf tx) ++
          [recordOf U tx sender hash v b blockTimestamp]) := by
  have hs' : IsSubscribed U p.storage sender = true := hs
  have hne : receiverOf tx ≠ "" → ToLower U sender ≠ ToLower U (receiverOf tx) := by
    intro h0 hc
    rcases hr with hr | hr
    · exact h0 hr
    · have e : IsSubscribed U p.storage (receiverOf tx) = IsSubscribed U p.storage sender := by
        unfold IsSubscribed
        rw [hc]
      have hr' : IsSubscribed U p.storage (receiverOf tx) = false := hr
      rw [hr', hs'] at e
      exact Bool.noConfusion e
  have hrecF : (recordOf U tx sender hash v b blockTimestamp).FromAddress = ToLower U sender :=
    rfl
  have hrecT : (recordOf U tx sender hash v b blockTimestamp).ToAddress =
      ToLower U (receiverOf tx) := rfl
  rw [processTransaction_wellFormed U p tx sender value hash blockNumber v b blockTimestamp wf]
  simp only [hs', Bool.true_or, if_true]
  unfold parserImpl.GetTransactions
  simp only [getTransactions_storeTransaction]
  refine ⟨trivial, ?_, ?_, ?_⟩
  · congr 1
    unfold entriesFor
    rw [hrecF, hrecT, toLower_toLower, toLower_toLower, if_pos rfl]
    by_cases h0 : receiverOf tx = ""
    · rw [h0]
      have : ToLower U "" = "" := rfl
      simp [this]
    · simp [Ne.symm (hne h0)]
  · intro h0 A hA
    unfold entriesFor
    rw [hrecF, hrecT, toLower_toLower, h0]
    have : ToLower U "" = "" := rfl
    simp [this, Ne.symm hA]
  · intro h0
    congr 1
    unfold entriesFor
    rw [hrecF, hrecT, toLower_toLower, toLower_toLower, if_neg (hne h0)]
    simp [toLower_eq_empty_iff, h0]

/-- Witness of C10, amended: the raw transfer from the subscribed `addr1` to `addr2`. -/
theorem C10_processTransaction_sender_witness :
    WellFormed rawTx addr1 "0x1" "0xabc" "0x1" 1 1 ∧
    parserImpl.GetTransactions asciiCaseTable
        (parserImpl.ProcessTransaction asciiCaseTable ⟨store1⟩ (some rawTx) 1000).2 addr1 =
      parserImpl.GetTransactions asciiCaseTable ⟨store1⟩ addr1 ++
        [recordOf asciiCaseTable rawTx addr1 "0xabc" 1 1 1000] :=
  have wf : WellFormed rawTx addr1 "0x1" "0xabc" "0x1" 1 1 :=
    ⟨rfl, by decide, rfl, by decide, rfl, by decide, rfl, by decide, by decide, by decide⟩
  ⟨wf, (C10_processTransaction_sender asciiCaseTable ⟨store1⟩ rawTx addr1 "0x1" "0xabc" "0x1"
    1 1 1000 wf (by decide) (Or.inr (by decide))).2.1⟩


/-! ## Which histories a processed transaction enters -/

theorem historyAt_storeTransaction (U : CaseTable) (ms : MemoryStorage) (tx : Transaction)
    (k : String) :
    historyAt (StoreTransaction U ms tx) k =
      historyAt ms k ++ ((if ToLower U tx.FromAddress = k then [tx] else []) ++
        (if tx.ToAddress ≠ "" ∧ ToLower U tx.ToAddress = k then [tx] else [])) := by
  unfold historyAt StoreTransaction
  by_cases h : tx.ToAddress = ""
  · simp [h, getD_get?_appendAt]
  · simp [h, getD_get?_appendAt]

theorem isSubscribed_addSubscriber_mono (U : CaseTable) (ms : MemoryStorage) (A B : String)
    (h : IsSubscribed U ms B = true) : IsSubscribed U (AddSubscriber U ms A).2 B = true := by
  rcases addSubscriber_cases U ms A with ⟨_, e⟩ | ⟨_, e⟩
  · rw [e]
    unfold IsSubscribed at h ⊢
    by_cases hk : ToLower U A = ToLower U B
    · simp only [hk, GoMap.get?_set_self]
      rfl
    · simp only [GoMap.get?_set_ne _ _ _ _ hk]
      exact h
  · rw [e]
    exact h

theorem processTransaction_fields (U : CaseTable) (p : parserImpl) (tx : GoMap JSONValue)
    (sender value hash blockNumber : String) (blockTimestamp : Int)
    (fp : FieldsPresent tx sender value hash blockNumber) :
    parserImpl.ProcessTransaction U p (some tx) blockTimestamp =
      match (parseHexToInt64 (TrimPrefix value "0x")).2 with
      | some e => ((none, some (ProcessError.parseValue e)), p)
      | none =>
        match (parseHexToInt64 (TrimPrefix blockNumber "0x")).2 with
        | some e => ((none, some (ProcessError.parseBlockNumber e)), p)
        | none =>
          if (IsSubscribed U p.storage sender ||
              (decide (receiverOf tx ≠ "") && IsSubscribed U p.storage (receiverOf tx))) = true
          then
            ((some (recordOf U tx sender hash (parseHexToInt64 (TrimPrefix value "0x")).1
                (parseHexToInt64 (TrimPrefix blockNumber "0x")).1 blockTimestamp), none),
              { p with storage := (StoreTransaction U p.storage
                  (recordOf U tx sender hash (parseHexToInt64 (TrimPrefix value "0x")).1
                    (parseHexToInt64 (TrimPrefix blockNumber "0x")).1 blockTimestamp)) })
          else ((none, none), p) := by
  have hto := toAddress_eq U tx
  have hne : decide (ToLower U (receiverOf tx) ≠ "") = decide (receiverOf tx ≠ "") := by
    simp [toLower_eq_empty_iff]
  unfold parserImpl.ProcessTransaction
  simp only [fp.sender_eq, fp.value_eq, fp.hash_eq, fp.blockNumber_eq, assertString,
    fp.sender_ne, fp.value_ne, fp.hash_ne, fp.blockNumber_ne, Bool.not_true, Bool.false_or,
    decide_False, Bool.false_eq_true, if_false]
  simp only [assertString] at hto
  rw [hto, isSubscribed_toLower, isSubscribed_toLower, hne]
  rfl

theorem field_dichotomy (m : GoMap JSONValue) (f : String) :
    RequiredFieldBad m f ∨ ∃ s : String, m.get? f = some (JSONValue.string s) ∧ s ≠ "" := by
  cases h : m.get? f with
  | none => exact Or.inl (Or.inl h)
  | some v =>
    cases v with
    | string s =>
      by_cases hs : s = ""
      · subst hs
        exact Or.inl (Or.inr (Or.inl h))
      · exact Or.inr ⟨s, rfl, hs⟩
    | _ =>
      refine Or.inl (Or.inr (Or.inr ⟨_, h, ?_⟩))
      intro s hc
      cases hc

theorem processTransaction_cases (U : CaseTable) (p : parserImpl)
    (tx : Option (GoMap JSONValue)) (blockTimestamp : Int) :
    (∃ r, parserImpl.ProcessTransaction U p tx blockTimestamp = ((none, r), p)) ∨
    ∃ t : Transaction,
      parserImpl.ProcessTransaction U p tx blockTimestamp =
        ((some t, none), { p with storage := StoreTransaction U p.storage t }) ∧
      (IsSubscribed U p.storage t.FromAddress = true ∨
        (t.ToAddress ≠ "" ∧ IsSubscribed U p.storage t.ToAddress = true)) ∧
      ToLower U t.FromAddress = t.FromAddress ∧ ToLower U t.ToAddress = t.ToAddress ∧
      t.Timestamp = blockTimestamp := by
  cases tx with
  | none => exact Or.inl ⟨_, rfl⟩
  | some m =>
    have bad : ∀ f ∈ ["from", "value", "hash", "blockNumber"], RequiredFieldBad m f →
        ∃ r, parserImpl.ProcessTransaction U p (some m) blockTimestamp = ((none, r), p) := by
      intro f hf hb
      obtain ⟨e, he⟩ := processTransaction_bad U p m blockTimestamp f hf hb
      exact ⟨_, he⟩
    rcases field_dichotomy m "from" with h1 | ⟨sender, h1, n1⟩
    · exact Or.inl (bad _ (by simp) h1)
    rcases field_dichotomy m "value" with h2 | ⟨value, h2, n2⟩
    · exact Or.inl (bad _ (by simp) h2)
    rcases field_dichotomy m "hash" with h3 | ⟨hash, h3, n3⟩
    · exact Or.inl (bad _ (by simp) h3)
    rcases field_dichotomy m "blockNumber" with h4 | ⟨blockNumber, h4, n4⟩
    · exact Or.inl (bad _ (by simp) h4)
    rw [processTransaction_fields U p m sender value hash blockNumber blockTimestamp
      ⟨h1, n1, h2, n2, h3, n3, h4, n4⟩]
    split
    · exact Or.inl ⟨_, rfl⟩
    split
    · exact Or.inl ⟨_, rfl⟩
    split
    · next hsub =>
      right
      refine ⟨recordOf U m sender hash _ _ blockTimestamp, rfl, ?_, toLower_toLower U _,
        toLower_toLower U _, rfl⟩
      simp only [Bool.or_eq_true, Bool.and_eq_true, decide_eq_true_eq] at hsub
      rcases hsub with hs | ⟨hn, hs⟩
      · left
        show IsSubscribed U p.storage (ToLower U sender) = true
        rw [isSubscribed_toLower]
        exact hs
      · right
        refine ⟨?_, ?_⟩
        · show ToLower U (receiverOf m) ≠ ""
          rw [Ne, toLower_eq_empty_iff]
          exact hn
        · show IsSubscribed U p.storage (ToLower U (receiverOf m)) = true
          rw [isSubscribed_toLower]
          exact hs
    · exact Or.inl ⟨_, rfl⟩

/-- C11, as stated, fails: after `addr1` subscribes and the raw transfer from `addr1` to
`addr2` is processed, the history of `addr2` holds the record although `addr2` was never
subscribed. -/
theorem C11_counterexample :
    parserImpl.IsSubscribed asciiCaseTable
      (runCalls asciiCaseTable [ParserCall.subscribe addr1, ParserCall.process (some rawTx) 1000])
      addr2 = false ∧
    (parserImpl.GetTransactions asciiCaseTable
      (runCalls asciiCaseTable [ParserCall.subscribe addr1, ParserCall.process (some rawTx) 1000])
      addr2).length = 1 := by
  decide

/-- C11, amended: in every state reachable from a fresh store by `Subscribe` and
`ProcessTransaction` calls, a transaction in the history of a key has that key as its sender
or as its non-empty receiver, and its sender or its non-empty receiver is subscribed; and
whatever a further `ProcessTransaction` call adds to a history is a record whose sender or
non-empty receiver is subscribed when the call is made. -/
theorem C11_history_has_subscribed_side (U : CaseTable) (calls : List ParserCall) :
    (∀ (k : String) (t : Transaction), t ∈ historyAt (runCalls U calls).storage k →
      (k = t.FromAddress ∨ (t.ToAddress ≠ "" ∧ k = t.ToAddress)) ∧
      (parserImpl.IsSubscribed U (runCalls U calls) t.FromAddress = true ∨
        (t.ToAddress ≠ "" ∧
          parserImpl.IsSubscribed U (runCalls U calls) t.ToAddress = true))) ∧
    (∀ (tx : Option (GoMap JSONValue)) (blockTimestamp : Int) (k : String),
      ∃ added : List Transaction,
        historyAt ((runCalls U calls).ProcessTransaction U tx blockTimestamp).2.storage k =
          historyAt (runCalls U calls).storage k ++ added ∧
        ∀ t ∈ added,
          (k = t.FromAddress ∨ (t.ToAddress ≠ "" ∧ k = t.ToAddress)) ∧
          (parserImpl.IsSubscribed U (runCalls U calls) t.FromAddress = true ∨
            (t.ToAddress ≠ "" ∧
              parserImpl.IsSubscribed U (runCalls U calls) t.ToAddress = true))) := by
  have step : ∀ (p : parserImpl) (tx : Option (GoMap JSONValue)) (blockTimestamp : Int)
      (k : String), ∃ added : List Transaction,
        historyAt (p.ProcessTransaction U tx blockTimestamp).2.storage k =
          historyAt p.storage k ++ added ∧
        ∀ t ∈ added,
          (k = t.FromAddress ∨ (t.ToAddress ≠ "" ∧ k = t.ToAddress)) ∧
          (IsSubscribed U p.storage t.FromAddress = true ∨
            (t.ToAddress ≠ "" ∧ IsSubscribed U p.storage t.ToAddress = true)) := by
    intro p tx blockTimestamp k
    rcases processTransaction_cases U p tx blockTimestamp with ⟨r, e⟩ | ⟨t, e, hs, hF, hT, _⟩
    · exact ⟨[], by rw [e]; simp, by simp⟩
    · refine ⟨_, by rw [e]; exact historyAt_storeTransaction U p.storage t k, ?_⟩
      intro t' ht'
      rw [hF, hT] at ht'
      simp only [List.mem_append] at ht'
      rcases ht' with ht' | ht'
      · split at ht'
        · next hk =>
          simp only [List.mem_singleton] at ht'
          subst ht'
          exact ⟨Or.inl hk.symm, hs⟩
        · simp at ht'
      · split at ht'
        · next hk =>
          simp only [List.mem_singleton] at ht'
          subst ht'
          exact ⟨Or.inr ⟨hk.1, hk.2.symm⟩, hs⟩
        · simp at ht'
  have subs_mono : ∀ (p : parserImpl) (tx : Option (GoMap JSONValue)) (blockTimestamp : Int),
      (p.ProcessTransaction U tx blockTimestamp).2.storage.subscribers =
        p.storage.subscribers := by
    intro p tx blockTimestamp
    rcases processTransaction_cases U p tx blockTimestamp with ⟨r, e⟩ | ⟨t, e, _⟩
    · rw [e]
    · rw [e]
      exact storeTransaction_subscribers U p.storage t
  refine ⟨?_, fun tx blockTimestamp k => step _ tx blockTimestamp k⟩
  unfold runCalls
  induction calls using List.reverseRecOn with
  | nil =>
    intro k t ht
    simp [historyAt, NewMemoryStorage, GoMap.get?] at ht
  | append_singleton calls c ih =>
    intro k t ht
    rw [List.foldl_append, List.foldl_cons, List.foldl_nil] at ht ⊢
    generalize List.foldl (ParserCall.run U) ⟨NewMemoryStorage⟩ calls = p at ih ht ⊢
    cases c with
    | subscribe address =>
      have hh : historyAt (ParserCall.run U p (ParserCall.subscribe address)).storage k =
          historyAt p.storage k := by
        show historyAt (AddSubscriber U p.storage address).2 k = historyAt p.storage k
        rcases addSubscriber_cases U p.storage address with ⟨_, e⟩ | ⟨_, e⟩
        · rw [e]
          rfl
        · rw [e]
      rw [hh] at ht
      obtain ⟨h1, h2⟩ := ih k t ht
      refine ⟨h1, ?_⟩
      rcases h2 with h2 | ⟨h0, h2⟩
      · exact Or.inl (isSubscribed_addSubscriber_mono U p.storage address _ h2)
      · exact Or.inr ⟨h0, isSubscribed_addSubscriber_mono U p.storage address _ h2⟩
    | process tx blockTimestamp =>
      obtain ⟨added, hadd, hprop⟩ := step p tx blockTimestamp k
      have hsub : ∀ A, parserImpl.IsSubscribed U
          (ParserCall.run U p (ParserCall.process tx blockTimestamp)) A =
          IsSubscribed U p.storage A := by
        intro A
        show IsSubscribed U (p.ProcessTransaction U tx blockTimestamp).2.storage A = _
        unfold IsSubscribed
        rw [subs_mono]
      rw [hsub, hsub]
      have ht2 : t ∈ historyAt p.storage k ++ added := by
        rw [← hadd]
        exact ht
      rcases List.mem_append.1 ht2 with h | h
      · exact ih k t h
      · exact hprop t h


/-! ## `strconv.ParseInt` in base 16 against the hex value of a string -/

theorem strconvLower_ge (n : Nat) (h : 128 ≤ n) : 128 ≤ strconvLower n := by
  unfold strconvLower
  by_contra hc
  have hlt : n ||| ('x'.toNat - 'X'.toNat) < 2 ^ 7 := by omega
  have : n < 2 ^ 7 := by
    apply Nat.lt_pow_two_of_testBit
    intro i hi
    have h1 : (n ||| ('x'.toNat - 'X'.toNat)).testBit i = false :=
      Nat.testBit_lt_two_pow (lt_of_lt_of_le hlt (Nat.pow_le_pow_right (by norm_num) hi))
    rw [Nat.testBit_or] at h1
    simp only [Bool.or_eq_false_iff] at h1
    exact h1.1
  omega

theorem digit_small : ∀ n : Nat, n < 128 →
    ((decide ((48 ≤ n ∧ n ≤ 57) ∨ (97 ≤ n ∧ n ≤ 102) ∨ (65 ≤ n ∧ n ≤ 70)) = true →
      (if 48 ≤ n ∧ n ≤ 57 then some (n - 48)
        else if 97 ≤ strconvLower n ∧ strconvLower n ≤ 122 then some (strconvLower n - 97 + 10)
        else none) =
        some (if 48 ≤ n ∧ n ≤ 57 then n - 48 else if 97 ≤ n ∧ n ≤ 102 then n - 97 + 10
          else n - 65 + 10) ∧
      (if 48 ≤ n ∧ n ≤ 57 then n - 48 else if 97 ≤ n ∧ n ≤ 102 then n - 97 + 10
          else n - 65 + 10) < 16) ∧
    (decide ((48 ≤ n ∧ n ≤ 57) ∨ (97 ≤ n ∧ n ≤ 102) ∨ (65 ≤ n ∧ n ≤ 70)) = false →
      ∀ d, (if 48 ≤ n ∧ n ≤ 57 then some (n - 48)
        else if 97 ≤ strconvLower n ∧ strconvLower n ≤ 122 then some (strconvLower n - 97 + 10)
        else none) = some d → 16 ≤ d)) := by
  decide

theorem digit_of_hex (c : Char) (h : isHexDigit c = true) :
    (if '0'.toNat ≤ c.toNat ∧ c.toNat ≤ '9'.toNat then some (c.toNat - '0'.toNat)
      else if 'a'.toNat ≤ strconvLower c.toNat ∧ strconvLower c.toNat ≤ 'z'.toNat then
        some (strconvLower c.toNat - 'a'.toNat + 10)
      else none) = some (hexDigitValue c) ∧ hexDigitValue c < 16 := by
  unfold isHexDigit at h
  unfold hexDigitValue
  have hn : c.toNat < 128 := by
    simp only [decide_eq_true_eq] at h
    have e1 : '9'.toNat = 57 := rfl
    have e2 : 'f'.toNat = 102 := rfl
    have e3 : 'F'.toNat = 70 := rfl
    rw [e1, e2, e3] at h
    omega
  exact (digit_small c.toNat hn).1 h

theorem digit_of_not_hex (c : Char) (h : isHexDigit c = false) (d : Nat)
    (hd : (if '0'.toNat ≤ c.toNat ∧ c.toNat ≤ '9'.toNat then some (c.toNat - '0'.toNat)
      else if 'a'.toNat ≤ strconvLower c.toNat ∧ strconvLower c.toNat ≤ 'z'.toNat then
        some (strconvLower c.toNat - 'a'.toNat + 10)
      else none) = some d) : 16 ≤ d := by
  unfold isHexDigit at h
  by_cases hn : c.toNat < 128
  · exact (digit_small c.toNat hn).2 h d hd
  · have hge := strconvLower_ge c.toNat (by omega)
    have e0 : '0'.toNat = 48 := rfl
    have e1 : '9'.toNat = 57 := rfl
    have e2 : 'a'.toNat = 97 := rfl
    have e3 : 'z'.toNat = 122 := rfl
    rw [e0, e1, e2, e3] at hd
    rw [if_neg (by omega), if_neg (by omega)] at hd
    cases hd

theorem parseUintLoop_hex (c : Char) (cs : List Char) (n : Nat) (h : isHexDigit c = true) :
    parseUintLoop 16 (2 ^ 60) (2 ^ 64 - 1) (c :: cs) n =
      if n ≥ 2 ^ 60 then (2 ^ 64 - 1, some NumError.ErrRange)
      else parseUintLoop 16 (2 ^ 60) (2 ^ 64 - 1) cs (n * 16 + hexDigitValue c) := by
  obtain ⟨e, hlt⟩ := digit_of_hex c h
  rw [parseUintLoop]
  simp only [e]
  rw [if_neg (by omega)]
  by_cases hn : n ≥ 2 ^ 60
  · rw [if_pos hn, if_pos hn]
  · rw [if_neg hn, if_neg hn]
    have e1 : n * 16 % 2 ^ 64 = n * 16 := Nat.mod_eq_of_lt (by omega)
    have e2 : (n * 16 + hexDigitValue c) % 2 ^ 64 = n * 16 + hexDigitValue c :=
      Nat.mod_eq_of_lt (by omega)
    rw [e1, e2, if_neg (by omega)]

theorem parseUintLoop_not_hex (c : Char) (cs : List Char) (n : Nat)
    (h : isHexDigit c = false) :
    parseUintLoop 16 (2 ^ 60) (2 ^ 64 - 1) (c :: cs) n = (0, some NumError.ErrSyntax) := by
  rw [parseUintLoop]
  simp only []
  split
  · rfl
  · next d hd =>
    have := digit_of_not_hex c h d hd
    rw [if_pos this]

theorem le_hexAcc (ds : List Char) (n : Nat) : n ≤ hexAcc n ds := by
  induction ds generalizing n with
  | nil => exact Nat.le_refl _
  | cons c cs ih =>
    have := ih (n * 16 + hexDigitValue c)
    have e : hexAcc n (c :: cs) = hexAcc (n * 16 + hexDigitValue c) cs := rfl
    rw [e]
    omega

theorem parseUintLoop_all_hex (ds : List Char) (n : Nat) (h : ds.all isHexDigit = true)
    (hn : n < 2 ^ 64) :
    parseUintLoop 16 (2 ^ 60) (2 ^ 64 - 1) ds n =
      if hexAcc n ds < 2 ^ 64 then (hexAcc n ds, none)
      else (2 ^ 64 - 1, some NumError.ErrRange) := by
  induction ds generalizing n with
  | nil =>
    have e : hexAcc n [] = n := rfl
    rw [e, if_pos hn]
    rfl
  | cons c cs ih =>
    simp only [List.all_cons, Bool.and_eq_true] at h
    obtain ⟨_, hlt⟩ := digit_of_hex c h.1
    have e : hexAcc n (c :: cs) = hexAcc (n * 16 + hexDigitValue c) cs := rfl
    rw [parseUintLoop_hex c cs n h.1, e]
    by_cases hc : n ≥ 2 ^ 60
    · have := le_hexAcc cs (n * 16 + hexDigitValue c)
      rw [if_pos hc, if_neg (by omega)]
    · rw [if_neg hc]
      exact ih _ h.2 (by omega)

theorem parseUintLoop_some_not_hex (ds : List Char) (n : Nat)
    (h : ds.all isHexDigit = false) :
    parseUintLoop 16 (2 ^ 60) (2 ^ 64 - 1) ds n = (0, some NumError.ErrSyntax) ∨
    parseUintLoop 16 (2 ^ 60) (2 ^ 64 - 1) ds n = (2 ^ 64 - 1, some NumError.ErrRange) := by
  induction ds generalizing n with
  | nil => simp at h
  | cons c cs ih =>
    by_cases hc : isHexDigit c = true
    · have hcs : cs.all isHexDigit = false := by
        simpa [List.all_cons, hc] using h
      rw [parseUintLoop_hex c cs n hc]
      by_cases hn : n ≥ 2 ^ 60
      · rw [if_pos hn]
        exact Or.inr rfl
      · rw [if_neg hn]
        exact ih _ hcs
    · left
      exact parseUintLoop_not_hex c cs n (by simpa using hc)

theorem parseUint_hex (s : String) (h0 : s.data ≠ []) (h : s.data.all isHexDigit = true) :
    ParseUint s 16 =
      if hexValue s.data < 2 ^ 64 then (hexValue s.data, none)
      else (2 ^ 64 - 1, some NumError.ErrRange) := by
  have hs : s ≠ "" := by
    intro hc
    apply h0
    rw [hc]
  unfold ParseUint
  rw [if_neg hs, if_pos (by omega)]
  have ec : (2 ^ 64 - 1) / 16 + 1 = 2 ^ 60 := by norm_num
  rw [ec]
  exact parseUintLoop_all_hex s.data 0 h (by norm_num)

theorem parseUint_not_hex (s : String) (h : s.data = [] ∨ s.data.all isHexDigit = false) :
    ParseUint s 16 = (0, some NumError.ErrSyntax) ∨
    ParseUint s 16 = (2 ^ 64 - 1, some NumError.ErrRange) := by
  unfold ParseUint
  by_cases hs : s = ""
  · rw [if_pos hs]
    exact Or.inl rfl
  · rw [if_neg hs, if_pos (by omega)]
    have ec : (2 ^ 64 - 1) / 16 + 1 = 2 ^ 60 := by norm_num
    rw [ec]
    rcases h with h | h
    · exfalso
      apply hs
      apply String.ext
      rw [h]
    · exact parseUintLoop_some_not_hex s.data 0 h

theorem toInt64_of_lt (n : Nat) (h : n < 2 ^ 63) : toInt64 (n : Int) = n := by
  unfold toInt64
  have h' : (n : Int) < 2 ^ 63 := by exact_mod_cast h
  have e : ((n : Int) + 2 ^ 63) % 2 ^ 64 = (n : Int) + 2 ^ 63 :=
    Int.emod_eq_of_lt (by positivity) (by linarith)
  rw [e]
  ring

theorem toInt64_neg_of_le (n : Nat) (h : n ≤ 2 ^ 63) :
    toInt64 (-(toInt64 (n : Int))) = -(n : Int) := by
  rcases Nat.lt_or_eq_of_le h with h1 | h1
  · rw [toInt64_of_lt n h1]
    unfold toInt64
    have h' : (n : Int) < 2 ^ 63 := by exact_mod_cast h1
    by_cases h0 : n = 0
    · subst h0
      norm_num
    · have hpos : (0 : Int) < n := by exact_mod_cast Nat.pos_of_ne_zero h0
      have e : (-(n : Int) + 2 ^ 63) % 2 ^ 64 = -(n : Int) + 2 ^ 63 :=
        Int.emod_eq_of_lt (by linarith) (by linarith)
      rw [e]
      ring
  · subst h1
    unfold toInt64
    norm_num

theorem hexInt_eq (s : String) (ds : List Char)
    (hds : (if s.data.head? = some '+' ∨ s.data.head? = some '-' then s.data.drop 1
      else s.data) = ds) :
    hexInt s =
      if ds ≠ [] ∧ ds.all isHexDigit = true then
        if decide (s.data.head? = some '-') = true then
          (if hexValue ds ≤ 2 ^ 63 then some (-(hexValue ds : Int)) else none)
        else (if hexValue ds < 2 ^ 63 then some (hexValue ds : Int) else none)
      else none := by
  unfold hexInt
  simp only []
  rw [hds]

theorem parseInt_eq (s : String) (s1 : String) (hs : s ≠ "")
    (hs1 : (if s.data.head? = some '+' ∨ s.data.head? = some '-' then
      (⟨s.data.drop 1⟩ : String) else s) = s1) :
    ParseInt s 16 =
      if (ParseUint s1 16).2.isSome = true ∧ (ParseUint s1 16).2 ≠ some NumError.ErrRange then
        (0, (ParseUint s1 16).2)
      else if (!decide (s.data.head? = some '-')) = true ∧ (ParseUint s1 16).1 ≥ 2 ^ 63 then
        (toInt64 ((2 ^ 63 : Nat) - 1), some NumError.ErrRange)
      else if decide (s.data.head? = some '-') = true ∧ (ParseUint s1 16).1 > 2 ^ 63 then
        (toInt64 (-((2 ^ 63 : Nat) : Int)), some NumError.ErrRange)
      else
        (if decide (s.data.head? = some '-') = true then
            toInt64 (-(toInt64 ((ParseUint s1 16).1 : Int)))
          else toInt64 ((ParseUint s1 16).1 : Int), none) := by
  unfold ParseInt
  rw [if_neg hs]
  simp only []
  rw [hs1]

theorem parseInt_hexInt (s : String) :
    (∀ v, hexInt s = some v → ParseInt s 16 = (v, none)) ∧
    (hexInt s = none → ∃ e, (ParseInt s 16).2 = some e) := by
  by_cases hs : s = ""
  · subst hs
    refine ⟨fun v h => ?_, fun _ => ⟨NumError.ErrSyntax, rfl⟩⟩
    have : hexInt "" = none := by decide
    rw [this] at h
    cases h
  · generalize hs1 : (if s.data.head? = some '+' ∨ s.data.head? = some '-' then
      (⟨s.data.drop 1⟩ : String) else s) = s1
    have hds : (if s.data.head? = some '+' ∨ s.data.head? = some '-' then s.data.drop 1
        else s.data) = s1.data := by
      rw [← hs1]
      split <;> rfl
    rw [hexInt_eq s s1.data hds, parseInt_eq s s1 hs hs1]
    by_cases hgood : s1.data ≠ [] ∧ s1.data.all isHexDigit = true
    · rw [if_pos hgood, parseUint_hex s1 hgood.1 hgood.2]
      by_cases h64 : hexValue s1.data < 2 ^ 64
      · rw [if_pos h64]
        have c1 : ¬ ((none : Option NumError).isSome = true ∧
            (none : Option NumError) ≠ some NumError.ErrRange) := by simp
        rw [if_neg c1]
        by_cases hneg : decide (s.data.head? = some '-') = true
        · rw [if_pos hneg, if_pos hneg]
          have c2 : ¬ ((!decide (s.data.head? = some '-')) = true ∧
              hexValue s1.data ≥ 2 ^ 63) := by
            rw [hneg]
            simp
          rw [if_neg c2]
          by_cases hle : hexValue s1.data ≤ 2 ^ 63
          · rw [if_pos hle, if_neg (by intro hc; exact absurd hc.2 (by omega)),
              toInt64_neg_of_le _ hle]
            refine ⟨fun v h => ?_, fun h => by cases h⟩
            simp only [Option.some.injEq] at h
            rw [h]
          · rw [if_neg hle, if_pos ⟨hneg, by omega⟩]
            exact ⟨fun v h => (by cases h), fun _ => ⟨_, rfl⟩⟩
        · rw [if_neg hneg, if_neg hneg]
          have c3 : ¬ (decide (s.data.head? = some '-') = true ∧
              hexValue s1.data > 2 ^ 63) := fun hc => hneg hc.1
          have hn' : (!decide (s.data.head? = some '-')) = true := by
            simpa using hneg
          by_cases hlt : hexValue s1.data < 2 ^ 63
          · rw [if_pos hlt, if_neg (by intro hc; exact absurd hc.2 (by omega)), if_neg c3,
              toInt64_of_lt _ hlt]
            refine ⟨fun v h => ?_, fun h => by cases h⟩
            simp only [Option.some.injEq] at h
            rw [h]
          · rw [if_neg hlt, if_pos ⟨hn', by omega⟩]
            exact ⟨fun v h => (by cases h), fun _ => ⟨_, rfl⟩⟩
      · rw [if_neg h64]
        have c1 : ¬ ((some NumError.ErrRange).isSome = true ∧
            (some NumError.ErrRange) ≠ some NumError.ErrRange) := by simp
        rw [if_neg c1]
        have hbig : hexValue s1.data ≥ 2 ^ 64 := by omega
        by_cases hneg : decide (s.data.head? = some '-') = true
        · rw [if_pos hneg, if_neg (by omega)]
          have c2 : ¬ ((!decide (s.data.head? = some '-')) = true ∧
              (2 ^ 64 - 1 : Nat) ≥ 2 ^ 63) := by
            rw [hneg]
            simp
          rw [if_neg c2, if_pos ⟨hneg, by norm_num⟩]
          exact ⟨fun v h => (by cases h), fun _ => ⟨_, rfl⟩⟩
        · rw [if_neg hneg, if_neg (by omega)]
          have hn' : (!decide (s.data.head? = some '-')) = true := by
            simpa using hneg
          rw [if_pos ⟨hn', by norm_num⟩]
          exact ⟨fun v h => (by cases h), fun _ => ⟨_, rfl⟩⟩
    · rw [if_neg hgood]
      refine ⟨fun v h => (by cases h), fun _ => ?_⟩
      have hbad : s1.data = [] ∨ s1.data.all isHexDigit = false := by
        by_cases h0 : s1.data = []
        · exact Or.inl h0
        · right
          by_contra hc
          exact hgood ⟨h0, by simpa using hc⟩
      rcases parseUint_not_hex s1 hbad with e | e
      · rw [e]
        have c1 : (some NumError.ErrSyntax).isSome = true ∧
            (some NumError.ErrSyntax) ≠ some NumError.ErrRange := by simp
        rw [if_pos c1]
        exact ⟨_, rfl⟩
      · rw [e]
        have c1 : ¬ ((some NumError.ErrRange).isSome = true ∧
            (some NumError.ErrRange) ≠ some NumError.ErrRange) := by simp
        rw [if_neg c1]
        by_cases hneg : decide (s.data.head? = some '-') = true
        · have c2 : ¬ ((!decide (s.data.head? = some '-')) = true ∧
              (2 ^ 64 - 1 : Nat) ≥ 2 ^ 63) := by
            rw [hneg]
            simp
          rw [if_neg c2, if_pos ⟨hneg, by norm_num⟩]
          exact ⟨_, rfl⟩
        · have hn' : (!decide (s.data.head? = some '-')) = true := by
            simpa using hneg
          rw [if_pos ⟨hn', by norm_num⟩]
          exact ⟨_, rfl⟩

theorem parseHexToInt64_ok_iff (s : String) (v : Int) :
    parseHexToInt64 s = (v, none) ↔ hexInt s = some v := by
  unfold parseHexToInt64 String2Int64
  obtain ⟨h1, h2⟩ := parseInt_hexInt s
  constructor
  · intro h
    cases hh : hexInt s with
    | none =>
      obtain ⟨e, he⟩ := h2 hh
      rw [h] at he
      cases he
    | some w =>
      have := h1 w hh
      rw [h] at this
      simp only [Prod.mk.injEq, and_true] at this
      rw [this]
  · exact h1 v

theorem parseHexToInt64_error_iff (s : String) :
    (parseHexToInt64 s).2 ≠ none ↔ hexInt s = none := by
  unfold parseHexToInt64 String2Int64
  obtain ⟨h1, h2⟩ := parseInt_hexInt s
  constructor
  · intro h
    cases hh : hexInt s with
    | none => rfl
    | some w =>
      rw [h1 w hh] at h
      exact absurd rfl h
  · intro h
    obtain ⟨e, he⟩ := h2 h
    rw [he]
    simp


/-! ## The record of a relevant transaction -/

/-- C12: for a well-formed raw transaction whose sender and receiver are two distinct
subscribed addresses, `ProcessTransaction` returns one record and appends that same record
to the history of the sender and to the history of the receiver; each grows by exactly one
entry, the record being the last. -/
theorem C12_both_subscribed (U : CaseTable) (p : parserImpl)
    (tx : GoMap JSONValue) (sender value hash blockNumber : String) (v b : Int)
    (blockTimestamp : Int) (wf : WellFormed tx sender value hash blockNumber v b)
    (hs : parserImpl.IsSubscribed U p sender = true)
    (hr0 : receiverOf tx ≠ "")
    (hr : parserImpl.IsSubscribed U p (receiverOf tx) = true)
    (hd : ToLower U sender ≠ ToLower U (receiverOf tx)) :
    (parserImpl.ProcessTransaction U p (some tx) blockTimestamp).1 =
      (some (recordOf U tx sender hash v b blockTimestamp), none) ∧
    parserImpl.GetTransactions U
        (parserImpl.ProcessTransaction U p (some tx) blockTimestamp).2 sender =
      parserImpl.GetTransactions U p sender ++ [recordOf U tx sender hash v b blockTimestamp] ∧
    parserImpl.GetTransactions U
        (parserImpl.ProcessTransaction U p (some tx) blockTimestamp).2 (receiverOf tx) =
      parserImpl.GetTransactions U p (receiverOf tx) ++
        [recordOf U tx sender hash v b blockTimestamp] := by
  have hs' : IsSubscribed U p.storage sender = true := hs
  have hrecF : (recordOf U tx sender hash v b blockTimestamp).FromAddress = ToLower U sender :=
    rfl
  have hrecT : (recordOf U tx sender hash v b blockTimestamp).ToAddress =
      ToLower U (receiverOf tx) := rfl
  rw [processTransaction_wellFormed U p tx sender value hash blockNumber v b blockTimestamp wf]
  simp only [hs', Bool.true_or, if_true]
  unfold parserImpl.GetTransactions
  simp only [getTransactions_storeTransaction]
  refine ⟨trivial, ?_, ?_⟩
  · congr 1
    unfold entriesFor
    rw [hrecF, hrecT, toLower_toLower, toLower_toLower, if_pos rfl]
    simp [Ne.symm hd]
  · congr 1
    unfold entriesFor
    rw [hrecF, hrecT, toLower_toLower, toLower_toLower, if_neg hd]
    simp [toLower_eq_empty_iff, hr0]

/-- Witness of C12: the raw transfer from `addr1` to `addr2`, both subscribed. -/
theorem C12_both_subscribed_witness :
    WellFormed rawTx addr1 "0x1" "0xabc" "0x1" 1 1 ∧
    parserImpl.GetTransactions asciiCaseTable
        (parserImpl.ProcessTransaction asciiCaseTable parser12 (some rawTx) 1000).2 addr2 =
      parserImpl.GetTransactions asciiCaseTable parser12 addr2 ++
        [recordOf asciiCaseTable rawTx addr1 "0xabc" 1 1 1000] :=
  have wf : WellFormed rawTx addr1 "0x1" "0xabc" "0x1" 1 1 :=
    ⟨rfl, by decide, rfl, by decide, rfl, by decide, rfl, by decide, by decide, by decide⟩
  ⟨wf, (C12_both_subscribed asciiCaseTable parser12 rawTx addr1 "0x1" "0xabc" "0x1"
    1 1 1000 wf (by decide) (by decide) (by decide) (by decide)).2.2⟩

/-- C13: for a well-formed raw transaction with a subscribed sender or a subscribed
non-empty receiver, `ProcessTransaction` returns a record whose hash is the input hash, whose
sender is the lower-cased input sender, whose receiver is the lower-cased input receiver (the
empty string when the receiver is absent, empty or not a string), whose block number is the
integer denoted by the block number string after its "0x" marker, and whose timestamp is the
block timestamp; the record is in `GetTransactions(sender)` afterwards. -/
theorem C13_record_fields (U : CaseTable) (p : parserImpl)
    (tx : GoMap JSONValue) (sender value hash blockNumber : String) (v b : Int)
    (blockTimestamp : Int) (wf : WellFormed tx sender value hash blockNumber v b)
    (hsub : parserImpl.IsSubscribed U p sender = true ∨
      (receiverOf tx ≠ "" ∧ parserImpl.IsSubscribed U p (receiverOf tx) = true)) :
    ∃ t : Transaction,
      (parserImpl.ProcessTransaction U p (some tx) blockTimestamp).1 = (some t, none) ∧
      t.Hash = hash ∧
      t.FromAddress = ToLower U sender ∧
      t.ToAddress = ToLower U (receiverOf tx) ∧
      ((tx.get? "to" = some (JSONValue.string "") ∨
          ∀ s : String, tx.get? "to" ≠ some (JSONValue.string s)) → t.ToAddress = "") ∧
      hexInt (TrimPrefix blockNumber "0x") = some t.BlockNumber ∧
      t.Timestamp = blockTimestamp ∧
      t ∈ parserImpl.GetTransactions U
        (parserImpl.ProcessTransaction U p (some tx) blockTimestamp).2 sender := by
  have hc : (IsSubscribed U p.storage sender ||
      (decide (receiverOf tx ≠ "") && IsSubscribed U p.storage (receiverOf tx))) = true := by
    rcases hsub with h | ⟨h0, h⟩
    · have h' : IsSubscribed U p.storage sender = true := h
      rw [h']
      rfl
    · have h' : IsSubscribed U p.storage (receiverOf tx) = true := h
      rw [h']
      simp [h0]
  rw [processTransaction_wellFormed U p tx sender value hash blockNumber v b blockTimestamp wf,
    if_pos hc]
  refine ⟨recordOf U tx sender hash v b blockTimestamp, rfl, rfl, rfl, rfl, ?_,
    (parseHexToInt64_ok_iff _ _).1 wf.blockNumber_parses, rfl, ?_⟩
  · intro hto
    have hrec : receiverOf tx = "" := by
      unfold receiverOf
      rcases hto with hto | hto
      · rw [hto]
      · cases hget : tx.get? "to" with
        | none => rfl
        | some w =>
          cases w with
          | string s => exact absurd hget (hto s)
          | _ => rfl
    show ToLower U (receiverOf tx) = ""
    rw [hrec]
    rfl
  · unfold parserImpl.GetTransactions
    simp only [getTransactions_storeTransaction]
    apply List.mem_append_right
    unfold entriesFor
    apply List.mem_append_left
    have hrecF : (recordOf U tx sender hash v b blockTimestamp).FromAddress =
        ToLower U sender := rfl
    rw [hrecF, toLower_toLower, if_pos rfl]
    exact List.mem_singleton_self _

/-- Witness of C13: the scenario of the specification, the raw transfer from the subscribed
`addr1` at block timestamp 1000; the record has block number 1 and timestamp 1000. -/
theorem C13_record_fields_witness :
    WellFormed rawTx addr1 "0x1" "0xabc" "0x1" 1 1 ∧
    ∃ t : Transaction,
      (parserImpl.ProcessTransaction asciiCaseTable ⟨store1⟩ (some rawTx) 1000).1 =
        (some t, none) ∧
      t.Hash = "0xabc" ∧
      t.FromAddress = ToLower asciiCaseTable addr1 ∧
      t.ToAddress = ToLower asciiCaseTable (receiverOf rawTx) ∧
      ((rawTx.get? "to" = some (JSONValue.string "") ∨
          ∀ s : String, rawTx.get? "to" ≠ some (JSONValue.string s)) → t.ToAddress = "") ∧
      hexInt (TrimPrefix "0x1" "0x") = some t.BlockNumber ∧
      t.Timestamp = 1000 ∧
      t ∈ parserImpl.GetTransactions asciiCaseTable
        (parserImpl.ProcessTransaction asciiCaseTable ⟨store1⟩ (some rawTx) 1000).2 addr1 :=
  have wf : WellFormed rawTx addr1 "0x1" "0xabc" "0x1" 1 1 :=
    ⟨rfl, by decide, rfl, by decide, rfl, by decide, rfl, by decide, by decide, by decide⟩
  ⟨wf, C13_record_fields asciiCaseTable ⟨store1⟩ rawTx addr1 "0x1" "0xabc" "0x1" 1 1 1000 wf
    (Or.inl (by decide))⟩

/-! ## The value of a record -/

/-- C14: when `ProcessTransaction` returns a record for a raw transaction whose value field
is the string `value`, the string after its "0x" marker denotes an integer `v`, and the
`Value` of the record is `float64(v) / 1e18`; in particular it is `float64(1) / 1e18` for the
value "0x1". -/
theorem C14_value_conversion (U : CaseTable) (p : parserImpl) (tx : GoMap JSONValue)
    (value : String) (blockTimestamp : Int) (t : Transaction)
    (hv : tx.get? "value" = some (JSONValue.string value))
    (h : (p.ProcessTransaction U (some tx) blockTimestamp).1.1 = some t) :
    (∃ v : Int, hexInt (TrimPrefix value "0x") = some v ∧ t.Value = Float.ofInt v / 1e18) ∧
    (value = "0x1" → t.Value = Float.ofInt 1 / 1e18) := by
  have bad : ∀ f ∈ ["from", "value", "hash", "blockNumber"], ¬ RequiredFieldBad tx f := by
    intro f hf hb
    obtain ⟨e, he⟩ := processTransaction_bad U p tx blockTimestamp f hf hb
    rw [he] at h
    cases h
  rcases field_dichotomy tx "from" with h1 | ⟨sender, h1, n1⟩
  · exact absurd h1 (bad _ (by simp))
  rcases field_dichotomy tx "value" with h2 | ⟨value1, h2, n2⟩
  · exact absurd h2 (bad _ (by simp))
  rcases field_dichotomy tx "hash" with h3 | ⟨hash, h3, n3⟩
  · exact absurd h3 (bad _ (by simp))
  rcases field_dichotomy tx "blockNumber" with h4 | ⟨blockNumber, h4, n4⟩
  · exact absurd h4 (bad _ (by simp))
  have hval : value1 = value := by
    rw [hv] at h2
    cases h2
    rfl
  subst hval
  rw [processTransaction_fields U p tx sender value1 hash blockNumber blockTimestamp
    ⟨h1, n1, h2, n2, h3, n3, h4, n4⟩] at h
  have key : ∃ v : Int, hexInt (TrimPrefix value1 "0x") = some v ∧
      t.Value = Float.ofInt v / 1e18 := by
    cases e1 : (parseHexToInt64 (TrimPrefix value1 "0x")).2 with
    | some e =>
      rw [e1] at h
      cases h
    | none =>
      cases e2 : (parseHexToInt64 (TrimPrefix blockNumber "0x")).2 with
      | some e =>
        rw [e1, e2] at h
        cases h
      | none =>
        rw [e1, e2] at h
        simp only [] at h
        split at h
        · simp only [Option.some.injEq] at h
          refine ⟨(parseHexToInt64 (TrimPrefix value1 "0x")).1, ?_, ?_⟩
          · rw [← parseHexToInt64_ok_iff, ← e1]
          · rw [← h]
            rfl
        · cases h
  refine ⟨key, ?_⟩
  intro hone
  subst hone
  obtain ⟨v, e, hval⟩ := key
  have e1 : hexInt (TrimPrefix "0x1" "0x") = some 1 := by decide
  rw [e1] at e
  cases e
  exact hval

/-- Witness of C14: the scenario of the specification, a raw transfer with the value
"0x1". -/
theorem C14_value_conversion_witness :
    rawTx.get? "value" = some (JSONValue.string "0x1") ∧
    (parserImpl.ProcessTransaction asciiCaseTable ⟨store1⟩ (some rawTx) 1000).1.1 =
      some (recordOf asciiCaseTable rawTx addr1 "0xabc" 1 1 1000) ∧
    (recordOf asciiCaseTable rawTx addr1 "0xabc" 1 1 1000).Value = Float.ofInt 1 / 1e18 :=
  ⟨rfl, rfl,
    (C14_value_conversion asciiCaseTable ⟨store1⟩ rawTx "0x1" 1000
      (recordOf asciiCaseTable rawTx addr1 "0xabc" 1 1 1000) rfl rfl).2 rfl⟩

/-! ## Parse errors -/

theorem hexInt_of_isHexDigits (s : String) (h : IsHexDigits s) (hlt : hexValue s.data < 2 ^ 63) :
    hexInt s = some (hexValue s.data : Int) := by
  obtain ⟨h0, hall⟩ := h
  have hhead : ∀ c : Char, isHexDigit c = true → c ≠ '+' ∧ c ≠ '-' := by
    intro c hc
    have e := (digit_of_hex c hc).2
    constructor
    · rintro rfl
      revert hc
      decide
    · rintro rfl
      revert hc
      decide
  have hsign : ¬ (s.data.head? = some '+' ∨ s.data.head? = some '-') := by
    cases hd : s.data with
    | nil => exact absurd hd h0
    | cons c cs =>
      rw [hd] at hall
      simp only [List.all_cons, Bool.and_eq_true] at hall
      have := hhead c hall.1
      simp only [List.head?_cons, Option.some.injEq]
      tauto
  have hds : (if s.data.head? = some '+' ∨ s.data.head? = some '-' then s.data.drop 1
      else s.data) = s.data := if_neg hsign
  rw [hexInt_eq s s.data hds, if_pos ⟨h0, hall⟩]
  have hneg : ¬ (decide (s.data.head? = some '-') = true) := by
    intro hc
    exact hsign (Or.inr (of_decide_eq_true hc))
  rw [if_neg hneg, if_pos hlt]

theorem trimPrefix_0x_append (s : String) : TrimPrefix ("0x" ++ s) "0x" = s := by
  unfold TrimPrefix
  have h : HasPrefix ("0x" ++ s) "0x" = true := (hasPrefix_iff _).2 ⟨s, rfl⟩
  rw [if_pos h]
  apply String.ext
  simp

/-- C15, as stated, fails in both directions: the value "0x-a" is not a string of hex
digits after its marker, yet it parses and the transaction is accepted; the value
"0x8000000000000000" is made of hex digits, yet it is rejected with a range error. -/
theorem C15_counterexample :
    FieldsPresent rawTxSigned addr1 "0x-a" "0xabc" "0x1" ∧
    decide (IsHexDigits (TrimPrefix "0x-a" "0x")) = false ∧
    (parserImpl.ProcessTransaction asciiCaseTable ⟨store1⟩ (some rawTxSigned) 1000).1.2 = none ∧
    FieldsPresent rawTxLarge addr1 "0x8000000000000000" "0xabc" "0x1" ∧
    decide (IsHexDigits (TrimPrefix "0x8000000000000000" "0x")) = true ∧
    (parserImpl.ProcessTransaction asciiCaseTable ⟨store1⟩ (some rawTxLarge) 1000).1.2 =
      some (ProcessError.parseValue NumError.ErrRange) :=
  ⟨⟨rfl, by decide, rfl, by decide, rfl, by decide, rfl, by decide⟩, by decide, by decide,
    ⟨rfl, by decide, rfl, by decide, rfl, by decide, rfl, by decide⟩, by decide, by decide⟩

/-- C15, amended: for a raw transaction whose required fields are non-empty strings,
`ProcessTransaction` fails with a parse error exactly when the value or the block number,
after its leading "0x" is stripped, is not an optional sign followed by one or more hex
digits denoting an integer of the `int64` range; "0x" followed by hex digits of value below
`2 ^ 63` parses to the denoted integer ("a" parses to 10, "invalid" and the empty string are
rejected). -/
theorem C15_parse_errors (U : CaseTable) (p : parserImpl) (tx : GoMap JSONValue)
    (sender value hash blockNumber : String) (blockTimestamp : Int)
    (fp : FieldsPresent tx sender value hash blockNumber) :
    ((∃ e, (parserImpl.ProcessTransaction U p (some tx) blockTimestamp).1.2 =
          some (ProcessError.parseValue e) ∨
        (parserImpl.ProcessTransaction U p (some tx) blockTimestamp).1.2 =
          some (ProcessError.parseBlockNumber e)) ↔
      (hexInt (TrimPrefix value "0x") = none ∨ hexInt (TrimPrefix blockNumber "0x") = none)) ∧
    (∀ digits : String, IsHexDigits digits → hexValue digits.data < 2 ^ 63 →
      parseHexToInt64 (TrimPrefix ("0x" ++ digits) "0x") = ((hexValue digits.data : Int), none)) ∧
    parseHexToInt64 "a" = (10, none) ∧
    (parseHexToInt64 "invalid").2 = some NumError.ErrSyntax ∧
    (parseHexToInt64 "").2 = some NumError.ErrSyntax := by
  refine ⟨?_, ?_, by decide, by decide, by decide⟩
  · rw [processTransaction_fields U p tx sender value hash blockNumber blockTimestamp fp]
    rw [← parseHexToInt64_error_iff, ← parseHexToInt64_error_iff]
    cases hv : (parseHexToInt64 (TrimPrefix value "0x")).2 with
    | some e =>
      simp only []
      constructor
      · intro _
        exact Or.inl (by simp)
      · intro _
        exact ⟨e, Or.inl rfl⟩
    | none =>
      simp only []
      cases hb : (parseHexToInt64 (TrimPrefix blockNumber "0x")).2 with
      | some e =>
        simp only []
        constructor
        · intro _
          exact Or.inr (by simp)
        · intro _
          exact ⟨e, Or.inr rfl⟩
      | none =>
        simp only []
        constructor
        · rintro ⟨e, h | h⟩
          · split at h <;> cases h
          · split at h <;> cases h
        · rintro (h | h) <;> exact absurd rfl h
  · intro digits hd hlt
    rw [trimPrefix_0x_append, parseHexToInt64_ok_iff]
    exact hexInt_of_isHexDigits digits hd hlt

/-- Witness of C15, amended: the raw transfer `rawTx`, whose value and block number are
both "0x1". -/
theorem C15_parse_errors_witness :
    FieldsPresent rawTx addr1 "0x1" "0xabc" "0x1" ∧
    parseHexToInt64 "a" = (10, none) :=
  have fp : FieldsPresent rawTx addr1 "0x1" "0xabc" "0x1" :=
    ⟨rfl, by decide, rfl, by decide, rfl, by decide, rfl, by decide⟩
  ⟨fp, (C15_parse_errors asciiCaseTable ⟨store1⟩ rawTx addr1 "0x1" "0xabc" "0x1" 1000 fp).2.2.1⟩


/-! ## The block monitor -/

theorem makeCall_snd (rc : RPCClient) (method : String) (params : List JSONValue)
    (hm : unsupportedValues params = false) :
    (rc.MakeCall method params).2 =
      { rc with sent := rc.sent ++
          [{ JsonRPC := "2.0", Method := method, Params := params, ID := 1 }] } := by
  unfold RPCClient.MakeCall
  simp only [hm, Bool.false_eq_true, if_false]
  split
  · rfl
  · split
    · rfl
    · split
      · rfl
      · split <;> rfl

theorem processTransaction_currentBlock (U : CaseTable) (p : parserImpl)
    (tx : Option (GoMap JSONValue)) (blockTimestamp : Int) :
    (p.ProcessTransaction U tx blockTimestamp).2.GetCurrentBlock = p.GetCurrentBlock := by
  rcases processTransaction_cases U p tx blockTimestamp with ⟨r, e⟩ | ⟨t, e, _⟩
  · rw [e]
  · rw [e]
    exact storeTransaction_currentBlock U p.storage t

theorem offerAll_currentBlock (U : CaseTable) (ts : Int) (txs : List JSONValue)
    (p : parserImpl) : (offerAll U ts txs p).GetCurrentBlock = p.GetCurrentBlock := by
  induction txs generalizing p with
  | nil => rfl
  | cons tx rest ih =>
    cases tx with
    | object fields =>
      rw [offerAll, ih, processTransaction_currentBlock]
    | null => exact ih p
    | bool _ => exact ih p
    | number _ => exact ih p
    | string _ => exact ih p
    | array _ => exact ih p

theorem processTransactions_offerAll (U : CaseTable) (ts : Int) (txs : List JSONValue)
    (m : BlockMonitor) :
    (BlockMonitor.processTransactions U ts txs m).parser = offerAll U ts txs m.parser ∧
    (BlockMonitor.processTransactions U ts txs m).rpcClient = m.rpcClient := by
  induction txs generalizing m with
  | nil => exact ⟨rfl, rfl⟩
  | cons tx rest ih =>
    cases tx with
    | object fields =>
      rw [BlockMonitor.processTransactions, offerAll]
      simp only [assertObject, Bool.not_true, Bool.false_eq_true, if_false]
      split
      · exact ih _
      · split
        · exact ih _
        · exact ih _
    | null => exact ih m
    | bool _ => exact ih m
    | number _ => exact ih m
    | string _ => exact ih m
    | array _ => exact ih m

theorem monitor_parseHexToInt64 (s : String) :
    BlockMonitor.parseHexToInt64 s =
      match (String2Int64 s 16).2 with
      | some e => (0, some e)
      | none => ((String2Int64 s 16).1, none) := by
  unfold BlockMonitor.parseHexToInt64
  rfl

theorem processBlock_frame (U : CaseTable) (m : BlockMonitor) (L : Int) :
    (BlockMonitor.processBlock U m L).2.rpcClient.sent =
      m.rpcClient.sent ++ [getBlockRequest L] ∧
    (BlockMonitor.processBlock U m L).2.rpcClient.respond = m.rpcClient.respond ∧
    ((BlockMonitor.processBlock U m L).2.parser.GetCurrentBlock = m.parser.GetCurrentBlock ∨
      (BlockMonitor.processBlock U m L).2.parser.GetCurrentBlock = L) := by
  have hs := makeCall_snd m.rpcClient "eth_getBlockByNumber"
    [JSONValue.string ("0x" ++ fmtHex L), JSONValue.bool true] rfl
  unfold BlockMonitor.processBlock
  simp only []
  split
  · rw [hs]
    exact ⟨rfl, rfl, Or.inl rfl⟩
  · split
    · rw [hs]
      exact ⟨rfl, rfl, Or.inl rfl⟩
    · split
      · rw [hs]
        exact ⟨rfl, rfl, Or.inl rfl⟩
      · split
        · rw [hs]
          exact ⟨rfl, rfl, Or.inl rfl⟩
        · split
          · rw [hs]
            exact ⟨rfl, rfl, Or.inl rfl⟩
          · simp only [(processTransactions_offerAll U _ _ _).2]
            rw [hs]
            exact ⟨rfl, rfl, Or.inr rfl⟩

theorem processNewBlocks_of_latest (U : CaseTable) (m : BlockMonitor) (L : Int)
    (h : latestHeight m = some L) :
    BlockMonitor.processNewBlocks U m =
      if L > m.parser.GetCurrentBlock then
        BlockMonitor.processBlock U (afterBlockNumberCall m) L
      else (none, afterBlockNumberCall m) := by
  unfold latestHeight at h
  unfold BlockMonitor.processNewBlocks
  simp only []
  cases hc : (m.rpcClient.MakeCall "eth_blockNumber" []).1 with
  | error err =>
    rw [hc] at h
    cases h
  | ok result =>
    rw [hc] at h
    simp only [] at h ⊢
    cases hr : result.Result with
    | string s =>
      rw [hr] at h
      simp only [] at h
      simp only [assertString, Bool.not_true, Bool.false_eq_true, if_false,
        monitor_parseHexToInt64]
      cases he : (String2Int64 (TrimPrefix s "0x") 16).2 with
      | some e =>
        exfalso
        revert h
        rcases hp : String2Int64 (TrimPrefix s "0x") 16 with ⟨a, b⟩
        rw [hp] at he
        simp only at he
        subst he
        intro h
        cases h
      | none =>
        rcases hp : String2Int64 (TrimPrefix s "0x") 16 with ⟨a, b⟩
        rw [hp] at he h
        simp only at he
        subst he
        simp only [Option.some.injEq] at h
        subst h
        rfl
    | null => rw [hr] at h; cases h
    | bool _ => rw [hr] at h; cases h
    | number _ => rw [hr] at h; cases h
    | array _ => rw [hr] at h; cases h
    | object _ => rw [hr] at h; cases h

theorem processNewBlocks_of_no_latest (U : CaseTable) (m : BlockMonitor)
    (h : latestHeight m = none) :
    (BlockMonitor.processNewBlocks U m).2 = afterBlockNumberCall m ∧
    (BlockMonitor.processNewBlocks U m).1.isSome = true := by
  unfold latestHeight at h
  unfold BlockMonitor.processNewBlocks
  simp only []
  cases hc : (m.rpcClient.MakeCall "eth_blockNumber" []).1 with
  | error err => exact ⟨rfl, rfl⟩
  | ok result =>
    rw [hc] at h
    simp only [] at h ⊢
    cases hr : result.Result with
    | string s =>
      rw [hr] at h
      simp only [] at h
      simp only [assertString, Bool.not_true, Bool.false_eq_true, if_false,
        monitor_parseHexToInt64]
      cases he : (String2Int64 (TrimPrefix s "0x") 16).2 with
      | some e => exact ⟨rfl, rfl⟩
      | none =>
        exfalso
        rcases hp : String2Int64 (TrimPrefix s "0x") 16 with ⟨a, b⟩
        rw [hp] at he h
        simp only at he
        subst he
        cases h
    | null => exact ⟨rfl, rfl⟩
    | bool _ => exact ⟨rfl, rfl⟩
    | number _ => exact ⟨rfl, rfl⟩
    | array _ => exact ⟨rfl, rfl⟩
    | object _ => exact ⟨rfl, rfl⟩


theorem afterBlockNumberCall_sent (m : BlockMonitor) :
    (afterBlockNumberCall m).rpcClient.sent = m.rpcClient.sent ++ [blockNumberRequest] ∧
    (afterBlockNumberCall m).parser = m.parser ∧
    (afterBlockNumberCall m).notifier = m.notifier := by
  unfold afterBlockNumberCall
  rw [makeCall_snd m.rpcClient "eth_blockNumber" [] rfl]
  exact ⟨rfl, rfl, rfl⟩

theorem tick_cursor (U : CaseTable) (m : BlockMonitor) :
    (BlockMonitor.processNewBlocks U m).2.parser.GetCurrentBlock = m.parser.GetCurrentBlock ∨
    ∃ L, latestHeight m = some L ∧ L > m.parser.GetCurrentBlock ∧
      (BlockMonitor.processNewBlocks U m).2.parser.GetCurrentBlock = L := by
  cases h : latestHeight m with
  | none =>
    left
    rw [(processNewBlocks_of_no_latest U m h).1, (afterBlockNumberCall_sent m).2.1]
  | some L =>
    rw [processNewBlocks_of_latest U m L h]
    by_cases hgt : L > m.parser.GetCurrentBlock
    · rw [if_pos hgt]
      rcases (processBlock_frame U (afterBlockNumberCall m) L).2.2 with e | e
      · left
        rw [e, (afterBlockNumberCall_sent m).2.1]
      · right
        exact ⟨L, rfl, hgt, e⟩
    · rw [if_neg hgt]
      left
      rw [(afterBlockNumberCall_sent m).2.1]

theorem tick_sent (U : CaseTable) (m : BlockMonitor) :
    (BlockMonitor.processNewBlocks U m).2.rpcClient.sent =
        m.rpcClient.sent ++ [blockNumberRequest] ∨
    ∃ L, latestHeight m = some L ∧ L > m.parser.GetCurrentBlock ∧
      (BlockMonitor.processNewBlocks U m).2.rpcClient.sent =
        m.rpcClient.sent ++ [blockNumberRequest, getBlockRequest L] := by
  cases h : latestHeight m with
  | none =>
    left
    rw [(processNewBlocks_of_no_latest U m h).1, (afterBlockNumberCall_sent m).1]
  | some L =>
    rw [processNewBlocks_of_latest U m L h]
    by_cases hgt : L > m.parser.GetCurrentBlock
    · rw [if_pos hgt]
      right
      refine ⟨L, rfl, hgt, ?_⟩
      rw [(processBlock_frame U (afterBlockNumberCall m) L).1, (afterBlockNumberCall_sent m).1]
      simp
    · rw [if_neg hgt]
      left
      rw [(afterBlockNumberCall_sent m).1]

/-- C16: in a tick in which the height the node reports is not greater than the block
cursor, `processNewBlocks` returns no error, posts the `eth_blockNumber` request and nothing
else (no block is requested), and leaves the parser with its store and the notifications as
they were. -/
theorem C16_no_new_block (U : CaseTable) (m : BlockMonitor) (L : Int)
    (h : latestHeight m = some L) (hle : L ≤ m.parser.GetCurrentBlock) :
    (BlockMonitor.processNewBlocks U m).1 = none ∧
    (BlockMonitor.processNewBlocks U m).2.rpcClient.sent =
      m.rpcClient.sent ++ [blockNumberRequest] ∧
    requestedBlocks (BlockMonitor.processNewBlocks U m).2.rpcClient.sent =
      requestedBlocks m.rpcClient.sent ∧
    (BlockMonitor.processNewBlocks U m).2.parser = m.parser ∧
    (BlockMonitor.processNewBlocks U m).2.notifier = m.notifier := by
  rw [processNewBlocks_of_latest U m L h, if_neg (by omega)]
  obtain ⟨h1, h2, h3⟩ := afterBlockNumberCall_sent m
  refine ⟨rfl, h1, ?_, h2, h3⟩
  show requestedBlocks (afterBlockNumberCall m).rpcClient.sent = _
  rw [h1]
  unfold requestedBlocks
  rw [List.filterMap_append]
  have : List.filterMap (fun r : JSONRPCRequest =>
      if r.Method = "eth_getBlockByNumber" then
        match r.Params with
        | JSONValue.string s :: _ => some s
        | _ => none
      else none) [blockNumberRequest] = [] := by
    decide
  rw [this, List.append_nil]

/-- Witness of C16: the scenario of the specification, latest height 5 with the cursor
at 5. -/
theorem C16_no_new_block_witness :
    latestHeight (monitor5 node5) = some 5 ∧
    (BlockMonitor.processNewBlocks asciiCaseTable (monitor5 node5)).2.parser
      = (monitor5 node5).parser :=
  ⟨by decide, (C16_no_new_block asciiCaseTable (monitor5 node5) 5 (by decide)
    (by decide)).2.2.2.1⟩

theorem processBlock_fetched (U : CaseTable) (m : BlockMonitor) (L : Int)
    (txs : List JSONValue) (ts : Int) (resp : JSONRPCResponse) (block : GoMap JSONValue)
    (tsHex : String)
    (h1 : (m.rpcClient.MakeCall "eth_getBlockByNumber"
      [JSONValue.string ("0x" ++ fmtHex L), JSONValue.bool true]).1 = Except.ok resp)
    (h2 : resp.Result = JSONValue.object block)
    (h3 : block.get? "transactions" = some (JSONValue.array txs))
    (h4 : block.get? "timestamp" = some (JSONValue.string tsHex))
    (h5 : String2Int64 (TrimPrefix tsHex "0x") 16 = (ts, none)) :
    (BlockMonitor.processBlock U m L).1 = none ∧
    (BlockMonitor.processBlock U m L).2.parser =
      (offerAll U ts txs m.parser).UpdateCurrentBlock L := by
  unfold BlockMonitor.processBlock
  simp only [h1, h2, assertObject, h3, assertArray, h4, assertString, monitor_parseHexToInt64,
    h5, Bool.not_true, Bool.false_eq_true, if_false]
  refine ⟨trivial, ?_⟩
  simp only [(processTransactions_offerAll U _ _ _).1]

/-- C17, as stated, fails: with the cursor at 5 the node reports height 6 and returns the
block, which holds `rawTx` but no timestamp; the transaction is not offered (the history of
its subscribed sender stays empty) and the cursor stays at 5.  The same happens to the
cursor when the block has no transaction list. -/
theorem C17_counterexample :
    latestHeight (monitor5 node6NoTimestamp) = some 6 ∧
    (monitor5 node6NoTimestamp).parser.GetCurrentBlock = 5 ∧
    requestedBlocks
      (BlockMonitor.processNewBlocks asciiCaseTable (monitor5 node6NoTimestamp)).2.rpcClient.sent
      = ["0x6"] ∧
    (BlockMonitor.processNewBlocks asciiCaseTable
      (monitor5 node6NoTimestamp)).2.parser.GetCurrentBlock = 5 ∧
    ((BlockMonitor.processNewBlocks asciiCaseTable
      (monitor5 node6NoTimestamp)).2.parser.GetTransactions asciiCaseTable addr1).length = 0 ∧
    latestHeight (monitor5 node6NoTransactions) = some 6 ∧
    (BlockMonitor.processNewBlocks asciiCaseTable
      (monitor5 node6NoTransactions)).2.parser.GetCurrentBlock = 5 := by
  decide

/-- C17, amended: in a tick in which the height `L` the node reports is greater than the
cursor and the block fetched for `L` is an object with a transaction list and a timestamp
that parses, `processNewBlocks` returns no error, every transaction object of the list has
been offered to `ProcessTransaction` in list order with the block timestamp, and the cursor
equals `L` afterwards, whatever the number of relevant transactions. -/
theorem C17_block_processed (U : CaseTable) (m : BlockMonitor) (L : Int)
    (txs : List JSONValue) (ts : Int)
    (h : latestHeight m = some L) (hgt : L > m.parser.GetCurrentBlock)
    (hb : BlockFetched m L txs ts) :
    (BlockMonitor.processNewBlocks U m).1 = none ∧
    (BlockMonitor.processNewBlocks U m).2.parser =
      (offerAll U ts txs m.parser).UpdateCurrentBlock L ∧
    (BlockMonitor.processNewBlocks U m).2.parser.GetCurrentBlock = L := by
  obtain ⟨resp, block, tsHex, h1, h2, h3, h4, h5⟩ := hb
  rw [processNewBlocks_of_latest U m L h, if_pos hgt]
  obtain ⟨e1, e2⟩ := processBlock_fetched U (afterBlockNumberCall m) L txs ts resp block tsHex
    h1 h2 h3 h4 h5
  rw [(afterBlockNumberCall_sent m).2.1] at e2
  refine ⟨e1, e2, ?_⟩
  rw [e2]
  rfl

/-- Witness of C17, amended: the scenario of the specification, latest height 6 with the
cursor at 5. -/
theorem C17_block_processed_witness :
    latestHeight (monitor5 node6) = some 6 ∧
    (BlockMonitor.processNewBlocks asciiCaseTable (monitor5 node6)).2.parser.GetCurrentBlock
      = 6 :=
  ⟨by decide, (C17_block_processed asciiCaseTable (monitor5 node6) 6
    [JSONValue.object rawTx] 1000 (by decide) (by decide)
    ⟨_, _, "0x3e8", rfl, rfl, rfl, rfl, by decide⟩).2.2⟩

theorem tick_cursor_le (U : CaseTable) (m : BlockMonitor) :
    m.parser.GetCurrentBlock ≤ (BlockMonitor.processNewBlocks U m).2.parser.GetCurrentBlock := by
  rcases tick_cursor U m with e | ⟨L, _, hgt, e⟩
  · rw [e]
  · rw [e]
    omega

/-- C18: the block cursor never decreases: it is at least as large after a call of
`processNewBlocks` as before it, for every monitor state and every behaviour of the node,
and so after any number of ticks. -/
theorem C18_cursor_monotone (U : CaseTable) (m : BlockMonitor) :
    m.parser.GetCurrentBlock ≤ (BlockMonitor.processNewBlocks U m).2.parser.GetCurrentBlock ∧
    ∀ n : Nat,
      m.parser.GetCurrentBlock ≤ (BlockMonitor.StartMonitoring U n m).parser.GetCurrentBlock := by
  refine ⟨tick_cursor_le U m, ?_⟩
  intro n
  induction n generalizing m with
  | zero => exact le_refl _
  | succ n ih =>
    rw [BlockMonitor.StartMonitoring]
    exact le_trans (tick_cursor_le U m) (ih _)

theorem cursor_reported (U : CaseTable) (n : Nat) (m : BlockMonitor) :
    (BlockMonitor.StartMonitoring U n m).parser.GetCurrentBlock = m.parser.GetCurrentBlock ∨
    (BlockMonitor.StartMonitoring U n m).parser.GetCurrentBlock ∈ reportedHeights U n m := by
  induction n generalizing m with
  | zero => exact Or.inl rfl
  | succ n ih =>
    rw [BlockMonitor.StartMonitoring, reportedHeights]
    rcases ih (BlockMonitor.processNewBlocks U m).2 with e | e
    · rcases tick_cursor U m with e1 | ⟨L, hL, _, e1⟩
      · left
        rw [e, e1]
      · right
        rw [e, e1, hL]
        simp
    · right
      exact List.mem_append_right _ e

/-- C19: starting with the cursor at 0 (a fresh store), after any number of ticks the
cursor is 0 or one of the heights the node reported in those ticks; so it never exceeds the
highest height reported so far. -/
theorem C19_cursor_was_reported (U : CaseTable) (m : BlockMonitor) (n : Nat)
    (h0 : m.parser.GetCurrentBlock = 0) :
    ((BlockMonitor.StartMonitoring U n m).parser.GetCurrentBlock = 0 ∨
      (BlockMonitor.StartMonitoring U n m).parser.GetCurrentBlock ∈ reportedHeights U n m) ∧
    ((BlockMonitor.StartMonitoring U n m).parser.GetCurrentBlock ≤ 0 ∨
      ∃ h ∈ reportedHeights U n m,
        (BlockMonitor.StartMonitoring U n m).parser.GetCurrentBlock ≤ h) := by
  rcases cursor_reported U n m with e | e
  · rw [h0] at e
    exact ⟨Or.inl e, Or.inl (le_of_eq e)⟩
  · exact ⟨Or.inr e, Or.inr ⟨_, e, le_refl _⟩⟩

/-- Witness of C19: one tick of a monitor over a fresh store and a node at height 6. -/
theorem C19_cursor_was_reported_witness :
    (monitor0 node6).parser.GetCurrentBlock = 0 ∧
    ((BlockMonitor.StartMonitoring asciiCaseTable 1 (monitor0 node6)).parser.GetCurrentBlock = 0 ∨
      (BlockMonitor.StartMonitoring asciiCaseTable 1 (monitor0 node6)).parser.GetCurrentBlock ∈
        reportedHeights asciiCaseTable 1 (monitor0 node6)) :=
  ⟨rfl, (C19_cursor_was_reported asciiCaseTable (monitor0 node6) 1 rfl).1⟩

/-! ## Which blocks are requested -/

theorem digitChar_props : ∀ k : Nat, k < 16 →
    hexDigitValue (Nat.digitChar k) = k ∧ Nat.digitChar k ≠ '-' := by
  decide

theorem hexAcc_toDigitsCore (fuel n : Nat) (ds : List Char) (h : n < fuel) :
    hexAcc 0 (Nat.toDigitsCore 16 fuel n ds) = hexAcc n ds := by
  induction fuel generalizing n ds with
  | zero => omega
  | succ fuel ih =>
    rw [Nat.toDigitsCore]
    have hd := (digitChar_props (n % 16) (Nat.mod_lt _ (by norm_num))).1
    by_cases h0 : n / 16 = 0
    · rw [if_pos h0]
      have e : hexAcc 0 (Nat.digitChar (n % 16) :: ds) =
          hexAcc (0 * 16 + hexDigitValue (Nat.digitChar (n % 16))) ds := rfl
      rw [e, hd]
      congr 1
      omega
    · rw [if_neg h0, ih (n / 16) _ (by omega)]
      have e : hexAcc (n / 16) (Nat.digitChar (n % 16) :: ds) =
          hexAcc (n / 16 * 16 + hexDigitValue (Nat.digitChar (n % 16))) ds := rfl
      rw [e, hd]
      congr 1
      omega

theorem toDigitsCore_head (fuel n : Nat) (ds : List Char) (h : n < fuel) :
    ∃ k, k < 16 ∧ ∃ tl, Nat.toDigitsCore 16 fuel n ds = Nat.digitChar k :: tl := by
  induction fuel generalizing n ds with
  | zero => omega
  | succ fuel ih =>
    rw [Nat.toDigitsCore]
    by_cases h0 : n / 16 = 0
    · rw [if_pos h0]
      exact ⟨n % 16, Nat.mod_lt _ (by norm_num), ds, rfl⟩
    · rw [if_neg h0]
      exact ih (n / 16) _ (by omega)

theorem hexValue_toDigits (n : Nat) : hexValue (Nat.toDigits 16 n) = n := by
  unfold hexValue Nat.toDigits
  rw [hexAcc_toDigitsCore _ _ _ (by omega)]
  rfl

theorem toDigits_head (n : Nat) :
    ∃ c, c ≠ '-' ∧ ∃ tl, Nat.toDigits 16 n = c :: tl := by
  obtain ⟨k, hk, tl, e⟩ := toDigitsCore_head (n + 1) n [] (by omega)
  exact ⟨_, (digitChar_props k hk).2, tl, e⟩

theorem fmtHex_injective (a b : Int) (h : fmtHex a = fmtHex b) : a = b := by
  cases a with
  | ofNat x =>
    cases b with
    | ofNat y =>
      have e : Nat.toDigits 16 x = Nat.toDigits 16 y := congrArg String.data h
      have := congrArg hexValue e
      rw [hexValue_toDigits, hexValue_toDigits] at this
      rw [this]
    | negSucc y =>
      exfalso
      have e : Nat.toDigits 16 x = '-' :: Nat.toDigits 16 (y + 1) := congrArg String.data h
      obtain ⟨c, hc, tl, e2⟩ := toDigits_head x
      rw [e2] at e
      simp only [List.cons.injEq] at e
      exact hc e.1
  | negSucc x =>
    cases b with
    | ofNat y =>
      exfalso
      have e : '-' :: Nat.toDigits 16 (x + 1) = Nat.toDigits 16 y := congrArg String.data h
      obtain ⟨c, hc, tl, e2⟩ := toDigits_head y
      rw [e2] at e
      simp only [List.cons.injEq] at e
      exact hc e.1.symm
    | negSucc y =>
      have e : '-' :: Nat.toDigits 16 (x + 1) = '-' :: Nat.toDigits 16 (y + 1) :=
        congrArg String.data h
      simp only [List.cons.injEq, true_and] at e
      have := congrArg hexValue e
      rw [hexValue_toDigits, hexValue_toDigits] at this
      have hxy : x = y := by omega
      rw [hxy]

theorem getBlockRequest_injective (a b : Int) (h : getBlockRequest a = getBlockRequest b) :
    a = b := by
  unfold getBlockRequest at h
  simp only [JSONRPCRequest.mk.injEq, List.cons.injEq, JSONValue.string.injEq, and_true,
    true_and] at h
  apply fmtHex_injective
  have := congrArg String.data h
  simp only [String.data_append, List.append_cancel_left_eq] at this
  exact String.ext this

theorem getBlockRequest_ne_blockNumberRequest (a : Int) :
    getBlockRequest a ≠ blockNumberRequest := by
  intro h
  have hm : "eth_getBlockByNumber" = "eth_blockNumber" := congrArg JSONRPCRequest.Method h
  revert hm
  decide

theorem sent_later (U : CaseTable) (n : Nat) (m : BlockMonitor) :
    ∃ later, (BlockMonitor.StartMonitoring U n m).rpcClient.sent = m.rpcClient.sent ++ later ∧
      ∀ r ∈ later, r = blockNumberRequest ∨
        ∃ h, h > m.parser.GetCurrentBlock ∧ r = getBlockRequest h := by
  induction n generalizing m with
  | zero => exact ⟨[], by simp [BlockMonitor.StartMonitoring], by simp⟩
  | succ n ih =>
    rw [BlockMonitor.StartMonitoring]
    obtain ⟨later, e, hl⟩ := ih (BlockMonitor.processNewBlocks U m).2
    have hmono := tick_cursor_le U m
    have hl' : ∀ r ∈ later, r = blockNumberRequest ∨
        ∃ h, h > m.parser.GetCurrentBlock ∧ r = getBlockRequest h := by
      intro r hr
      rcases hl r hr with h1 | ⟨h, hgt, h1⟩
      · exact Or.inl h1
      · exact Or.inr ⟨h, by omega, h1⟩
    rcases tick_sent U m with e1 | ⟨L, _, hgt, e1⟩
    · refine ⟨[blockNumberRequest] ++ later, by rw [e, e1, List.append_assoc], ?_⟩
      intro r hr
      rcases List.mem_append.1 hr with h1 | h1
      · exact Or.inl (List.mem_singleton.1 h1)
      · exact hl' r h1
    · refine ⟨[blockNumberRequest, getBlockRequest L] ++ later,
        by rw [e, e1, List.append_assoc], ?_⟩
      intro r hr
      rcases List.mem_append.1 hr with h1 | h1
      · simp only [List.mem_cons, List.mem_singleton, List.not_mem_nil, or_false] at h1
        rcases h1 with h1 | h1
        · exact Or.inl h1
        · exact Or.inr ⟨L, hgt, h1⟩
      · exact hl' r h1

/-- C20, as stated, fails in its last part: with the cursor at 0 the node reports height 5
and the block request fails, so the cursor stays at 0; at the next tick the node reports
height 3 and the block at height 3, which lies between the old cursor and 5, is requested. -/
theorem C20_counterexample :
    latestHeight (monitor0 nodeFallingBack) = some 5 ∧
    (monitor0 nodeFallingBack).parser.GetCurrentBlock = 0 ∧
    requestedBlocks
      (BlockMonitor.StartMonitoring asciiCaseTable 1 (monitor0 nodeFallingBack)).rpcClient.sent
      = ["0x" ++ fmtHex 5] ∧
    requestedBlocks
      (BlockMonitor.StartMonitoring asciiCaseTable 2 (monitor0 nodeFallingBack)).rpcClient.sent
      = ["0x" ++ fmtHex 5, "0x" ++ fmtHex 3] := by
  decide

/-- C20, amended: in a tick in which the height `L` the node reports exceeds the cursor by
more than one, the requests posted are `eth_blockNumber` and then exactly one block request,
`eth_getBlockByNumber` with the parameters "0x" followed by the lower-case hex of `L` and
`true`; no other height is requested in that tick.  If the tick advances the cursor to `L`,
no height up to `L`, so no height between the old cursor and `L`, is requested in any
later tick. -/
theorem C20_only_latest_block (U : CaseTable) (m : BlockMonitor) (L : Int)
    (h : latestHeight m = some L) (hgap : L > m.parser.GetCurrentBlock + 1) :
    (BlockMonitor.processNewBlocks U m).2.rpcClient.sent =
      m.rpcClient.sent ++ [blockNumberRequest, getBlockRequest L] ∧
    getBlockRequest L =
      { JsonRPC := "2.0", Method := "eth_getBlockByNumber",
        Params := [JSONValue.string ("0x" ++ fmtHex L), JSONValue.bool true], ID := 1 } ∧
    (∀ h' : Int, h' ≠ L → getBlockRequest h' ∉ [blockNumberRequest, getBlockRequest L]) ∧
    ((BlockMonitor.processNewBlocks U m).2.parser.GetCurrentBlock = L →
      ∀ n : Nat, ∃ later,
        (BlockMonitor.StartMonitoring U n (BlockMonitor.processNewBlocks U m).2).rpcClient.sent =
          (BlockMonitor.processNewBlocks U m).2.rpcClient.sent ++ later ∧
        ∀ h' : Int, h' ≤ L → getBlockRequest h' ∉ later) := by
  refine ⟨?_, rfl, ?_, ?_⟩
  · rcases tick_sent U m with e | ⟨L', hL', _, e⟩
    · exfalso
      rw [processNewBlocks_of_latest U m L h, if_pos (by omega),
        (processBlock_frame U (afterBlockNumberCall m) L).1,
        (afterBlockNumberCall_sent m).1] at e
      have := congrArg List.length e
      simp at this
    · rw [h] at hL'
      simp only [Option.some.injEq] at hL'
      rw [hL', e]
  · intro h' hne hmem
    simp only [List.mem_cons, List.mem_singleton, List.not_mem_nil, or_false] at hmem
    rcases hmem with e | e
    · exact getBlockRequest_ne_blockNumberRequest h' e
    · exact hne (getBlockRequest_injective _ _ e)
  · intro hc n
    obtain ⟨later, e, hl⟩ := sent_later U n (BlockMonitor.processNewBlocks U m).2
    refine ⟨later, e, ?_⟩
    intro h' hle hmem
    rcases hl _ hmem with e1 | ⟨h2, hgt, e1⟩
    · exact getBlockRequest_ne_blockNumberRequest h' e1
    · have := getBlockRequest_injective _ _ e1
      rw [hc] at hgt
      omega

/-- Witness of C20, amended: a fresh store and a node at height 6. -/
theorem C20_only_latest_block_witness :
    latestHeight (monitor0 node6) = some 6 ∧
    (BlockMonitor.processNewBlocks asciiCaseTable (monitor0 node6)).2.rpcClient.sent =
      (monitor0 node6).rpcClient.sent ++ [blockNumberRequest, getBlockRequest 6] :=
  ⟨by decide, (C20_only_latest_block asciiCaseTable (monitor0 node6) 6 (by decide)
    (by decide)).1⟩


/-! ## Self-transfers -/

/-- C27: for a transaction whose non-empty receiver lower-cases to the same string as its
sender, `StoreTransaction` appends the record twice to the one history under that key, so
`GetTransactions` of the sender grows by exactly two entries, both the record; every other
key of the history map is untouched. -/
theorem C27_self_transfer_twice (U : CaseTable) (ms : MemoryStorage) (tx : Transaction)
    (hne : tx.ToAddress ≠ "")
    (hself : ToLower U tx.ToAddress = ToLower U tx.FromAddress) :
    GetTransactions U (StoreTransaction U ms tx) tx.FromAddress =
      GetTransactions U ms tx.FromAddress ++ [tx, tx] ∧
    (GetTransactions U (StoreTransaction U ms tx) tx.FromAddress).length =
      (GetTransactions U ms tx.FromAddress).length + 2 ∧
    ∀ k : String, k ≠ ToLower U tx.FromAddress →
      (StoreTransaction U ms tx).transactions.get? k = ms.transactions.get? k := by
  have e : GetTransactions U (StoreTransaction U ms tx) tx.FromAddress =
      GetTransactions U ms tx.FromAddress ++ [tx, tx] := by
    rw [getTransactions_storeTransaction]
    unfold entriesFor
    simp [hne, hself]
  refine ⟨e, ?_, ?_⟩
  · rw [e]
    simp
  · intro k hk
    exact storeTransaction_get?_frame U ms tx k hk (Or.inr (by rw [hself]; exact hk))

/-- Witness of C27: the transfer from `addr1` to itself stored in `store1`. -/
theorem C27_self_transfer_twice_witness :
    selfTx.ToAddress ≠ "" ∧
    ToLower asciiCaseTable selfTx.ToAddress = ToLower asciiCaseTable selfTx.FromAddress ∧
    GetTransactions asciiCaseTable (StoreTransaction asciiCaseTable store1 selfTx)
        selfTx.FromAddress =
      GetTransactions asciiCaseTable store1 selfTx.FromAddress ++ [selfTx, selfTx] :=
  ⟨by decide, by decide,
    (C27_self_transfer_twice asciiCaseTable store1 selfTx (by decide) (by decide)).1⟩

/-! ## The JSON-RPC client -/

/-- C25: when `json.Marshal` accepts the parameters, `MakeCall` posts one request, with
jsonrpc "2.0", the given method and parameters and id 1; it returns an error (and no
response) when the HTTP call fails, when the status is not 200, when the body does not
decode, and when the decoded response has a non-null error member; when the status is 200
and the decoded response has a null error member it returns that response, result included,
and no error.  When `json.Marshal` rejects a parameter there is no request and no HTTP
outcome: `MakeCall` returns an error and the client is as before. -/
theorem C25_makeCall_outcomes (rc : RPCClient) (method : String) (params : List JSONValue) :
    (unsupportedValues params = true →
      (rc.MakeCall method params).1 = Except.error RPCError.marshaling ∧
      (rc.MakeCall method params).2 = rc) ∧
    (unsupportedValues params = false →
      (rc.MakeCall method params).2.sent =
        rc.sent ++ [{ JsonRPC := "2.0", Method := method, Params := params, ID := 1 }] ∧
      (rc.MakeCall method params).2.respond = rc.respond ∧
      (rc.respond rc.sent.length
          { JsonRPC := "2.0", Method := method, Params := params, ID := 1 }
          = HTTPOutcome.failed →
        (rc.MakeCall method params).1 = Except.error RPCError.httpRequest) ∧
      (∀ (statusCode : Nat) (body : Option JSONRPCResponse),
        rc.respond rc.sent.length
          { JsonRPC := "2.0", Method := method, Params := params, ID := 1 }
          = HTTPOutcome.answered statusCode body →
        statusCode ≠ 200 →
        (rc.MakeCall method params).1 = Except.error (RPCError.unexpectedStatus statusCode)) ∧
      (rc.respond rc.sent.length
          { JsonRPC := "2.0", Method := method, Params := params, ID := 1 }
          = HTTPOutcome.answered 200 none →
        (rc.MakeCall method params).1 = Except.error RPCError.decoding) ∧
      (∀ resp : JSONRPCResponse,
        rc.respond rc.sent.length
          { JsonRPC := "2.0", Method := method, Params := params, ID := 1 }
          = HTTPOutcome.answered 200 (some resp) →
        resp.Error ≠ JSONValue.null →
        (rc.MakeCall method params).1 = Except.error (RPCError.rpcError resp.Error)) ∧
      (∀ resp : JSONRPCResponse,
        rc.respond rc.sent.length
          { JsonRPC := "2.0", Method := method, Params := params, ID := 1 }
          = HTTPOutcome.answered 200 (some resp) →
        resp.Error = JSONValue.null →
        (rc.MakeCall method params).1 = Except.ok resp ∧
        ∀ r, (rc.MakeCall method params).1 = Except.ok r → r.Result = resp.Result)) := by
  constructor
  · intro hm
    unfold RPCClient.MakeCall
    simp only [hm, if_true, and_self]
  intro hm
  refine ⟨?_, ?_, ?_, ?_, ?_, ?_, ?_⟩
  · rw [makeCall_snd rc method params hm]
  · rw [makeCall_snd rc method params hm]
  · intro h
    unfold RPCClient.MakeCall
    simp only [hm, Bool.false_eq_true, if_false, h]
  · intro statusCode body h hs
    unfold RPCClient.MakeCall
    simp only [hm, Bool.false_eq_true, if_false, h, hs, ne_eq, not_false_eq_true, if_true]
  · intro h
    unfold RPCClient.MakeCall
    simp only [hm, Bool.false_eq_true, if_false, h, ne_eq, not_true_eq_false]
  · intro resp h hn
    unfold RPCClient.MakeCall
    simp only [hm, Bool.false_eq_true, if_false, h, ne_eq, not_true_eq_false]
  · intro resp h hn
    have e : (rc.MakeCall method params).1 = Except.ok resp := by
      unfold RPCClient.MakeCall
      simp only [hm, Bool.false_eq_true, if_false, h, ne_eq, not_true_eq_false, hn]
    refine ⟨e, ?_⟩
    intro r hr
    rw [e] at hr
    cases hr
    rfl

/-- Witness of C25: the block-number call to a node at height 6, whose parameter list is
empty, returns the node's result unchanged. -/
theorem C25_makeCall_outcomes_witness :
    unsupportedValues [] = false ∧
    (node6.MakeCall "eth_blockNumber" []).1 =
      Except.ok { Result := JSONValue.string "0x6", Error := JSONValue.null } :=
  ⟨rfl, ((C25_makeCall_outcomes node6 "eth_blockNumber" []).2 rfl).2.2.2.2.2.2
    { Result := JSONValue.string "0x6", Error := JSONValue.null } rfl rfl |>.1⟩

/-- C24, evaluated on the input of the repository's retry test: a client built with three
retry attempts calls a node that answers the first two requests with status 503 and the
third with a result.  `MakeCall` returns the error of the first answer and has posted exactly
one request. -/
theorem C24_no_retry :
    (NewRPCClient retryTestConfig retryTestNode).config.RetryAttempts = 3 ∧
    ((NewRPCClient retryTestConfig retryTestNode).MakeCall "eth_blockNumber" []).1 =
      Except.error (RPCError.unexpectedStatus 503) ∧
    ((NewRPCClient retryTestConfig retryTestNode).MakeCall "eth_blockNumber" []).2.sent =
      [blockNumberRequest] :=
  ⟨rfl, rfl, rfl⟩


/-! ## The configuration -/

theorem containsRunes_iff (s substr : List Char) :
    containsRunes s substr = true ↔ ∃ a b : List Char, s = a ++ substr ++ b := by
  induction s with
  | nil =>
    rw [containsRunes, List.isPrefixOf_iff_prefix]
    constructor
    · rintro ⟨t, ht⟩
      have hs : substr = [] := (List.append_eq_nil.mp ht).1
      exact ⟨[], [], by rw [hs]; rfl⟩
    · rintro ⟨a, b, h⟩
      have h1 := List.append_eq_nil.mp h.symm
      have h2 := List.append_eq_nil.mp h1.1
      rw [h2.2]
  | cons c cs ih =>
    rw [containsRunes, Bool.or_eq_true, List.isPrefixOf_iff_prefix, ih]
    constructor
    · rintro (⟨t, ht⟩ | ⟨a, b, h⟩)
      · exact ⟨[], t, by rw [List.nil_append, ht]⟩
      · exact ⟨c :: a, b, by rw [h]; rfl⟩
    · rintro ⟨a, b, h⟩
      cases a with
      | nil =>
        left
        exact ⟨b, by rw [h]; rfl⟩
      | cons a0 a1 =>
        right
        rw [List.cons_append, List.cons_append] at h
        exact ⟨a1, b, (List.cons.inj h).2⟩

theorem contains_iff_occurs (s substr : String) : Contains s substr = true ↔ Occurs substr s := by
  unfold Contains Occurs
  rw [containsRunes_iff]
  constructor
  · rintro ⟨a, b, h⟩
    refine ⟨⟨a⟩, ⟨b⟩, ?_⟩
    apply String.ext
    rw [h]
    simp [String.data_append]
  · rintro ⟨a, b, h⟩
    refine ⟨a.data, b.data, ?_⟩
    rw [h]
    simp [String.data_append]

theorem isLocalEndpoint_iff (endpoint : String) :
    isLocalEndpoint endpoint = true ↔
      (Occurs "localhost" endpoint ∨ Occurs "127.0.0.1" endpoint) := by
  unfold isLocalEndpoint
  rw [Bool.or_eq_true, contains_iff_occurs, contains_iff_occurs]

/-- C26: `NewConfig` selects the network settings by the endpoint.  When "localhost" or
"127.0.0.1" occurs in the endpoint the network is local with a timeout of 5 s, 1 attempt, a
retry delay of 1 s and a rate-limit delay of 100 ms; otherwise it is public with a timeout of
10 s, 3 attempts, a retry delay of 2 s and a rate-limit delay of 1 s (durations are in
nanoseconds).  The other arguments are copied unchanged, the database type is "memory", and
`GetServerAddress` is the host, a colon and the port. -/
theorem C26_newConfig (RPCEndpoint ServerHost ServerPort LogFilePath Environment : String)
    (MonitorDelay : Int) :
    ((Occurs "localhost" RPCEndpoint ∨ Occurs "127.0.0.1" RPCEndpoint) →
      (NewConfig RPCEndpoint ServerHost ServerPort LogFilePath Environment MonitorDelay).Network =
        { Type_ := "local", RequestTimeout := 5000000000, RetryAttempts := 1,
          RetryDelay := 1000000000, RateLimitDelay := 100000000 }) ∧
    (¬ (Occurs "localhost" RPCEndpoint ∨ Occurs "127.0.0.1" RPCEndpoint) →
      (NewConfig RPCEndpoint ServerHost ServerPort LogFilePath Environment MonitorDelay).Network =
        { Type_ := "public", RequestTimeout := 10000000000, RetryAttempts := 3,
          RetryDelay := 2000000000, RateLimitDelay := 1000000000 }) ∧
    (NewConfig RPCEndpoint ServerHost ServerPort LogFilePath Environment
      MonitorDelay).RPCEndpoint = RPCEndpoint ∧
    (NewConfig RPCEndpoint ServerHost ServerPort LogFilePath Environment
      MonitorDelay).ServerHost = ServerHost ∧
    (NewConfig RPCEndpoint ServerHost ServerPort LogFilePath Environment
      MonitorDelay).ServerPort = ServerPort ∧
    (NewConfig RPCEndpoint ServerHost ServerPort LogFilePath Environment
      MonitorDelay).LogFilePath = LogFilePath ∧
    (NewConfig RPCEndpoint ServerHost ServerPort LogFilePath Environment
      MonitorDelay).Environment = Environment ∧
    (NewConfig RPCEndpoint ServerHost ServerPort LogFilePath Environment
      MonitorDelay).MonitorDelay = MonitorDelay ∧
    (NewConfig RPCEndpoint ServerHost ServerPort LogFilePath Environment
      MonitorDelay).Database.Type_ = "memory" ∧
    (NewConfig RPCEndpoint ServerHost ServerPort LogFilePath Environment
      MonitorDelay).GetServerAddress = ServerHost ++ ":" ++ ServerPort := by
  refine ⟨?_, ?_, rfl, rfl, rfl, rfl, rfl, rfl, rfl, rfl⟩
  · intro h
    have hl : isLocalEndpoint RPCEndpoint = true := (isLocalEndpoint_iff RPCEndpoint).mpr h
    unfold NewConfig
    simp only [hl, if_true]
    decide
  · intro h
    have hl : ¬ (isLocalEndpoint RPCEndpoint = true) :=
      fun hc => h ((isLocalEndpoint_iff RPCEndpoint).mp hc)
    unfold NewConfig
    simp only [hl, if_false]
    decide

/-- Witness of C26: the endpoint of the repository's configuration test is local, and a
remote endpoint is public. -/
theorem C26_newConfig_witness :
    (NewConfig "http://localhost:8545" "localhost" "8000" "./logs/app.log" "development"
      5).Network.RetryAttempts = 1 ∧
    (NewConfig "https://ethereum-rpc.publicnode.com" "localhost" "8000" "./logs/app.log"
      "development" 5).Network.RetryAttempts = 3 :=
  ⟨congrArg NetworkConfig.RetryAttempts
      ((C26_newConfig "http://localhost:8545" "localhost" "8000" "./logs/app.log" "development"
        5).1 (Or.inl ⟨"http://", ":8545", by decide⟩)),
    congrArg NetworkConfig.RetryAttempts
      ((C26_newConfig "https://ethereum-rpc.publicnode.com" "localhost" "8000" "./logs/app.log"
        "development" 5).2.1
        (fun h => absurd ((isLocalEndpoint_iff _).mpr h) (by decide)))⟩

/-! ## The kind of a notification -/

/-- C23, evaluated on a transfer whose sender alone is subscribed: with `addr1` subscribed
and `addr2` not, the monitor processes the block holding the transfer from `addr1` to
`addr2` and emits one notification; its address is the sender `addr1` (lower-cased), its
timestamp is the block timestamp, and its kind is `TransactionReceived`, not
`TransactionSent`. -/
theorem C23_sent_reported_as_received :
    parserImpl.IsSubscribed asciiCaseTable (monitor5 node6).parser addr1 = true ∧
    parserImpl.IsSubscribed asciiCaseTable (monitor5 node6).parser addr2 = false ∧
    (BlockMonitor.processNewBlocks asciiCaseTable (monitor5 node6)).2.notifier.map
        (fun n => (n.Type_, n.Address, n.Transaction.FromAddress, n.Timestamp)) =
      [(NotificationType.TransactionReceived, "0x742d35cc6634c0532925a3b844bc454e4438f44e",
        "0x742d35cc6634c0532925a3b844bc454e4438f44e", 1000)] := by
  decide


/-! ## The transactions of a block -/

theorem processTransaction_bad_indep (U : CaseTable) (m : GoMap JSONValue)
    (blockTimestamp : Int) (f : String) (hf : f ∈ ["from", "value", "hash", "blockNumber"])
    (hbad : RequiredFieldBad m f) :
    ∃ e, ∀ p : parserImpl,
      parserImpl.ProcessTransaction U p (some m) blockTimestamp = ((none, some e), p) := by
  have hb := assertString_of_bad m f hbad
  by_cases c1 : (!(assertString (m.get? "from")).2 ||
      decide ((assertString (m.get? "from")).1 = "")) = true
  · refine ⟨ProcessError.invalidFrom, fun p => ?_⟩
    unfold parserImpl.ProcessTransaction
    simp only []
    rw [if_pos c1]
  by_cases c2 : (!(assertString (m.get? "value")).2 ||
      decide ((assertString (m.get? "value")).1 = "")) = true
  · refine ⟨ProcessError.invalidValue, fun p => ?_⟩
    unfold parserImpl.ProcessTransaction
    simp only []
    rw [if_neg c1, if_pos c2]
  by_cases c3 : (!(assertString (m.get? "hash")).2 ||
      decide ((assertString (m.get? "hash")).1 = "")) = true
  · refine ⟨ProcessError.invalidHash, fun p => ?_⟩
    unfold parserImpl.ProcessTransaction
    simp only []
    rw [if_neg c1, if_neg c2, if_pos c3]
  by_cases c4 : (!(assertString (m.get? "blockNumber")).2 ||
      decide ((assertString (m.get? "blockNumber")).1 = "")) = true
  · refine ⟨ProcessError.invalidBlockNumber, fun p => ?_⟩
    unfold parserImpl.ProcessTransaction
    simp only []
    rw [if_neg c1, if_neg c2, if_neg c3, if_pos c4]
  exfalso
  simp only [List.mem_cons, List.mem_singleton, List.not_mem_nil, or_false] at hf
  rcases hf with rfl | rfl | rfl | rfl
  · rcases hb with hb | hb <;> simp [hb] at c1
  · rcases hb with hb | hb <;> simp [hb] at c2
  · rcases hb with hb | hb <;> simp [hb] at c3
  · rcases hb with hb | hb <;> simp [hb] at c4

theorem processTransaction_result (U : CaseTable) (p q : parserImpl)
    (tx : Option (GoMap JSONValue)) (blockTimestamp : Int) :
    (p.ProcessTransaction U tx blockTimestamp).1.2 =
      (q.ProcessTransaction U tx blockTimestamp).1.2 ∧
    (p.storage.subscribers = q.storage.subscribers →
      (p.ProcessTransaction U tx blockTimestamp).1.1 =
        (q.ProcessTransaction U tx blockTimestamp).1.1) := by
  cases tx with
  | none => exact ⟨rfl, fun _ => rfl⟩
  | some m =>
    have bad : ∀ f ∈ ["from", "value", "hash", "blockNumber"], RequiredFieldBad m f →
        (p.ProcessTransaction U (some m) blockTimestamp).1.2 =
          (q.ProcessTransaction U (some m) blockTimestamp).1.2 ∧
        (p.storage.subscribers = q.storage.subscribers →
          (p.ProcessTransaction U (some m) blockTimestamp).1.1 =
            (q.ProcessTransaction U (some m) blockTimestamp).1.1) := by
      intro f hf hb
      obtain ⟨e, he⟩ := processTransaction_bad_indep U m blockTimestamp f hf hb
      rw [he p, he q]
      exact ⟨rfl, fun _ => rfl⟩
    rcases field_dichotomy m "from" with h1 | ⟨sender, h1, n1⟩
    · exact bad _ (by simp) h1
    rcases field_dichotomy m "value" with h2 | ⟨value, h2, n2⟩
    · exact bad _ (by simp) h2
    rcases field_dichotomy m "hash" with h3 | ⟨hash, h3, n3⟩
    · exact bad _ (by simp) h3
    rcases field_dichotomy m "blockNumber" with h4 | ⟨blockNumber, h4, n4⟩
    · exact bad _ (by simp) h4
    rw [processTransaction_fields U p m sender value hash blockNumber blockTimestamp
      ⟨h1, n1, h2, n2, h3, n3, h4, n4⟩,
      processTransaction_fields U q m sender value hash blockNumber blockTimestamp
      ⟨h1, n1, h2, n2, h3, n3, h4, n4⟩]
    cases e1 : (parseHexToInt64 (TrimPrefix value "0x")).2 with
    | some e => exact ⟨rfl, fun _ => rfl⟩
    | none =>
      cases e2 : (parseHexToInt64 (TrimPrefix blockNumber "0x")).2 with
      | some e => exact ⟨rfl, fun _ => rfl⟩
      | none =>
        simp only []
        constructor
        · split <;> split <;> rfl
        · intro hs
          simp only [MemoryStorage.IsSubscribed, hs]
          split <;> rfl

theorem processTransaction_subscribers (U : CaseTable) (p : parserImpl)
    (tx : Option (GoMap JSONValue)) (blockTimestamp : Int) :
    (p.ProcessTransaction U tx blockTimestamp).2.storage.subscribers =
      p.storage.subscribers := by
  rcases processTransaction_cases U p tx blockTimestamp with ⟨r, e⟩ | ⟨t, e, _⟩
  · rw [e]
  · rw [e]
    exact storeTransaction_subscribers U p.storage t

theorem processTransaction_rejected (U : CaseTable) (p : parserImpl)
    (tx : Option (GoMap JSONValue)) (blockTimestamp : Int)
    (h : (p.ProcessTransaction U tx blockTimestamp).1.2 ≠ none) :
    (p.ProcessTransaction U tx blockTimestamp).2 = p := by
  rcases processTransaction_cases U p tx blockTimestamp with ⟨r, e⟩ | ⟨t, e, _⟩
  · rw [e]
  · rw [e] at h
    exact absurd rfl h

theorem processTransaction_getTransactions (U : CaseTable) (p : parserImpl)
    (tx : Option (GoMap JSONValue)) (blockTimestamp : Int) (A : String) :
    (p.ProcessTransaction U tx blockTimestamp).2.GetTransactions U A =
      p.GetTransactions U A ++
        historyFor U A (p.ProcessTransaction U tx blockTimestamp).1.1.toList := by
  rcases processTransaction_cases U p tx blockTimestamp with ⟨r, e⟩ | ⟨t, e, _⟩
  · rw [e]
    simp [historyFor]
  · rw [e]
    show GetTransactions U (StoreTransaction U p.storage t) A = _
    rw [getTransactions_storeTransaction]
    simp [historyFor]
    rfl

theorem historyFor_append (U : CaseTable) (A : String) (xs ys : List Transaction) :
    historyFor U A (xs ++ ys) = historyFor U A xs ++ historyFor U A ys := by
  induction xs with
  | nil => rfl
  | cons x xs ih => rw [List.cons_append, historyFor, historyFor, ih, List.append_assoc]


theorem offerAll_subscribers (U : CaseTable) (ts : Int) (txs : List JSONValue)
    (p : parserImpl) : (offerAll U ts txs p).storage.subscribers = p.storage.subscribers := by
  induction txs generalizing p with
  | nil => rfl
  | cons tx rest ih =>
    cases tx with
    | object fields =>
      rw [offerAll, ih, processTransaction_subscribers]
    | null => exact ih p
    | bool _ => exact ih p
    | number _ => exact ih p
    | string _ => exact ih p
    | array _ => exact ih p

theorem offeredRecords_eq_filterMap (U : CaseTable) (ts : Int) (txs : List JSONValue)
    (p q : parserImpl) (h : p.storage.subscribers = q.storage.subscribers) :
    offeredRecords U ts txs p = txs.filterMap (recordOfEntry U ts q) := by
  induction txs generalizing p with
  | nil => rfl
  | cons tx rest ih =>
    cases tx with
    | object fields =>
      rw [offeredRecords, ih _ ((processTransaction_subscribers U p _ ts).trans h),
        (processTransaction_result U p q (some fields) ts).2 h]
      cases hr : (q.ProcessTransaction U (some fields) ts).1.1 with
      | none =>
        rw [List.filterMap_cons_none]
        · rfl
        · exact hr
      | some t =>
        rw [List.filterMap_cons_some]
        · rfl
        · exact hr
    | null => exact ih p h
    | bool _ => exact ih p h
    | number _ => exact ih p h
    | string _ => exact ih p h
    | array _ => exact ih p h

theorem offerAll_getTransactions (U : CaseTable) (ts : Int) (txs : List JSONValue)
    (p : parserImpl) (A : String) :
    (offerAll U ts txs p).GetTransactions U A =
      p.GetTransactions U A ++ historyFor U A (offeredRecords U ts txs p) := by
  induction txs generalizing p with
  | nil => simp [offerAll, offeredRecords, historyFor]
  | cons tx rest ih =>
    cases tx with
    | object fields =>
      rw [offerAll, offeredRecords, ih, processTransaction_getTransactions, historyFor_append,
        List.append_assoc]
    | null => exact ih p
    | bool _ => exact ih p
    | number _ => exact ih p
    | string _ => exact ih p
    | array _ => exact ih p

theorem offeredRecords_relevant (U : CaseTable) (ts : Int) (txs : List JSONValue)
    (p q : parserImpl) (h : p.storage.subscribers = q.storage.subscribers) :
    ∀ t ∈ offeredRecords U ts txs p,
      (q.IsSubscribed U t.FromAddress = true ∨
        (t.ToAddress ≠ "" ∧ q.IsSubscribed U t.ToAddress = true)) ∧
      t.Timestamp = ts := by
  induction txs generalizing p with
  | nil =>
    intro t ht
    cases ht
  | cons tx rest ih =>
    cases tx with
    | object fields =>
      intro t ht
      rw [offeredRecords, List.mem_append] at ht
      rcases ht with ht | ht
      · rcases processTransaction_cases U p (some fields) ts with ⟨r, e⟩ | ⟨t1, e, hsub, _, _, hts⟩
        · rw [e] at ht
          cases ht
        · rw [e] at ht
          simp only [Option.toList, List.mem_singleton] at ht
          subst ht
          refine ⟨?_, hts⟩
          unfold parserImpl.IsSubscribed MemoryStorage.IsSubscribed
          rw [← h]
          exact hsub
      · exact ih _ ((processTransaction_subscribers U p _ ts).trans h) t ht
    | null => exact ih p h
    | bool _ => exact ih p h
    | number _ => exact ih p h
    | string _ => exact ih p h
    | array _ => exact ih p h

theorem notificationOf_congr (U : CaseTable) (p q : parserImpl)
    (h : p.storage.subscribers = q.storage.subscribers) (t : Transaction) :
    notificationOf U p t = notificationOf U q t := by
  unfold notificationOf parserImpl.IsSubscribed MemoryStorage.IsSubscribed
  rw [h]

theorem processTransactions_notifier (U : CaseTable) (ts : Int) (txs : List JSONValue)
    (m : BlockMonitor) (q : parserImpl)
    (h : m.parser.storage.subscribers = q.storage.subscribers) :
    (BlockMonitor.processTransactions U ts txs m).notifier =
      m.notifier ++ (offeredRecords U ts txs m.parser).map (notificationOf U q) := by
  induction txs generalizing m with
  | nil => simp [BlockMonitor.processTransactions, offeredRecords]
  | cons tx rest ih =>
    cases tx with
    | object fields =>
      rw [BlockMonitor.processTransactions, offeredRecords]
      simp only [assertObject, Bool.not_true, Bool.false_eq_true, if_false]
      have hsub := processTransaction_subscribers U m.parser (some fields) ts
      rcases processTransaction_cases U m.parser (some fields) ts with ⟨r, e⟩ | ⟨t, e, _⟩
      · rw [e] at hsub ⊢
        cases r with
        | none =>
          simp only []
          rw [ih _ (hsub.trans h)]
          rfl
        | some err =>
          simp only []
          rw [ih _ (hsub.trans h)]
          rfl
      · rw [e] at hsub ⊢
        simp only []
        rw [ih _ (hsub.trans h)]
        have hn : notificationOf U q t =
            notificationOf U { m.parser with storage := StoreTransaction U m.parser.storage t } t :=
          (notificationOf_congr U _ _ (hsub.trans h) t).symm
        simp only [BlockMonitor.notifyTransaction, Option.toList, List.singleton_append,
          List.map_cons, List.append_assoc, hn]
        rfl
    | null => exact ih m h
    | bool _ => exact ih m h
    | number _ => exact ih m h
    | string _ => exact ih m h
    | array _ => exact ih m h

theorem processTransactions_append (U : CaseTable) (ts : Int) (xs ys : List JSONValue)
    (m : BlockMonitor) :
    BlockMonitor.processTransactions U ts (xs ++ ys) m =
      BlockMonitor.processTransactions U ts ys (BlockMonitor.processTransactions U ts xs m) := by
  induction xs generalizing m with
  | nil => rfl
  | cons tx rest ih =>
    cases tx with
    | object fields =>
      rw [List.cons_append, BlockMonitor.processTransactions, BlockMonitor.processTransactions]
      simp only [assertObject, Bool.not_true, Bool.false_eq_true, if_false]
      split
      · exact ih _
      · split
        · exact ih _
        · exact ih _
    | null => exact ih m
    | bool _ => exact ih m
    | number _ => exact ih m
    | string _ => exact ih m
    | array _ => exact ih m

theorem processTransactions_bad_entry (U : CaseTable) (ts : Int) (bad : JSONValue)
    (m : BlockMonitor)
    (hbad : ∀ tx, bad = JSONValue.object tx →
      (m.parser.ProcessTransaction U (some tx) ts).1.2 ≠ none) :
    BlockMonitor.processTransactions U ts [bad] m = m := by
  cases bad with
  | object fields =>
    have hb := hbad fields rfl
    have hp := processTransaction_rejected U m.parser (some fields) ts hb
    rw [BlockMonitor.processTransactions]
    simp only [assertObject, Bool.not_true, Bool.false_eq_true, if_false, hp]
    cases he : (m.parser.ProcessTransaction U (some fields) ts).1.2 with
    | none => exact absurd he hb
    | some err => rfl
  | null => rfl
  | bool _ => rfl
  | number _ => rfl
  | string _ => rfl
  | array _ => rfl


/-! ## One block -/

theorem processBlock_returned (U : CaseTable) (m : BlockMonitor) (L : Int)
    (txs : List JSONValue) (ts : Int) (hb : BlockReturned m L txs ts) :
    (BlockMonitor.processBlock U m L).1 = none ∧
    (BlockMonitor.processBlock U m L).2.parser =
      (BlockMonitor.processTransactions U ts txs m).parser.UpdateCurrentBlock L ∧
    (BlockMonitor.processBlock U m L).2.notifier =
      (BlockMonitor.processTransactions U ts txs m).notifier := by
  obtain ⟨resp, block, tsHex, h1, h2, h3, h4, h5⟩ := hb
  have key : ∀ rc : RPCClient,
      (BlockMonitor.processTransactions U ts txs { m with rpcClient := rc }).parser =
        (BlockMonitor.processTransactions U ts txs m).parser ∧
      (BlockMonitor.processTransactions U ts txs { m with rpcClient := rc }).notifier =
        (BlockMonitor.processTransactions U ts txs m).notifier := by
    intro rc
    constructor
    · rw [(processTransactions_offerAll U ts txs _).1, (processTransactions_offerAll U ts txs m).1]
    · rw [processTransactions_notifier U ts txs { m with rpcClient := rc } m.parser rfl,
        processTransactions_notifier U ts txs m m.parser rfl]
  unfold BlockMonitor.processBlock
  simp only [h1, h2, assertObject, h3, assertArray, h4, assertString, monitor_parseHexToInt64,
    h5, Bool.not_true, Bool.false_eq_true, if_false]
  exact ⟨trivial, congrArg (fun p => parserImpl.UpdateCurrentBlock p L) (key _).1, (key _).2⟩

theorem processBlock_without_list (U : CaseTable) (m : BlockMonitor) (L : Int)
    (hb : BlockWithoutList m L) :
    (BlockMonitor.processBlock U m L).1 = none ∧
    (BlockMonitor.processBlock U m L).2.parser = m.parser ∧
    (BlockMonitor.processBlock U m L).2.notifier = m.notifier := by
  obtain ⟨resp, block, h1, h2, h3⟩ := hb
  have ha : (assertArray (block.get? "transactions")).2 = false := by
    rcases h3 with h3 | ⟨v, h3, hv⟩
    · rw [h3]
      rfl
    · rw [h3]
      cases v with
      | array xs => exact absurd rfl (hv xs)
      | _ => rfl
  unfold BlockMonitor.processBlock
  simp only [h1, h2, assertObject, ha, Bool.not_true, Bool.not_false, Bool.false_eq_true,
    if_false, if_true]
  exact ⟨trivial, trivial, trivial⟩

theorem processBlock_error_frame (U : CaseTable) (m : BlockMonitor) (L : Int)
    (h : (BlockMonitor.processBlock U m L).1.isSome = true) :
    (BlockMonitor.processBlock U m L).2.parser = m.parser ∧
    (BlockMonitor.processBlock U m L).2.notifier = m.notifier := by
  revert h
  unfold BlockMonitor.processBlock
  simp only []
  split
  · intro _
    exact ⟨rfl, rfl⟩
  · split
    · intro _
      exact ⟨rfl, rfl⟩
    · split
      · intro _
        exact ⟨rfl, rfl⟩
      · split
        · intro _
          exact ⟨rfl, rfl⟩
        · split
          · intro _
            exact ⟨rfl, rfl⟩
          · intro h
            cases h


theorem processTransactions_skip (U : CaseTable) (ts : Int) (pre post : List JSONValue)
    (bad : JSONValue) (m : BlockMonitor)
    (hbad : ∀ tx, bad = JSONValue.object tx →
      ∃ p : parserImpl, (p.ProcessTransaction U (some tx) ts).1.2 ≠ none) :
    BlockMonitor.processTransactions U ts (pre ++ bad :: post) m =
      BlockMonitor.processTransactions U ts (pre ++ post) m := by
  have hb : ∀ m1 : BlockMonitor, BlockMonitor.processTransactions U ts [bad] m1 = m1 := by
    intro m1
    apply processTransactions_bad_entry
    intro tx htx
    obtain ⟨p, hp⟩ := hbad tx htx
    rw [(processTransaction_result U m1.parser p (some tx) ts).1]
    exact hp
  have e : pre ++ bad :: post = pre ++ ([bad] ++ post) := rfl
  rw [e, processTransactions_append, processTransactions_append, hb, processTransactions_append]

/-- C21: when the transaction list of a block holds an entry that is not an object, or that
`ProcessTransaction` rejects with an error, `processBlock` returns no error, the cursor is the
height of the block afterwards, and the store and the notifications are the ones
`processBlock` produces from the same state for the block without that entry. -/
theorem C21_bad_entry_skipped (U : CaseTable) (m m' : BlockMonitor) (L ts : Int)
    (pre post : List JSONValue) (bad : JSONValue)
    (hb : BlockReturned m L (pre ++ bad :: post) ts)
    (hb' : BlockReturned m' L (pre ++ post) ts)
    (hp : m'.parser = m.parser) (hn : m'.notifier = m.notifier)
    (hbad : ∀ tx, bad = JSONValue.object tx →
      ∃ p : parserImpl, (p.ProcessTransaction U (some tx) ts).1.2 ≠ none) :
    (BlockMonitor.processBlock U m L).1 = none ∧
    (BlockMonitor.processBlock U m L).2.parser.GetCurrentBlock = L ∧
    (BlockMonitor.processBlock U m L).2.parser = (BlockMonitor.processBlock U m' L).2.parser ∧
    (BlockMonitor.processBlock U m L).2.notifier =
      (BlockMonitor.processBlock U m' L).2.notifier := by
  obtain ⟨e1, e2, e3⟩ := processBlock_returned U m L _ ts hb
  obtain ⟨_, e2', e3'⟩ := processBlock_returned U m' L _ ts hb'
  have hskip := processTransactions_skip U ts pre post bad m hbad
  refine ⟨e1, ?_, ?_, ?_⟩
  · rw [e2]
    rfl
  · rw [e2, e2', hskip, (processTransactions_offerAll U ts _ m).1,
      (processTransactions_offerAll U ts _ m').1, hp]
  · rw [e3, e3', hskip, processTransactions_notifier U ts _ m m.parser rfl,
      processTransactions_notifier U ts _ m' m.parser (by rw [hp]), hp, hn]

/-- Witness of C21: a block whose list holds a raw transaction without a hash, which is the
entry skipped, and `rawTx`; the block without that entry is the one of `node6`. -/
theorem C21_bad_entry_skipped_witness :
    (BlockMonitor.processBlock asciiCaseTable (monitor5 node6BadEntry) 6).2.parser.GetCurrentBlock
      = 6 ∧
    (BlockMonitor.processBlock asciiCaseTable (monitor5 node6BadEntry) 6).2.notifier =
      (BlockMonitor.processBlock asciiCaseTable (monitor5 node6) 6).2.notifier ∧
    (BlockMonitor.processBlock asciiCaseTable (monitor5 node6) 6).2.notifier.length = 1 :=
  ⟨(C21_bad_entry_skipped asciiCaseTable (monitor5 node6BadEntry) (monitor5 node6) 6 1000 []
      [JSONValue.object rawTx] (JSONValue.object rawTxNoHash)
      ⟨_, _, "0x3e8", rfl, rfl, rfl, rfl, by decide⟩
      ⟨_, _, "0x3e8", rfl, rfl, rfl, rfl, by decide⟩ rfl rfl
      (fun tx h => ⟨parser5, by cases h; decide⟩)).2.1,
    (C21_bad_entry_skipped asciiCaseTable (monitor5 node6BadEntry) (monitor5 node6) 6 1000 []
      [JSONValue.object rawTx] (JSONValue.object rawTxNoHash)
      ⟨_, _, "0x3e8", rfl, rfl, rfl, rfl, by decide⟩
      ⟨_, _, "0x3e8", rfl, rfl, rfl, rfl, by decide⟩ rfl rfl
      (fun tx h => ⟨parser5, by cases h; decide⟩)).2.2.2, by decide⟩


/-- C22: the transactions of a block are processed in list order.  The records of the block
are the records `ProcessTransaction` returns for the entries of the transaction list, in the
order of the list; every address history is extended by the entries of these records in
that order, and the notifications emitted carry these records in that order. -/
theorem C22_block_order (U : CaseTable) (m : BlockMonitor) (L : Int) (txs : List JSONValue)
    (ts : Int) (hb : BlockReturned m L txs ts) :
    (∀ A : String,
      (BlockMonitor.processBlock U m L).2.parser.GetTransactions U A =
        m.parser.GetTransactions U A ++
          historyFor U A (txs.filterMap (recordOfEntry U ts m.parser))) ∧
    (BlockMonitor.processBlock U m L).2.notifier.map Notification.Transaction =
      m.notifier.map Notification.Transaction ++ txs.filterMap (recordOfEntry U ts m.parser) := by
  obtain ⟨_, e2, e3⟩ := processBlock_returned U m L txs ts hb
  have hr := offeredRecords_eq_filterMap U ts txs m.parser m.parser rfl
  constructor
  · intro A
    rw [e2, (processTransactions_offerAll U ts txs m).1, ← hr]
    exact offerAll_getTransactions U ts txs m.parser A
  · rw [e3, processTransactions_notifier U ts txs m m.parser rfl, List.map_append, List.map_map,
      ← hr]
    congr 1
    exact List.map_id _

/-- Witness of C22: a block with the two transfers `rawTx` (hash "0xabc") and `rawTx2` (hash
"0xdef"), in this order, processed with `addr1` subscribed: the notifications carry the two
records in the order of the block, and so does the history of `addr1`, the sender of the
first and the receiver of the second. -/
theorem C22_block_order_witness :
    BlockReturned (monitor5 node6Two) 6 [JSONValue.object rawTx, JSONValue.object rawTx2] 1000 ∧
    ((BlockMonitor.processBlock asciiCaseTable (monitor5 node6Two) 6).2.notifier.map
        Notification.Transaction).map Transaction.Hash = ["0xabc", "0xdef"] ∧
    ((BlockMonitor.processBlock asciiCaseTable (monitor5 node6Two) 6).2.parser.GetTransactions
        asciiCaseTable addr1).map Transaction.Hash = ["0xabc", "0xdef"] :=
  have hb : BlockReturned (monitor5 node6Two) 6
      [JSONValue.object rawTx, JSONValue.object rawTx2] 1000 :=
    ⟨_, _, "0x3e8", rfl, rfl, rfl, rfl, by decide⟩
  ⟨hb,
    (congrArg (List.map Transaction.Hash)
      (C22_block_order asciiCaseTable (monitor5 node6Two) 6
        [JSONValue.object rawTx, JSONValue.object rawTx2] 1000 hb).2).trans (by decide),
    (congrArg (List.map Transaction.Hash)
      ((C22_block_order asciiCaseTable (monitor5 node6Two) 6
        [JSONValue.object rawTx, JSONValue.object rawTx2] 1000 hb).1 addr1)).trans (by decide)⟩

/-! ## Ticks that fail or find no transaction list -/

/-- C28: a tick that fails is atomic: whenever `processNewBlocks` returns an error, the
parser, and with it the store (cursor, histories and subscribers), is exactly as before the
tick, and no notification has been emitted. -/
theorem C28_failed_tick_atomic (U : CaseTable) (m : BlockMonitor)
    (h : (BlockMonitor.processNewBlocks U m).1.isSome = true) :
    (BlockMonitor.processNewBlocks U m).2.parser = m.parser ∧
    (BlockMonitor.processNewBlocks U m).2.parser.storage = m.parser.storage ∧
    (BlockMonitor.processNewBlocks U m).2.notifier = m.notifier := by
  have key : (BlockMonitor.processNewBlocks U m).2.parser = m.parser ∧
      (BlockMonitor.processNewBlocks U m).2.notifier = m.notifier := by
    cases hl : latestHeight m with
    | none =>
      rw [(processNewBlocks_of_no_latest U m hl).1]
      exact (afterBlockNumberCall_sent m).2
    | some L =>
      rw [processNewBlocks_of_latest U m L hl] at h ⊢
      by_cases hgt : L > m.parser.GetCurrentBlock
      · rw [if_pos hgt] at h ⊢
        obtain ⟨e1, e2⟩ := processBlock_error_frame U (afterBlockNumberCall m) L h
        rw [e1, e2]
        exact (afterBlockNumberCall_sent m).2
      · rw [if_neg hgt] at h
        cases h
  exact ⟨key.1, congrArg parserImpl.storage key.1, key.2⟩

/-- Witness of C28: the node reports height 6 and returns a block without a timestamp. -/
theorem C28_failed_tick_atomic_witness :
    (BlockMonitor.processNewBlocks asciiCaseTable (monitor5 node6NoTimestamp)).1.isSome = true ∧
    (BlockMonitor.processNewBlocks asciiCaseTable (monitor5 node6NoTimestamp)).2.parser =
      (monitor5 node6NoTimestamp).parser ∧
    (BlockMonitor.processNewBlocks asciiCaseTable (monitor5 node6NoTimestamp)).2.notifier =
      (monitor5 node6NoTimestamp).notifier :=
  ⟨by decide,
    (C28_failed_tick_atomic asciiCaseTable (monitor5 node6NoTimestamp) (by decide)).1,
    (C28_failed_tick_atomic asciiCaseTable (monitor5 node6NoTimestamp) (by decide)).2.2⟩

/-- C29: when the block fetched is an object whose "transactions" field is absent or is not
a list, `processBlock` returns no error, leaves the parser with its store as it was (nothing
is processed), emits no notification, and the cursor is not advanced. -/
theorem C29_block_without_list (U : CaseTable) (m : BlockMonitor) (L : Int)
    (hb : BlockWithoutList m L) :
    (BlockMonitor.processBlock U m L).1 = none ∧
    (BlockMonitor.processBlock U m L).2.parser = m.parser ∧
    (BlockMonitor.processBlock U m L).2.notifier = m.notifier ∧
    (BlockMonitor.processBlock U m L).2.parser.GetCurrentBlock = m.parser.GetCurrentBlock := by
  obtain ⟨e1, e2, e3⟩ := processBlock_without_list U m L hb
  exact ⟨e1, e2, e3, by rw [e2]⟩

/-- Witness of C29: the block of height 6 has a timestamp and no transaction list; the
cursor stays at 5. -/
theorem C29_block_without_list_witness :
    BlockWithoutList (monitor5 node6NoTransactions) 6 ∧
    (monitor5 node6NoTransactions).parser.GetCurrentBlock = 5 ∧
    (BlockMonitor.processBlock asciiCaseTable (monitor5 node6NoTransactions)
      6).2.parser.GetCurrentBlock = (monitor5 node6NoTransactions).parser.GetCurrentBlock :=
  ⟨⟨_, _, rfl, rfl, Or.inl rfl⟩, by decide,
    (C29_block_without_list asciiCaseTable (monitor5 node6NoTransactions) 6
      ⟨_, _, rfl, rfl, Or.inl rfl⟩).2.2.2⟩

/-! ## One notification for each record -/

/-- C30: while a block is processed the subscriber set does not change, and the notifications
emitted are one for each record `ProcessTransaction` returned, in order, each carrying its
record (so none for an entry that is rejected or irrelevant, and one, not two, for a record
with both sides subscribed); the address of each is subscribed: it is the receiver of the
record when the receiver is subscribed, and the sender otherwise. -/
theorem C30_one_notification_per_record (U : CaseTable) (m : BlockMonitor) (L : Int)
    (txs : List JSONValue) (ts : Int) (hb : BlockReturned m L txs ts) :
    (∀ A : String,
      (BlockMonitor.processBlock U m L).2.parser.IsSubscribed U A = m.parser.IsSubscribed U A) ∧
    ∃ new : List Notification,
      (BlockMonitor.processBlock U m L).2.notifier = m.notifier ++ new ∧
      new.map Notification.Transaction = offeredRecords U ts txs m.parser ∧
      new.length = (offeredRecords U ts txs m.parser).length ∧
      ∀ n ∈ new,
        m.parser.IsSubscribed U n.Address = true ∧
        n.Address =
          (if m.parser.IsSubscribed U n.Transaction.ToAddress = true
            then n.Transaction.ToAddress else n.Transaction.FromAddress) := by
  obtain ⟨_, e2, e3⟩ := processBlock_returned U m L txs ts hb
  constructor
  · intro A
    rw [e2, (processTransactions_offerAll U ts txs m).1]
    unfold parserImpl.IsSubscribed MemoryStorage.IsSubscribed
    show (((offerAll U ts txs m.parser).storage.subscribers.get? _).isSome) = _
    rw [offerAll_subscribers]
  · refine ⟨(offeredRecords U ts txs m.parser).map (notificationOf U m.parser), ?_, ?_, ?_, ?_⟩
    · rw [e3, processTransactions_notifier U ts txs m m.parser rfl]
    · rw [List.map_map]
      exact List.map_id _
    · rw [List.length_map]
    · intro n hn
      rw [List.mem_map] at hn
      obtain ⟨t, ht, rfl⟩ := hn
      have hrel := (offeredRecords_relevant U ts txs m.parser m.parser rfl t ht).1
      show m.parser.IsSubscribed U
          (if m.parser.IsSubscribed U t.ToAddress = true then t.ToAddress else t.FromAddress)
            = true ∧ _
      refine ⟨?_, rfl⟩
      by_cases hto : m.parser.IsSubscribed U t.ToAddress = true
      · rw [if_pos hto]
        exact hto
      · rw [if_neg hto]
        rcases hrel with hf | ⟨_, hf⟩
        · exact hf
        · exact absurd hf hto

/-- Witness of C30: both addresses of `rawTx` are subscribed, and the block of `node6`
yields one notification. -/
theorem C30_one_notification_per_record_witness :
    parserImpl.IsSubscribed asciiCaseTable (monitor12 node6).parser addr1 = true ∧
    parserImpl.IsSubscribed asciiCaseTable (monitor12 node6).parser addr2 = true ∧
    (BlockMonitor.processBlock asciiCaseTable (monitor12 node6) 6).2.notifier.length = 1 ∧
    ∃ new : List Notification,
      (BlockMonitor.processBlock asciiCaseTable (monitor12 node6) 6).2.notifier =
        (monitor12 node6).notifier ++ new ∧
      new.map Notification.Transaction =
        offeredRecords asciiCaseTable 1000 [JSONValue.object rawTx] (monitor12 node6).parser ∧
      new.length =
        (offeredRecords asciiCaseTable 1000 [JSONValue.object rawTx]
          (monitor12 node6).parser).length ∧
      ∀ n ∈ new,
        (monitor12 node6).parser.IsSubscribed asciiCaseTable n.Address = true ∧
        n.Address =
          (if (monitor12 node6).parser.IsSubscribed asciiCaseTable n.Transaction.ToAddress = true
            then n.Transaction.ToAddress else n.Transaction.FromAddress) :=
  ⟨by decide, by decide, by decide,
    (C30_one_notification_per_record asciiCaseTable (monitor12 node6) 6
      [JSONValue.object rawTx] 1000 ⟨_, _, "0x3e8", rfl, rfl, rfl, rfl, by decide⟩).2⟩

end EthTxParser
